import Mathlib

/-!
# yc-tracker-go-data-import: a shallow embedding and its verified properties

The Go program synchronises issues, their change history and the status types of a
remote tracker into a relational store.  This file embeds

* `pkg/tracker/service.go`: `getDisplayValue`, the per-issue changelog task, the
  channels and the progress tracker of `GetChangelogsConcurrently`, the scroll loop of
  `GetIssues`, `GetStatusTypes`, `GetIssuesCount`;
* `internal/repository/service.go`: `SaveIssues`, `SaveChangelogs`, `SaveStatusTypes`
  over tables with the unique keys named by the `ON CONFLICT` clauses, and
  `GetLastUpdateTime`;
* `internal/service/service.go`: `Sync`.

Everything the program obtains from outside (HTTP answers, the limiter, the database
driver, the order in which goroutines finish) is an explicit argument of the embedded
function.  Definitions come first, theorems follow.
-/

namespace Tracker

/-! ## Values decoded from JSON into `interface{}` -/

/-- An IEEE-754 binary64 number, kept as its 64-bit pattern.  The program never does
arithmetic on such a number: it compares it with zero and prints it. -/
structure Float64 where
  bits : Nat
deriving DecidableEq, Repr

/-- Go's `f == 0` on a float64: true for both signed zeros. -/
def Float64.isZero (f : Float64) : Bool :=
  f.bits == 0 || f.bits == 2 ^ 63

/-- What `encoding/json` stores into an `interface{}`: `nil`, `bool`, `float64`,
`string`, `[]interface{}` or `map[string]interface{}` (the map as its list of
entries). -/
inductive JValue where
  | null : JValue
  | bool (b : Bool) : JValue
  | number (f : Float64) : JValue
  | str (s : String) : JValue
  | arr (items : List JValue) : JValue
  | obj (entries : List (String × JValue)) : JValue

/-- Go's `strings.Join(elems, sep)`. -/
def stringsJoin (elems : List String) (sep : String) : String :=
  sep.intercalate elems

/-- Go's `m[key]` on a `map[string]interface{}` given by its entries. -/
def mapIndex (m : List (String × JValue)) (key : String) : Option JValue :=
  List.lookup key m

/-- Lexicographic order on character codes, the order of Go's `<` on strings. -/
def lexLe : List Char → List Char → Bool
  | [], _ => true
  | _ :: _, [] => false
  | a :: as, b :: bs => a.toNat < b.toNat || (a.toNat == b.toNat && lexLe as bs)

/-- Go's `a <= b` on strings, used by `fmt` to order the keys of a printed map. -/
def keyLe (a b : String) : Bool :=
  lexLe a.toList b.toList

mutual
/-- Go's `fmt.Sprintf("%v", v)` on a decoded JSON value: `<nil>`, `true`/`false`, the
string itself, `[e1 e2 ...]` for a slice and `map[k1:v1 k2:v2 ...]` with the keys in
sorted order for a map.  The rendering of a float64 (strconv's shortest `%g`) is the
parameter `fmtFloat`. -/
def Sprintf_v (fmtFloat : Float64 → String) : JValue → String
  | .null => "<nil>"
  | .bool b => if b then "true" else "false"
  | .number f => fmtFloat f
  | .str s => s
  | .arr items => "[" ++ stringsJoin (Sprintf_vItems fmtFloat items) " " ++ "]"
  | .obj entries =>
    "map[" ++ stringsJoin
      (((Sprintf_vEntries fmtFloat entries).insertionSort (fun a b => keyLe a.1 b.1)).map
        (fun kv => kv.1 ++ ":" ++ kv.2)) " " ++ "]"
/-- The elements of a slice, each formatted with `%v`. -/
def Sprintf_vItems (fmtFloat : Float64 → String) : List JValue → List String
  | [] => []
  | v :: vs => Sprintf_v fmtFloat v :: Sprintf_vItems fmtFloat vs
/-- The entries of a map, each value formatted with `%v`. -/
def Sprintf_vEntries (fmtFloat : Float64 → String) :
    List (String × JValue) → List (String × String)
  | [] => []
  | (k, v) :: rest => (k, Sprintf_v fmtFloat v) :: Sprintf_vEntries fmtFloat rest
end

/-- The loop body of the `[]interface{}` case of `getDisplayValue`: an item that is a
map whose `display` entry is a string appends that string, any other item is skipped. -/
def appendDisplay (displays : List String) (item : JValue) : List String :=
  match item with
  | .obj m =>
    match mapIndex m "display" with
    | some (.str display) => displays ++ [display]
    | _ => displays
  | _ => displays

/-- `getDisplayValue` of `pkg/tracker/service.go`. -/
def getDisplayValue (fmtFloat : Float64 → String) (v : JValue) : String :=
  match v with
  | .null => ""
  | .str val => val
  | .obj val =>
    match mapIndex val "display" with
    | some (.str display) => display
    | _ => Sprintf_v fmtFloat v
  | .arr val => stringsJoin (val.foldl appendDisplay []) ", "
  | _ => Sprintf_v fmtFloat v

/-- The spec's "reference-like structure with a `display` attribute": the display
string of an object whose `display` entry is a string, nothing for any other value. -/
def displayOf? : JValue → Option String
  | .obj m =>
    match mapIndex m "display" with
    | some (.str display) => some display
    | _ => none
  | _ => none

/-! ## Errors, time and configuration -/

/-- A Go `error` value: its message and, when it was built by `fmt.Errorf` with the
verb `%w`, the error it wraps. -/
inductive GoError where
  | plain (msg : String) : GoError
  | wrap (msg : String) (inner : GoError) : GoError
deriving DecidableEq, Repr

/-- The method `Error()` of a Go error. -/
def GoError.Error : GoError → String
  | .plain msg => msg
  | .wrap msg _ => msg

/-- Go's `fmt.Errorf(pfx + "%w", err)`; a nil operand is printed as `%!w(<nil>)` and
nothing is wrapped. -/
def Errorf_w (pfx : String) (err : Option GoError) : GoError :=
  match err with
  | some e => .wrap (pfx ++ e.Error) e
  | none => .plain (pfx ++ "%!w(<nil>)")

/-- The type `Time` of the package: an instant, counted in nanoseconds from Go's zero
time, so that the zero value is `0`. -/
structure Time where
  nanos : Int := 0
deriving DecidableEq, Repr

/-- Go's `t.Time().IsZero()`. -/
def Time.IsZero (t : Time) : Bool :=
  t.nanos == 0

/-- The `Tracker` section of `config.Config`. -/
structure TrackerConfig where
  APIIssuesURL : String := ""
  OrgID : String := ""
  OAuthToken : String := ""
  InitialHistoryDepth : String := ""
  Filter : String := ""
deriving DecidableEq, Repr

/-- The type `config.Config`, reduced to the section the tracker client reads. -/
structure Config where
  Tracker : TrackerConfig := {}
deriving DecidableEq, Repr

/-! ## The data model of `pkg/tracker/service.go` -/

/-- The type `User`. -/
structure User where
  Self : String := ""
  ID : String := ""
  Display : String := ""
  CloudUID : String := ""
  PassportUID : Int := 0
deriving DecidableEq, Repr

/-- The type `Entity`. -/
structure Entity where
  Self : String := ""
  ID : String := ""
  Key : String := ""
  Display : String := ""
deriving DecidableEq, Repr

/-- The element type of `Issue.Boards`. -/
structure IssueBoard where
  ID : Int := 0
  Name : String := ""
deriving DecidableEq, Repr

/-- The type `Issue`; every field starts at Go's zero value. -/
structure Issue where
  Self : String := ""
  ID : String := ""
  Key : String := ""
  Version : Int := 0
  StatusStartTime : Time := {}
  Aliases : List String := []
  PreviousQueue : Entity := {}
  StatusType : Entity := {}
  Sprint : List Entity := []
  ResolvedBy : User := {}
  Project : Entity := {}
  Description : String := ""
  Boards : List IssueBoard := []
  Type_ : Entity := {}
  Resolution : Entity := {}
  PreviousStatusLastAssignee : User := {}
  CreatedAt : Time := {}
  TeamNumber : String := ""
  CommentWithExternalMessageCount : Int := 0
  UpdatedAt : Time := {}
  LastCommentUpdatedAt : Time := {}
  LastQueue : Entity := {}
  Summary : String := ""
  UpdatedBy : User := {}
  ResolvedAt : String := ""
  Start : String := ""
  QAEngineer : User := {}
  Priority : Entity := {}
  TypeOfWork : String := ""
  Tags : List String := []
  Environment : List String := []
  Followers : List User := []
  CreatedBy : User := {}
  CommentWithoutExternalMessageCount : Int := 0
  Votes : Int := 0
  Assignee : User := {}
  Queue : Entity := {}
  Status : Entity := {}
  PreviousStatus : Entity := {}
  Transitions : List Entity := []
  Favorite : Bool := false
  OrganizationID : String := ""
  StoryPoints : Float64 := ⟨0⟩
  BoardsNames : String := ""
  Deadline : Time := {}
  Parent : Entity := {}
  Components : List Entity := []
  Epic : Entity := {}
  OriginalEstimation : Float64 := ⟨0⟩
  Spent : String := ""
  Estimation : String := ""
  ChecklistDone : Int := 0
  ChecklistTotal : Int := 0
  EmailCreatedBy : String := ""
  SLA : List Entity := []
  EmailTo : String := ""
  EmailFrom : String := ""
  PendingReplyFrom : String := ""
  End : String := ""
  VotedBy : User := {}
  Access : List Entity := []
deriving Repr

/-- The type `Changelog`: one flat row per changed field of a change event. -/
structure Changelog where
  OrganizationID : String := ""
  ID : String := ""
  IssueKey : String := ""
  UpdatedAt : Time := {}
  UpdatedByDisplay : String := ""
  Type_ : String := ""
  FieldDisplay : String := ""
  FromDisplay : String := ""
  ToDisplay : String := ""
  Worklog : String := ""
deriving DecidableEq, Repr

/-- The member `Issue` of `ChangelogEntry`. -/
structure EntryIssue where
  Key : String := ""

/-- The member `UpdatedBy` of `ChangelogEntry`. -/
structure EntryUpdatedBy where
  Display : String := ""

/-- The member `Field` of an element of `ChangelogEntry.Fields`. -/
structure EntryFieldRef where
  Display : String := ""

/-- An element of `ChangelogEntry.Fields`; `From` and `To` are `interface{}`. -/
structure EntryField where
  Field : EntryFieldRef := {}
  From : JValue := .null
  To : JValue := .null

/-- The type `ChangelogEntry`: one change event as the API returns it. -/
structure ChangelogEntry where
  ID : String := ""
  Issue : EntryIssue := {}
  UpdatedAt : Time := {}
  UpdatedBy : EntryUpdatedBy := {}
  Type_ : String := ""
  Fields : List EntryField := []

/-- The type `StatusType`. -/
structure StatusType where
  Self : String := ""
  ID : Int := 0
  Version : Int := 0
  Key : String := ""
  Name : String := ""
  Description : String := ""
  Order : Int := 0
  Type_ : String := ""
  OrganizationID : String := ""
  TrackerID : String := ""
deriving DecidableEq, Repr

/-- An HTTP request as the client builds it: method, URL, the headers set on it and
the map marshalled into the body (`none` for a nil body). -/
structure HTTPRequest where
  method : String
  url : String
  header : List (String × String)
  body : Option (List (String × String))
deriving DecidableEq, Repr

/-! ## The per-issue task of `GetChangelogsConcurrently` -/

/-- The inner loop body of the row expansion: a field without display name is
skipped, any other field appends one row. -/
def appendField (cfg : Config) (fmtFloat : Float64 → String) (entry : ChangelogEntry)
    (changelogs : List Changelog) (field : EntryField) : List Changelog :=
  if field.Field.Display = "" then changelogs
  else changelogs ++ [{
    OrganizationID := cfg.Tracker.OrgID
    ID := entry.ID
    IssueKey := entry.Issue.Key
    UpdatedAt := entry.UpdatedAt
    UpdatedByDisplay := entry.UpdatedBy.Display
    Type_ := entry.Type_
    FieldDisplay := field.Field.Display
    FromDisplay := getDisplayValue fmtFloat field.From
    ToDisplay := getDisplayValue fmtFloat field.To
    Worklog := "" }]

/-- The two nested loops that turn the decoded entries into the row batch. -/
def expandEntries (cfg : Config) (fmtFloat : Float64 → String)
    (entries : List ChangelogEntry) : List Changelog :=
  entries.foldl (fun changelogs entry =>
    entry.Fields.foldl (appendField cfg fmtFloat entry) changelogs) []

/-- What one pass of the retry loop meets: the limiter refuses, the request cannot be
built, `client.Do` fails, or a response arrives with its status, its raw body and what
decoding the body into `[]ChangelogEntry` gives. -/
inductive AttemptOutcome where
  | limiterErr (err : GoError) : AttemptOutcome
  | newRequestErr (err : GoError) : AttemptOutcome
  | doErr (err : GoError) : AttemptOutcome
  | response (StatusCode : Nat) (body : String)
      (decoded : Except GoError (List ChangelogEntry)) : AttemptOutcome

/-- An attempt is successful when a response with status 200 and a decodable body
arrived. -/
def AttemptOutcome.isSuccess : AttemptOutcome → Bool
  | .response 200 _ (.ok _) => true
  | _ => false

/-- An attempt reaches the upstream when `client.Do` is called: the limiter granted a
token and the request was built. -/
def AttemptOutcome.reachesUpstream : AttemptOutcome → Bool
  | .doErr _ => true
  | .response _ _ _ => true
  | _ => false

/-- The observable steps of a task, in the order they happen. -/
inductive Event where
  | limiterWait (attempt : Nat) : Event
  | request (attempt : Nat) (req : HTTPRequest) : Event
  | sleep (nanoseconds : Nat) : Event
  | sendChangelogs (rows : List Changelog) : Event
  | sendErr (err : GoError) : Event
  | sendProgress (issueKey : String) : Event

/-- The constant `time.Second`, in nanoseconds. -/
def Second : Nat := 1000000000

/-- The local `maxRetries` of the task. -/
def maxRetries : Nat := 3

/-- The local `retryDelay` of the task. -/
def retryDelay : Nat := 2 * Second

/-- The failures before `client.Do` persist over the attempts of a task.  The limiter
is created inside the call and asked for one token, so `limiter.Wait(ctx)` fails only
when the context is done or the wait would pass the context's deadline, and both stay
so on every later attempt; `http.NewRequestWithContext` fails or succeeds alike on the
same method and URL.  Hence an attempt that does not reach `client.Do` is followed only
by attempts that do not reach it either. -/
def failuresPersist (env : Nat → AttemptOutcome) : Bool :=
  (List.range' 1 maxRetries).all (fun a => (List.range' 1 maxRetries).all (fun b =>
    !(decide (a ≤ b) && !(env a).reachesUpstream) || !(env b).reachesUpstream))

/-- The changelog request of one issue. -/
def changelogRequest (cfg : Config) (issueKey : String) : HTTPRequest where
  method := "GET"
  url := cfg.Tracker.APIIssuesURL ++ "/issues/" ++ issueKey ++ "/changelog?type=IssueWorkflow"
  header := [("X-Org-ID", cfg.Tracker.OrgID), ("Authorization", "OAuth " ++ cfg.Tracker.OAuthToken)]
  body := none

/-- The retry loop `for attempt := 1; attempt <= maxRetries; attempt++` over the
attempt numbers still to run, with the current `lastErr`.  A `continue` goes on with
the rest of the list, the `return` after the send ends the trace, and leaving the loop
sends the terminal error. -/
def attemptLoop (cfg : Config) (fmtFloat : Float64 → String) (issueKey : String)
    (env : Nat → AttemptOutcome) : List Nat → Option GoError → List Event
  | [], lastErr =>
    [.sendErr (Errorf_w ("max retries exceeded for issue " ++ issueKey ++ ": ") lastErr)]
  | attempt :: rest, lastErr =>
    match env attempt with
    | .limiterErr err =>
      .limiterWait attempt ::
        attemptLoop cfg fmtFloat issueKey env rest
          (some (Errorf_w ("rate limiter error for issue " ++ issueKey ++ ": ") (some err)))
    | .newRequestErr err =>
      .limiterWait attempt ::
        attemptLoop cfg fmtFloat issueKey env rest
          (some (Errorf_w ("failed to create request for " ++ issueKey ++ ": ") (some err)))
    | .doErr err =>
      .limiterWait attempt :: .request attempt (changelogRequest cfg issueKey) ::
        attemptLoop cfg fmtFloat issueKey env rest
          (some (Errorf_w ("failed to send request for " ++ issueKey ++ ": ") (some err)))
    | .response StatusCode body decoded =>
      .limiterWait attempt :: .request attempt (changelogRequest cfg issueKey) ::
        if StatusCode = 429 then
          .sleep (retryDelay * attempt) :: attemptLoop cfg fmtFloat issueKey env rest lastErr
        else if StatusCode ≠ 200 then
          attemptLoop cfg fmtFloat issueKey env rest
            (some (.plain ("tracker API error for " ++ issueKey ++ ": status="
              ++ toString StatusCode ++ ", body=" ++ body)))
        else
          match decoded with
          | .error err =>
            attemptLoop cfg fmtFloat issueKey env rest
              (some (Errorf_w ("failed to decode response for " ++ issueKey ++ ": ")
                (some err)))
          | .ok entries => [.sendChangelogs (expandEntries cfg fmtFloat entries)]

/-- The goroutine started for one issue: the retry loop, then the deferred send on the
progress channel. -/
def changelogTask (cfg : Config) (fmtFloat : Float64 → String) (issueKey : String)
    (env : Nat → AttemptOutcome) : List Event :=
  attemptLoop cfg fmtFloat issueKey env (List.range' 1 maxRetries) none
    ++ [.sendProgress issueKey]

/-- The batches a trace sends on `changelogChan`. -/
def sentChangelogs (trace : List Event) : List (List Changelog) :=
  trace.filterMap (fun
    | .sendChangelogs rows => some rows
    | _ => none)

/-- The errors a trace sends on `errChan`. -/
def sentErrs (trace : List Event) : List GoError :=
  trace.filterMap (fun
    | .sendErr err => some err
    | _ => none)

/-- The number of HTTP requests a trace issues. -/
def requestsIssued (trace : List Event) : Nat :=
  trace.countP (fun
    | .request _ _ => true
    | _ => false)

/-- The number of passes of the retry loop a trace makes. -/
def attemptsMade (trace : List Event) : Nat :=
  trace.countP (fun
    | .limiterWait _ => true
    | _ => false)

/-- The time a trace spends in `time.Sleep`, in nanoseconds. -/
def sleptTotal (trace : List Event) : Nat :=
  (trace.filterMap (fun
    | .sleep nanoseconds => some nanoseconds
    | _ => none)).sum

/-- An attempt received HTTP 429. -/
def AttemptOutcome.is429 : AttemptOutcome → Bool
  | .response 429 _ _ => true
  | _ => false

/-- The error an unsuccessful attempt assigns to `lastErr`; the branch of status 429
assigns none, and neither does a successful attempt. -/
def attemptError (issueKey : String) : AttemptOutcome → Option GoError
  | .limiterErr err =>
    some (Errorf_w ("rate limiter error for issue " ++ issueKey ++ ": ") (some err))
  | .newRequestErr err =>
    some (Errorf_w ("failed to create request for " ++ issueKey ++ ": ") (some err))
  | .doErr err =>
    some (Errorf_w ("failed to send request for " ++ issueKey ++ ": ") (some err))
  | .response StatusCode body decoded =>
    if StatusCode = 429 then none
    else if StatusCode ≠ 200 then
      some (.plain ("tracker API error for " ++ issueKey ++ ": status="
        ++ toString StatusCode ++ ", body=" ++ body))
    else
      match decoded with
      | .error err =>
        some (Errorf_w ("failed to decode response for " ++ issueKey ++ ": ") (some err))
      | .ok _ => none

/-- The value of `lastErr` after the given attempts, all unsuccessful: the error of
the last of them that assigned one. -/
def lastErrAfter (issueKey : String) (env : Nat → AttemptOutcome) (attempts : List Nat)
    (lastErr : Option GoError) : Option GoError :=
  attempts.foldl (fun le a =>
    match attemptError issueKey (env a) with
    | some err => some err
    | none => le) lastErr

/-- Go's `context.Canceled`. -/
def ctxCanceled : GoError :=
  .plain "context canceled"

/-- The answers a task gets when the shared context is cancelled before its attempt
number `c`: from then on `limiter.Wait(ctx)` returns the context's error at once (the
limiter checks `ctx.Done()` before it reserves a token); the attempts before `c` are
answered by `env`. -/
def cancelledFrom (c : Nat) (ctxErr : GoError) (env : Nat → AttemptOutcome) :
    Nat → AttemptOutcome :=
  fun a => if c ≤ a then .limiterErr ctxErr else env a

/-- The terminal error of a task whose last attempt was refused by the limiter with
the context's error. -/
def cancellationError (issueKey : String) (ctxErr : GoError) : GoError :=
  Errorf_w ("max retries exceeded for issue " ++ issueKey ++ ": ")
    (some (Errorf_w ("rate limiter error for issue " ++ issueKey ++ ": ") (some ctxErr)))

/-- The trace of the task of the issue at position `i`, if there is one. -/
def taskAt (cfg : Config) (fmtFloat : Float64 → String) (issues : List Issue)
    (env : Nat → Nat → AttemptOutcome) (i : Nat) : Option (List Event) :=
  (issues.get? i).map (fun issue => changelogTask cfg fmtFloat issue.Key (env i))

/-- `GetChangelogsConcurrently`: one task per issue, `env i` answering the attempts of
the task at position `i`; `finished` lists the positions in the order in which the
tasks make their send, which fixes the content of the two buffered channels.  After
`wg.Wait()` a first element of `errChan` is returned as the error; otherwise the
batches of `changelogChan` are appended in channel order. -/
def GetChangelogsConcurrently (cfg : Config) (fmtFloat : Float64 → String)
    (issues : List Issue) (env : Nat → Nat → AttemptOutcome) (finished : List Nat) :
    Except GoError (List Changelog) :=
  let traces := finished.filterMap (taskAt cfg fmtFloat issues env)
  let changelogChan := (traces.map sentChangelogs).flatten
  let errChan := (traces.map sentErrs).flatten
  match errChan with
  | err :: _ => .error err
  | [] => .ok (changelogChan.foldl (fun allChangelogs cl => allChangelogs ++ cl) [])

/-- The traces of the tasks of `GetChangelogsConcurrently`, one per issue, in the
order of the issues. -/
def taskTraces (cfg : Config) (fmtFloat : Float64 → String) (issues : List Issue)
    (env : Nat → Nat → AttemptOutcome) : List (List Event) :=
  issues.enum.map (fun p => changelogTask cfg fmtFloat p.2.Key (env p.1))

/-- The three channels of `GetChangelogsConcurrently`. -/
inductive Chan where
  | changelogChan : Chan
  | errChan : Chan
  | progressChan : Chan
deriving DecidableEq, Repr

/-- The channel an event sends on, if it is a send. -/
def Event.channel : Event → Option Chan
  | .sendChangelogs _ => some .changelogChan
  | .sendErr _ => some .errChan
  | .sendProgress _ => some .progressChan
  | _ => none

/-- The number of messages a sequence of events sends on the channel `ch`. -/
def sendsOn (ch : Chan) (events : List Event) : Nat :=
  events.countP (fun e => decide (e.channel = some ch))

/-- The keys a trace sends on `progressChan`. -/
def sentProgress (trace : List Event) : List String :=
  trace.filterMap (fun
    | .sendProgress issueKey => some issueKey
    | _ => none)

/-- The capacity of each of the three channels, `make(chan …, len(issues))`. -/
def chanCapacity (issues : List Issue) : Nat :=
  issues.length

/-- A send on a buffered channel blocks only while the buffer is full.  The buffer
holds at most the messages sent before (fewer when some were received), so a send made
after `sentBefore` earlier sends can block only if `capacity ≤ sentBefore`. -/
def sendCanBlock (capacity sentBefore : Nat) : Bool :=
  decide (capacity ≤ sentBefore)

/-- Go's 64-bit `int`: the value the result of an arithmetic operation wraps to. -/
def wrapInt (x : Int) : Int :=
  (x + 2 ^ 63) % 2 ^ 64 - 2 ^ 63

/-- Go's integer division: a runtime panic (`none`) when the divisor is zero, else the
quotient truncated toward zero. -/
def intDiv (a b : Int) : Option Int :=
  if b = 0 then none else some (wrapInt (Int.tdiv a b))

/-- One `Progress update` record of the tracking goroutine. -/
structure ProgressUpdate where
  processed : Int
  total : Int
  percentage : Int
deriving DecidableEq, Repr

/-- The loop `for range progressChan` of the tracking goroutine over the keys it
receives, with the current value of `processed`.  The arguments of `slog.Debug` are
evaluated whenever the condition holds; `none` is the panic of a division by zero. -/
def progressLoop (total : Int) : Int → List String → Option (List ProgressUpdate)
  | _, [] => some []
  | processed, _ :: rest =>
    if Int.tmod (wrapInt (processed + 1)) 10 = 0 ∨ wrapInt (processed + 1) = total then
      match intDiv (wrapInt (wrapInt (processed + 1) * 100)) total with
      | none => none
      | some percentage =>
        (progressLoop total (wrapInt (processed + 1)) rest).map (fun updates =>
          { processed := wrapInt (processed + 1), total := total, percentage := percentage }
            :: updates)
    else progressLoop total (wrapInt (processed + 1)) rest

/-- The tracking goroutine of `GetChangelogsConcurrently`: `processed := 0`,
`total := len(issues)`, then the loop over the keys received from `progressChan`. -/
def progressTracker (issues : List Issue) (received : List String) :
    Option (List ProgressUpdate) :=
  progressLoop (issues.length : Int) 0 received

/-- The content of `progressChan` when the tasks make their progress sends in the
order `order` of their positions. -/
def progressSent (cfg : Config) (fmtFloat : Float64 → String) (issues : List Issue)
    (env : Nat → Nat → AttemptOutcome) (order : List Nat) : List String :=
  ((order.filterMap (taskAt cfg fmtFloat issues env)).map sentProgress).flatten

/-! ## `GetIssues` and `GetStatusTypes` -/

/-- The digit loop of `strconv.Atoi`: every byte must be an ASCII digit. -/
def atoiDigits : List Char → Nat → Option Nat
  | [], n => some n
  | ch :: rest, n =>
    if 48 ≤ ch.toNat ∧ ch.toNat ≤ 57 then atoiDigits rest (n * 10 + (ch.toNat - 48))
    else none

/-- Go's `strconv.Atoi` for the 64-bit `int`: an optional sign, then at least one
digit and nothing else; a value outside the range of `int` is an error as well. -/
def Atoi (s : String) : Except GoError Int :=
  let syntaxError := GoError.plain ("strconv.Atoi: parsing \"" ++ s ++ "\": invalid syntax")
  let rangeError := GoError.plain ("strconv.Atoi: parsing \"" ++ s ++ "\": value out of range")
  match s.toList with
  | [] => .error syntaxError
  | '-' :: digits =>
    if digits.length < 1 then .error syntaxError
    else match atoiDigits digits 0 with
      | none => .error syntaxError
      | some n => if n ≤ 2 ^ 63 then .ok (-(n : Int)) else .error rangeError
  | '+' :: digits =>
    if digits.length < 1 then .error syntaxError
    else match atoiDigits digits 0 with
      | none => .error syntaxError
      | some n => if n < 2 ^ 63 then .ok (n : Int) else .error rangeError
  | digits =>
    match atoiDigits digits 0 with
    | none => .error syntaxError
    | some n => if n < 2 ^ 63 then .ok (n : Int) else .error rangeError

/-- The spec's "decimal integer" (the format a count header is expected in): an
optional sign followed by one or more decimal digits. -/
def isDecimalInteger (s : String) : Bool :=
  match s.toList with
  | '-' :: digits => !digits.isEmpty && digits.all Char.isDigit
  | '+' :: digits => !digits.isEmpty && digits.all Char.isDigit
  | digits => !digits.isEmpty && digits.all Char.isDigit

/-- Go's `strconv.Itoa`. -/
def Itoa (i : Int) : String :=
  toString i

/-- An HTTP response as the client reads it: status, headers (canonical name and
first value), the raw body and what decoding the body into the expected type gives. -/
structure Response (α : Type) where
  StatusCode : Nat
  Header : List (String × String) := []
  body : String := ""
  decoded : Except GoError α

/-- Go's `resp.Header.Get(key)`: the empty string when the header is absent. -/
def headerGet (header : List (String × String)) (key : String) : String :=
  (List.lookup key header).getD ""

/-- What sending one request gives: the request cannot be built, `client.Do` fails,
or a response arrives. -/
inductive ClientOutcome (α : Type) where
  | newRequestErr (err : GoError) : ClientOutcome α
  | doErr (err : GoError) : ClientOutcome α
  | response (resp : Response α) : ClientOutcome α

/-- The query `GetIssues` sends: the filter, preceded by the time clause when
`InitialHistoryDepth` is set. -/
def effectiveQuery (cfg : Config) (query : String) : String :=
  if cfg.Tracker.InitialHistoryDepth ≠ "" then
    if query ≠ "" then
      "updated: >now()-" ++ cfg.Tracker.InitialHistoryDepth ++ " " ++ query
    else
      "updated: >now()-" ++ cfg.Tracker.InitialHistoryDepth
  else query

/-- A search request: `POST` with the three headers and the marshalled query. -/
def searchRequest (cfg : Config) (url : String) (query : String) : HTTPRequest where
  method := "POST"
  url := url
  header := [("X-Org-ID", cfg.Tracker.OrgID),
    ("Authorization", "OAuth " ++ cfg.Tracker.OAuthToken),
    ("Content-Type", "application/json")]
  body := some [("query", query)]

/-- The first search request of `GetIssues`. -/
def firstRequest (cfg : Config) (query : String) : HTTPRequest :=
  searchRequest cfg
    (cfg.Tracker.APIIssuesURL
      ++ "/issues/_search?scrollType=unsorted&perScroll=500&scrollTTLMillis=60000")
    (effectiveQuery cfg query)

/-- The continuation request built from the scroll headers of the last response. -/
def scrollRequest (cfg : Config) (resp : Response (List Issue)) (query : String) :
    HTTPRequest :=
  searchRequest cfg
    (cfg.Tracker.APIIssuesURL ++ "/issues/_search?scrollId="
      ++ headerGet resp.Header "X-Scroll-Id" ++ "&scrollToken="
      ++ headerGet resp.Header "X-Scroll-Token")
    query

/-- The outcome of a run of `GetIssues`: what it returned (`none` while the scroll
loop is still running when the fuel is used up) and the requests it handed to
`client.Do`, in order. -/
structure FetchResult where
  result : Option (Except GoError (List Issue))
  requests : List HTTPRequest

/-- The loop `for len(issues) < totalCount` of `GetIssues`.  `upstream n req` answers
the request `req` made after `n` earlier requests; one unit of fuel is one iteration. -/
def scrollLoop (cfg : Config) (upstream : Nat → HTTPRequest → ClientOutcome (List Issue))
    (query : String) (totalCount : Int) :
    Nat → Response (List Issue) → List Issue → List HTTPRequest → FetchResult
  | fuel, resp, issues, sent =>
    if (issues.length : Int) < totalCount then
      match fuel with
      | 0 => { result := none, requests := sent }
      | fuel + 1 =>
        match upstream sent.length (scrollRequest cfg resp query) with
        | .newRequestErr err =>
          { result := some (.error (Errorf_w "failed to create scroll request: " (some err))),
            requests := sent }
        | .doErr err =>
          { result := some (.error (Errorf_w "failed to send scroll request: " (some err))),
            requests := sent ++ [scrollRequest cfg resp query] }
        | .response r =>
          if r.StatusCode ≠ 200 then
            { result := some (.error (.plain ("tracker API error during scroll: status="
                ++ toString r.StatusCode ++ ", body=" ++ r.body))),
              requests := sent ++ [scrollRequest cfg resp query] }
          else
            match r.decoded with
            | .error err =>
              { result := some (.error
                  (Errorf_w "failed to decode scroll response: " (some err))),
                requests := sent ++ [scrollRequest cfg resp query] }
            | .ok moreIssues =>
              scrollLoop cfg upstream query totalCount fuel r (issues ++ moreIssues)
                (sent ++ [scrollRequest cfg resp query])
    else { result := some (.ok issues), requests := sent }

/-- `GetIssues`: the first request, the total count read from `X-Total-Count`, then
the scroll loop with the given fuel.  (`json.Marshal` of a `map[string]string` does
not fail, so that error branch has no counterpart.) -/
def GetIssues (cfg : Config) (upstream : Nat → HTTPRequest → ClientOutcome (List Issue))
    (query : String) (fuel : Nat) : FetchResult :=
  match upstream 0 (firstRequest cfg query) with
  | .newRequestErr err =>
    { result := some (.error (Errorf_w "failed to create request: " (some err))),
      requests := [] }
  | .doErr err =>
    { result := some (.error (Errorf_w "failed to send request: " (some err))),
      requests := [firstRequest cfg query] }
  | .response resp =>
    if resp.StatusCode ≠ 200 then
      { result := some (.error (.plain ("tracker API error: status="
          ++ toString resp.StatusCode ++ ", body=" ++ resp.body))),
        requests := [firstRequest cfg query] }
    else
      match resp.decoded with
      | .error err =>
        { result := some (.error (Errorf_w "failed to decode response: " (some err))),
          requests := [firstRequest cfg query] }
      | .ok issues =>
        match Atoi (headerGet resp.Header "X-Total-Count") with
        | .error err =>
          { result := some (.error (Errorf_w "failed to parse total count: " (some err))),
            requests := [firstRequest cfg query] }
        | .ok totalCount =>
          scrollLoop cfg upstream (effectiveQuery cfg query) totalCount fuel resp issues
            [firstRequest cfg query]

/-- `GetStatusTypes`: one `GET`, then every decoded status type gets the configured
organisation and its numeric id as tracker id. -/
def GetStatusTypes (cfg : Config) (upstream : HTTPRequest → ClientOutcome (List StatusType)) :
    Except GoError (List StatusType) :=
  match upstream { method := "GET", url := cfg.Tracker.APIIssuesURL ++ "/statuses/",
                   header := [("Authorization", "OAuth " ++ cfg.Tracker.OAuthToken),
                     ("X-Org-ID", cfg.Tracker.OrgID)],
                   body := none } with
  | .newRequestErr err => .error (Errorf_w "failed to create request: " (some err))
  | .doErr err => .error (Errorf_w "failed to send request: " (some err))
  | .response resp =>
    if resp.StatusCode ≠ 200 then
      .error (.plain ("unexpected status code: " ++ toString resp.StatusCode
        ++ ", body: " ++ resp.body))
    else
      match resp.decoded with
      | .error err => .error (Errorf_w "failed to decode response: " (some err))
      | .ok statusTypes =>
        .ok (statusTypes.map (fun st =>
          { st with OrganizationID := cfg.Tracker.OrgID, TrackerID := Itoa st.ID }))

/-- `GetIssuesCount`: one `POST` of the marshalled query to `/issues/_count`; the body
of a response with status 200 is decoded into an `int`. -/
def GetIssuesCount (cfg : Config) (upstream : HTTPRequest → ClientOutcome Int)
    (query : String) : Except GoError Int :=
  match upstream (searchRequest cfg (cfg.Tracker.APIIssuesURL ++ "/issues/_count") query) with
  | .newRequestErr err => .error (Errorf_w "failed to create request: " (some err))
  | .doErr err => .error (Errorf_w "failed to send request: " (some err))
  | .response resp =>
    if resp.StatusCode ≠ 200 then
      .error (.plain ("tracker API error: status=" ++ toString resp.StatusCode
        ++ ", body=" ++ resp.body))
    else
      match resp.decoded with
      | .error err => .error (Errorf_w "failed to decode response: " (some err))
      | .ok count => .ok count

/-- A server holding the matching issues `all` that answers the request number `n`
with status 200, the count header `total` and the `n`-th page of `P` issues. -/
def pagedServer (all : List Issue) (P : Nat) (total : String) :
    Nat → HTTPRequest → ClientOutcome (List Issue) :=
  fun n _ => .response {
    StatusCode := 200
    Header := [("X-Total-Count", total), ("X-Scroll-Id", "scroll"),
      ("X-Scroll-Token", toString n)]
    decoded := .ok ((all.drop (n * P)).take P) }

/-! ## The relational store and `internal/repository/service.go` -/

/-- A row of the table `issues`: the 57 columns of the `INSERT` statement in their
order, then `updated_at_db`, which the program writes only in the conflict clause
(`none`: left to the column default of the schema). -/
structure IssueRow where
  organization_id : String
  self : String
  tracker_id : String
  key : String
  version : Option Int
  story_points : Option Float64
  summary : String
  status_start_time : Option Time
  boards_names : String
  created_at : Option Time
  comment_without_external_message_count : Option Int
  votes : Option Int
  comment_with_external_message_count : Option Int
  deadline : Option Time
  updated_at : Option Time
  favorite : Bool
  updated_by_display : String
  type_display : String
  priority_display : String
  created_by_display : String
  assignee_display : String
  queue_key : String
  queue_display : String
  status_display : String
  previous_status_display : String
  parent_key : String
  parent_display : String
  components_display : String
  sprint_display : String
  epic_display : String
  previous_status_last_assignee_display : String
  original_estimation : Option Float64
  spent : Option String
  tags : String
  estimation : Option String
  checklist_done : Option Int
  checklist_total : Option Int
  email_created_by : String
  sla : String
  email_to : String
  email_from : String
  last_comment_updated_at : Option Time
  followers : String
  pending_reply_from : String
  end_time : Option String
  start_time : Option String
  project_display : String
  voted_by_display : String
  aliases : String
  previous_queue_display : String
  access : String
  resolved_at : Option String
  resolved_by_display : String
  resolution_display : String
  last_queue_display : String
  status_type : String
  team_number : String
  updated_at_db : Option Time := none
deriving Repr

/-- A row of the table `changelog`: the ten columns of the `INSERT` statement. -/
structure ChangelogRow where
  organization_id : String
  tracker_id : String
  issue_key : String
  updated_at : Time
  updated_by_display : String
  type_ : String
  field_display : String
  from_display : String
  to_display : String
  worklog : String
deriving DecidableEq, Repr

/-- A row of the table `status_types`: the five columns of the `INSERT` statement,
then `updated_at_db`, written only in the conflict clause. -/
structure StatusTypeRow where
  organization_id : String
  tracker_id : String
  status_key : String
  status_type : String
  status_name : String
  updated_at_db : Option Time := none
deriving DecidableEq, Repr

/-- The three tables of the store. -/
structure Store where
  issues : List IssueRow := []
  changelog : List ChangelogRow := []
  status_types : List StatusTypeRow := []

/-- The unique key of `issues`, `ON CONFLICT (tracker_id)`. -/
def IssueRow.conflictKey (r : IssueRow) : String :=
  r.tracker_id

/-- The unique key of `changelog`, `ON CONFLICT (tracker_id, field_display)`. -/
def ChangelogRow.conflictKey (r : ChangelogRow) : String × String :=
  (r.tracker_id, r.field_display)

/-- The unique key of `status_types`, `ON CONFLICT (tracker_id, status_key)`. -/
def StatusTypeRow.conflictKey (r : StatusTypeRow) : String × String :=
  (r.tracker_id, r.status_key)

/-- A store respects the declared unique keys. -/
def Store.WellKeyed (s : Store) : Prop :=
  (s.issues.map IssueRow.conflictKey).Nodup
  ∧ (s.changelog.map ChangelogRow.conflictKey).Nodup
  ∧ (s.status_types.map StatusTypeRow.conflictKey).Nodup

/-- `INSERT ... ON CONFLICT (key) DO UPDATE SET ...` on a table: the row whose key
equals that of the proposed row is replaced by `onConflict row proposed`; without such
a row the proposed row is inserted. -/
def upsert {Row Key : Type} [DecidableEq Key] (key : Row → Key)
    (onConflict : Row → Row → Row) : List Row → Row → List Row
  | [], proposed => [proposed]
  | row :: rest, proposed =>
    if key row = key proposed then onConflict row proposed :: rest
    else row :: upsert key onConflict rest proposed

/-- The helper `getEntityDisplays`. -/
def getEntityDisplays (entities : List Entity) : List String :=
  entities.map (fun e => e.Display)

/-- The helper `getUserDisplays`. -/
def getUserDisplays (users : List User) : List String :=
  users.map (fun u => u.Display)

/-- The helper `getBoardNames`. -/
def getBoardNames (boards : List IssueBoard) : List String :=
  boards.map (fun b => b.Name)

/-- The closures `if x == 0 { return nil }; return x` on an `int` field. -/
def nilIfZeroInt (x : Int) : Option Int :=
  if x = 0 then none else some x

/-- The same closure on a `float64` field. -/
def nilIfZeroFloat (x : Float64) : Option Float64 :=
  if x.isZero then none else some x

/-- The closure `if x.Time().IsZero() { return nil }; return x.Time()`. -/
def nilIfZeroTime (x : Time) : Option Time :=
  if x.IsZero then none else some x

/-- The closure `if x == "" { return nil }; return x` on a string field. -/
def nilIfEmpty (x : String) : Option String :=
  if x = "" then none else some x

/-- The parameter list `params` that `SaveIssues` builds for one issue, each parameter
under the column it is bound to. -/
def issueParams (issue : Issue) : IssueRow where
  organization_id := issue.OrganizationID
  self := issue.Self
  tracker_id := issue.ID
  key := issue.Key
  version := nilIfZeroInt issue.Version
  story_points := nilIfZeroFloat issue.StoryPoints
  summary := issue.Summary
  status_start_time := nilIfZeroTime issue.StatusStartTime
  boards_names := stringsJoin (getBoardNames issue.Boards) ", "
  created_at := nilIfZeroTime issue.CreatedAt
  comment_without_external_message_count := nilIfZeroInt issue.CommentWithoutExternalMessageCount
  votes := nilIfZeroInt issue.Votes
  comment_with_external_message_count := nilIfZeroInt issue.CommentWithExternalMessageCount
  deadline := nilIfZeroTime issue.Deadline
  updated_at := nilIfZeroTime issue.UpdatedAt
  favorite := issue.Favorite
  updated_by_display := issue.UpdatedBy.Display
  type_display := issue.Type_.Display
  priority_display := issue.Priority.Display
  created_by_display := issue.CreatedBy.Display
  assignee_display := issue.Assignee.Display
  queue_key := issue.Queue.Key
  queue_display := issue.Queue.Display
  status_display := issue.Status.Display
  previous_status_display := issue.PreviousStatus.Display
  parent_key := issue.Parent.Key
  parent_display := issue.Parent.Display
  components_display := stringsJoin (getEntityDisplays issue.Components) ", "
  sprint_display := stringsJoin (getEntityDisplays issue.Sprint) ", "
  epic_display := issue.Epic.Display
  previous_status_last_assignee_display := issue.PreviousStatusLastAssignee.Display
  original_estimation := nilIfZeroFloat issue.OriginalEstimation
  spent := nilIfEmpty issue.Spent
  tags := stringsJoin issue.Tags ", "
  estimation := nilIfEmpty issue.Estimation
  checklist_done := nilIfZeroInt issue.ChecklistDone
  checklist_total := nilIfZeroInt issue.ChecklistTotal
  email_created_by := issue.EmailCreatedBy
  sla := stringsJoin (getEntityDisplays issue.SLA) ", "
  email_to := issue.EmailTo
  email_from := issue.EmailFrom
  last_comment_updated_at := nilIfZeroTime issue.LastCommentUpdatedAt
  followers := stringsJoin (getUserDisplays issue.Followers) ", "
  pending_reply_from := issue.PendingReplyFrom
  end_time := nilIfEmpty issue.End
  start_time := nilIfEmpty issue.Start
  project_display := issue.Project.Display
  voted_by_display := issue.VotedBy.Display
  aliases := stringsJoin issue.Aliases ", "
  previous_queue_display := issue.PreviousQueue.Display
  access := stringsJoin (getEntityDisplays issue.Access) ", "
  resolved_at := nilIfEmpty issue.ResolvedAt
  resolved_by_display := issue.ResolvedBy.Display
  resolution_display := issue.Resolution.Display
  last_queue_display := issue.LastQueue.Display
  status_type := issue.StatusType.Display
  team_number := issue.TeamNumber

/-- The conflict clause of `insert_issue`: `updated_at`, `updated_at_db` and
`team_number` are overwritten, `CURRENT_TIMESTAMP` being the time `now` of the
transaction. -/
def issueOnConflict (now : Time) (row proposed : IssueRow) : IssueRow :=
  { row with
    updated_at := proposed.updated_at
    updated_at_db := some now
    team_number := proposed.team_number }

/-- The ten parameters `SaveChangelogs` binds for one changelog row. -/
def changelogParams (changelog : Changelog) : ChangelogRow where
  organization_id := changelog.OrganizationID
  tracker_id := changelog.ID
  issue_key := changelog.IssueKey
  updated_at := changelog.UpdatedAt
  updated_by_display := changelog.UpdatedByDisplay
  type_ := changelog.Type_
  field_display := changelog.FieldDisplay
  from_display := changelog.FromDisplay
  to_display := changelog.ToDisplay
  worklog := changelog.Worklog

/-- The conflict clause of `insert_changelog`. -/
def changelogOnConflict (row proposed : ChangelogRow) : ChangelogRow :=
  { row with
    updated_at := proposed.updated_at
    updated_by_display := proposed.updated_by_display
    from_display := proposed.from_display
    to_display := proposed.to_display
    worklog := proposed.worklog }

/-- The five parameters `SaveStatusTypes` binds for one status type. -/
def statusTypeParams (st : StatusType) : StatusTypeRow where
  organization_id := st.OrganizationID
  tracker_id := st.TrackerID
  status_key := st.Key
  status_type := st.Type_
  status_name := st.Name

/-- The conflict clause of `insert_status_type`. -/
def statusTypeOnConflict (now : Time) (row proposed : StatusTypeRow) : StatusTypeRow :=
  { row with
    status_type := proposed.status_type
    status_name := proposed.status_name
    updated_at_db := some now }

/-- What the database driver answers during one transaction: an error (or none) for
`Begin`, for `Prepare`, for the `Exec` number `i` (from 0) and for `Commit`. -/
structure TxFaults where
  beginErr : Option GoError := none
  prepareErr : Option GoError := none
  execErr : Nat → Option GoError := fun _ => none
  commitErr : Option GoError := none

/-- The loop `for _, x := range batch { tx.Exec(...) }` on the table as the
transaction sees it: the first failing `Exec` returns its wrapped error. -/
def execAll {α Row : Type} (faults : TxFaults) (exec : List Row → α → List Row)
    (wrap : α → String) : List α → Nat → List Row → Except GoError (List Row)
  | [], _, table => .ok table
  | x :: rest, i, table =>
    match faults.execErr i with
    | some err => .error (Errorf_w (wrap x) (some err))
    | none => execAll faults exec wrap rest (i + 1) (exec table x)

/-- The frame shared by the three `Save` functions: `Begin`, `Prepare`, the `Exec`
loop and `Commit`; the deferred `Rollback` leaves the table as it was on every
error. -/
def runTx {α Row : Type} (faults : TxFaults) (exec : List Row → α → List Row)
    (wrap : α → String) (batch : List α) (table : List Row) :
    Option GoError × List Row :=
  match faults.beginErr with
  | some err => (some (Errorf_w "failed to begin transaction: " (some err)), table)
  | none =>
    match faults.prepareErr with
    | some err => (some (Errorf_w "failed to prepare insert statement: " (some err)), table)
    | none =>
      match execAll faults exec wrap batch 0 table with
      | .error err => (some err, table)
      | .ok table' =>
        match faults.commitErr with
        | some err => (some (Errorf_w "failed to commit transaction: " (some err)), table)
        | none => (none, table')

/-- `SaveIssues`: the returned error and the store after the call. -/
def SaveIssues (faults : TxFaults) (now : Time) (store : Store) (issues : List Issue) :
    Option GoError × Store :=
  let r := runTx faults
    (fun table issue => upsert IssueRow.conflictKey (issueOnConflict now) table (issueParams issue))
    (fun issue => "failed to insert issue " ++ issue.Key ++ ": ") issues store.issues
  (r.1, { store with issues := r.2 })

/-- `SaveChangelogs`: the returned error and the store after the call. -/
def SaveChangelogs (faults : TxFaults) (store : Store) (changelogs : List Changelog) :
    Option GoError × Store :=
  let r := runTx faults
    (fun table changelog =>
      upsert ChangelogRow.conflictKey changelogOnConflict table (changelogParams changelog))
    (fun changelog => "failed to insert changelog for issue " ++ changelog.IssueKey ++ ": ")
    changelogs store.changelog
  (r.1, { store with changelog := r.2 })

/-- `SaveStatusTypes`: the returned error and the store after the call. -/
def SaveStatusTypes (faults : TxFaults) (now : Time) (store : Store)
    (statusTypes : List StatusType) : Option GoError × Store :=
  let r := runTx faults
    (fun table st =>
      upsert StatusTypeRow.conflictKey (statusTypeOnConflict now) table (statusTypeParams st))
    (fun st => "failed to insert status type " ++ st.Key ++ ": ") statusTypes
    store.status_types
  (r.1, { store with status_types := r.2 })

/-- The first of two values under PostgreSQL's `ORDER BY updated_at DESC`: NULL sorts
as larger than every value, so in descending order a NULL comes before any time. -/
def firstDesc (a b : Option Time) : Option Time :=
  match a, b with
  | none, _ => none
  | _, none => none
  | some x, some y => if x.nanos < y.nanos then some y else some x

/-- The result of `SELECT updated_at FROM issues WHERE key = $1 ORDER BY updated_at
DESC LIMIT 1`: no row (`none`), or the `updated_at` of the first row, which is NULL
(`some none`) when a row with that key has a NULL `updated_at`. -/
def lastUpdateQuery (table : List IssueRow) (issueKey : String) : Option (Option Time) :=
  match (table.filter (fun r => decide (r.key = issueKey))).map (fun r => r.updated_at) with
  | [] => none
  | v :: vs => some (vs.foldl firstDesc v)

/-- The error of pgx when a NULL is scanned into a `time.Time`. -/
def scanNullError : GoError :=
  .plain "can't scan into dest[0]: cannot scan NULL into *time.Time"

/-- `GetLastUpdateTime`: the returned `*time.Time` and error.  `queryErr` is a failure
of the query itself; no row is `pgx.ErrNoRows` and gives `(nil, nil)`; any other error
of `Scan` is wrapped and returned. -/
def GetLastUpdateTime (queryErr : Option GoError) (store : Store) (issueKey : String) :
    Option Time × Option GoError :=
  match queryErr with
  | some err => (none, some (Errorf_w "failed to get last update time: " (some err)))
  | none =>
    match lastUpdateQuery store.issues issueKey with
    | none => (none, none)
    | some none =>
      (none, some (Errorf_w "failed to get last update time: " (some scanNullError)))
    | some (some lastUpdate) => (some lastUpdate, none)

/-! ## `Sync` of `internal/service/service.go` -/

/-- The six calls `Sync` makes. -/
inductive SyncStep where
  | getIssues : SyncStep
  | saveIssues : SyncStep
  | getStatusTypes : SyncStep
  | saveStatusTypes : SyncStep
  | getChangelogs : SyncStep
  | saveChangelogs : SyncStep
deriving DecidableEq, Repr

/-- The six steps in the order of the source. -/
def syncSteps : List SyncStep :=
  [.getIssues, .saveIssues, .getStatusTypes, .saveStatusTypes, .getChangelogs, .saveChangelogs]

/-- Everything a run of `Sync` obtains from outside: the answers of the tracker for
the three fetches, the fuel of the scroll loop, the order in which the changelog tasks
finish, and the answers of the database driver and the transaction time for the three
saves. -/
structure SyncEnv where
  fmtFloat : Float64 → String
  issuesUpstream : Nat → HTTPRequest → ClientOutcome (List Issue)
  fuel : Nat
  issuesFaults : TxFaults
  issuesNow : Time
  statusUpstream : HTTPRequest → ClientOutcome (List StatusType)
  statusFaults : TxFaults
  statusNow : Time
  attempts : Nat → Nat → AttemptOutcome
  finished : List Nat
  changelogFaults : TxFaults

/-- The outcome of a run of `Sync`: what it returned (`none` while `GetIssues` is still
looping when the fuel is used up; `some none` for the nil error), the store it leaves,
and the steps it has called, in order. -/
structure SyncResult where
  returned : Option (Option GoError)
  store : Store
  steps : List SyncStep

/-- `Sync`: the six steps, each error wrapped and returned at once. -/
def Sync (cfg : Config) (env : SyncEnv) (store : Store) : SyncResult :=
  match (GetIssues cfg env.issuesUpstream cfg.Tracker.Filter env.fuel).result with
  | none => { returned := none, store := store, steps := [.getIssues] }
  | some (.error err) =>
    { returned := some (some (Errorf_w "failed to get issues from tracker: " (some err)))
      store := store
      steps := [.getIssues] }
  | some (.ok issues) =>
    match SaveIssues env.issuesFaults env.issuesNow store issues with
    | (some err, store1) =>
      { returned := some (some (Errorf_w "failed to save issues to database: " (some err)))
        store := store1
        steps := [.getIssues, .saveIssues] }
    | (none, store1) =>
      match GetStatusTypes cfg env.statusUpstream with
      | .error err =>
        { returned := some (some
            (Errorf_w "failed to get status types from tracker: " (some err)))
          store := store1
          steps := [.getIssues, .saveIssues, .getStatusTypes] }
      | .ok statusTypes =>
        match SaveStatusTypes env.statusFaults env.statusNow store1 statusTypes with
        | (some err, store2) =>
          { returned := some (some
              (Errorf_w "failed to save status types to database: " (some err)))
            store := store2
            steps := [.getIssues, .saveIssues, .getStatusTypes, .saveStatusTypes] }
        | (none, store2) =>
          match GetChangelogsConcurrently cfg env.fmtFloat issues env.attempts
              env.finished with
          | .error err =>
            { returned := some (some
                (Errorf_w "failed to get changelogs concurrently: " (some err)))
              store := store2
              steps := [.getIssues, .saveIssues, .getStatusTypes, .saveStatusTypes,
                .getChangelogs] }
          | .ok changelogEntries =>
            match SaveChangelogs env.changelogFaults store2 changelogEntries with
            | (some err, store3) =>
              { returned := some (some
                  (Errorf_w "failed to save changelogs to database: " (some err)))
                store := store3
                steps := syncSteps }
            | (none, store3) =>
              { returned := some none, store := store3, steps := syncSteps }

/-! ## Sample inputs -/

/-- A first page of one issue under a count header of 3. -/
def stuckFirstPage : Response (List Issue) where
  StatusCode := 200
  Header := [("X-Total-Count", "3"), ("X-Scroll-Id", "scroll"), ("X-Scroll-Token", "t")]
  decoded := .ok [{ ID := "1", Key := "A-1" }]

/-- A server that reports a total of 3, serves one issue on the first page and an
empty list with status 200 on every continuation page. -/
def stuckServer : Nat → HTTPRequest → ClientOutcome (List Issue)
  | 0, _ => .response stuckFirstPage
  | _, _ => .response {
      StatusCode := 200
      Header := [("X-Total-Count", "3"), ("X-Scroll-Id", "scroll"), ("X-Scroll-Token", "t")]
      decoded := .ok [] }

/-- A server whose count header reads `12a`. -/
def badCountServer : Nat → HTTPRequest → ClientOutcome (List Issue) :=
  fun _ _ => .response {
    StatusCode := 200
    Header := [("X-Total-Count", "12a")]
    decoded := .ok [{ ID := "1", Key := "A-1" }] }

/-- A server that sends no count header. -/
def noCountServer : Nat → HTTPRequest → ClientOutcome (List Issue) :=
  fun _ _ => .response {
    StatusCode := 200
    Header := [("X-Scroll-Id", "s")]
    decoded := .ok [{ ID := "1", Key := "A-1" }] }

/-- A configuration used by the evaluated examples. -/
def sampleCfg : Config :=
  { Tracker := { APIIssuesURL := "https://api.tracker.example/v2", OrgID := "org-1",
                 OAuthToken := "t0ken" } }

/-- A float renderer for examples whose values hold no number. -/
def noFloat : Float64 → String :=
  fun _ => ""

/-- One change event touching three fields, the second without display name. -/
def sampleEntries : List ChangelogEntry :=
  [{ ID := "ev1", Issue := { Key := "A-1" }, UpdatedAt := { nanos := 5 },
     UpdatedBy := { Display := "Ann" }, Type_ := "IssueWorkflow",
     Fields := [
       { Field := { Display := "Status" }, From := .obj [("display", .str "Open")],
         To := .obj [("display", .str "Closed")] },
       { Field := { Display := "" }, From := .str "x", To := .str "y" },
       { Field := { Display := "Assignee" }, From := .null, To := .str "Bob" }] }]

/-- Status 429 on the first attempt, a transport error on the second, status 200 with
the sample entries on the third. -/
def envThirdOk : Nat → AttemptOutcome
  | 1 => .response 429 "" (.error (.plain "EOF"))
  | 2 => .doErr (.plain "connection reset")
  | _ => .response 200 "[...]" (.ok sampleEntries)

/-- Status 200 with the sample entries on every attempt. -/
def envFirstOk : Nat → AttemptOutcome :=
  fun _ => .response 200 "[...]" (.ok sampleEntries)

/-- Status 429 on every attempt. -/
def envAlways429 : Nat → AttemptOutcome :=
  fun _ => .response 429 "" (.error (.plain "EOF"))

/-- Two issues for the examples. -/
def sampleIssues : List Issue :=
  [{ ID := "1", Key := "A-1" }, { ID := "2", Key := "A-2" }]

/-- The task of the first issue succeeds on its third attempt, the task of the second
issue on its first. -/
def envTwoTasks : Nat → Nat → AttemptOutcome
  | 0 => envThirdOk
  | _ => envFirstOk

/-- A store that already holds issue `1` and one changelog row of event `ev1`. -/
def sampleStore : Store where
  issues := [{ issueParams { ID := "1", Key := "A-1", Summary := "first import",
                             TeamNumber := "7" } with updated_at_db := some { nanos := 1 } }]
  changelog := [changelogParams { ID := "ev1", IssueKey := "A-1", FieldDisplay := "Status",
                                  FromDisplay := "New", ToDisplay := "Open" }]

/-- An issue batch with the stored issue, changed, and a new issue given twice. -/
def sampleIssueBatch : List Issue :=
  [{ ID := "1", Key := "A-1", Summary := "renamed", TeamNumber := "8", UpdatedAt := { nanos := 9 } },
   { ID := "2", Key := "A-2" },
   { ID := "2", Key := "A-2", TeamNumber := "3" }]

/-- A changelog batch writing the key (`ev1`, `Status`) twice and a new key once. -/
def sampleChangelogBatch : List Changelog :=
  [{ ID := "ev1", IssueKey := "A-1", FieldDisplay := "Status", ToDisplay := "Closed" },
   { ID := "ev1", IssueKey := "A-1", FieldDisplay := "Assignee", ToDisplay := "Bob" },
   { ID := "ev1", IssueKey := "A-1", FieldDisplay := "Status", ToDisplay := "Done",
     UpdatedByDisplay := "Ann", UpdatedAt := { nanos := 4 } }]

/-- The issue row of the sample store. -/
def sampleStoredRow : IssueRow :=
  { issueParams { ID := "1", Key := "A-1", Summary := "first import", TeamNumber := "7" } with
    updated_at_db := some { nanos := 1 } }

/-- The first issue of the sample batch. -/
def sampleRenamedIssue : Issue :=
  { ID := "1", Key := "A-1", Summary := "renamed", TeamNumber := "8", UpdatedAt := { nanos := 9 } }

/-- A driver whose third `Exec` of the transaction fails. -/
def failThirdExec : TxFaults where
  execErr := fun i => if i = 2 then some (.plain "duplicate key") else none

/-- The spec's rule for a nullable column: the parameter is absent exactly when the
source value is the zero value of its type, and is the source value otherwise. -/
def AbsentIffZero {α : Type} (param : Option α) (value : α) (isZero : Prop) : Prop :=
  (param = none ↔ isZero) ∧ (¬ isZero → param = some value)

/-- An issue with every nullable field set. -/
def sampleFullIssue : Issue :=
  { ID := "9", Key := "A-9", Version := 3, StoryPoints := ⟨4611686018427387904⟩,
    StatusStartTime := { nanos := 11 }, CreatedAt := { nanos := 12 },
    CommentWithoutExternalMessageCount := 1, Votes := 2, CommentWithExternalMessageCount := 5,
    Deadline := { nanos := 13 }, UpdatedAt := { nanos := 14 },
    OriginalEstimation := ⟨4607182418800017408⟩, Spent := "PT1H", Estimation := "PT2H",
    ChecklistDone := 1, ChecklistTotal := 4, LastCommentUpdatedAt := { nanos := 15 },
    End := "2025-04-01", Start := "2025-03-01", ResolvedAt := "2025-03-29T19:16:33.418+0000" }

/-- The tracker answers the three fetches of a run: the two sample issues, one status
type, and status 429 on every changelog attempt; the database driver never fails. -/
def sampleSyncEnv : SyncEnv where
  fmtFloat := noFloat
  issuesUpstream := pagedServer sampleIssues 500 "2"
  fuel := 1
  issuesFaults := {}
  issuesNow := { nanos := 10 }
  statusUpstream := fun _ => .response {
    StatusCode := 200
    decoded := .ok [{ ID := 1, Key := "open", Name := "Open", Type_ := "new" }] }
  statusFaults := {}
  statusNow := { nanos := 20 }
  attempts := fun _ => envAlways429
  finished := [0, 1]
  changelogFaults := {}

/-- The sample configuration with a history depth of thirty days. -/
def sampleDepthCfg : Config :=
  { Tracker := { APIIssuesURL := "https://api.tracker.example/v2", OrgID := "org-1",
                 OAuthToken := "t0ken", InitialHistoryDepth := "30d" } }

/-- A transport error, then status 429 on the second and third attempt. -/
def envErrThen429 : Nat → AttemptOutcome
  | 1 => .doErr (.plain "connection reset")
  | _ => .response 429 "" (.error (.plain "EOF"))

/-- Status 429 on the first attempt, then status 500. -/
def env429Then500 : Nat → AttemptOutcome
  | 1 => .response 429 "" (.error (.plain "EOF"))
  | _ => .response 500 "oops" (.error (.plain "EOF"))

/-- Status 500 on every attempt. -/
def envAlways500 : Nat → AttemptOutcome :=
  fun _ => .response 500 "oops" (.error (.plain "EOF"))

/-- The task of the first issue is answered with status 500 three times; the context
is cancelled before the first attempt of the task of the second issue. -/
def envFailedThenCancelled : Nat → Nat → AttemptOutcome
  | 0 => envAlways500
  | _ => cancelledFrom 1 ctxCanceled envFirstOk

/-- A store with two rows of key `A-1`, one updated at time 5 and one whose
`updated_at` is NULL. -/
def sampleNullStore : Store where
  issues := [issueParams { ID := "1", Key := "A-1", UpdatedAt := { nanos := 5 } },
             issueParams { ID := "2", Key := "A-1" }]

/-- A store with two rows of key `A-1`, updated at times 5 and 8, and a row of another
key. -/
def sampleDatedStore : Store where
  issues := [issueParams { ID := "1", Key := "A-1", UpdatedAt := { nanos := 5 } },
             issueParams { ID := "2", Key := "A-1", UpdatedAt := { nanos := 8 } },
             issueParams { ID := "3", Key := "B-7", UpdatedAt := { nanos := 9 } }]

/-- A server that answers the first search request with status 200 and a first page
of 2 out of 5 issues, and the continuation with status 204. -/
def scroll204Server : Nat → HTTPRequest → ClientOutcome (List Issue)
  | 0, _ => .response {
      StatusCode := 200
      Header := [("X-Total-Count", "5"), ("X-Scroll-Id", "s"), ("X-Scroll-Token", "t")]
      decoded := .ok [{ ID := "1", Key := "A-1" }, { ID := "2", Key := "A-2" }] }
  | _, _ => .response {
      StatusCode := 204
      body := "no content"
      decoded := .ok [{ ID := "3", Key := "A-3" }] }

/-- Attempts answered with status 201, 204 and 429, each with a body that would
decode into the sample entries. -/
def envOther2xx : Nat → AttemptOutcome
  | 1 => .response 201 "created" (.ok sampleEntries)
  | 2 => .response 204 "" (.ok sampleEntries)
  | _ => .response 429 "slow down" (.ok sampleEntries)

/-! ## Theorems -/

theorem foldl_appendDisplay (items : List JValue) (acc : List String) :
    items.foldl appendDisplay acc = acc ++ items.filterMap displayOf? := by
  induction items generalizing acc with
  | nil => simp
  | cons item rest ih =>
    rw [List.foldl_cons, ih]
    cases item with
    | obj m =>
      simp only [appendDisplay, displayOf?, List.filterMap_cons]
      split <;> simp_all
    | _ => simp [appendDisplay, displayOf?]

theorem getDisplayValue_arr (fmtFloat : Float64 → String) (items : List JValue) :
    getDisplayValue fmtFloat (.arr items)
      = ", ".intercalate (items.filterMap displayOf?) := by
  simp [getDisplayValue, stringsJoin, foldl_appendDisplay]

theorem filterMap_displayOf_refs (objs : List (List (String × JValue))) (ds : List String)
    (h : List.Forall₂ (fun m d => mapIndex m "display" = some (.str d)) objs ds) :
    (objs.map JValue.obj).filterMap displayOf? = ds := by
  induction h with
  | nil => rfl
  | cons hd _ ih => simp [displayOf?, hd, ih]

/-- C7: `getDisplayValue` follows the reference rules on the recognised shapes: nil
gives the empty string, a string gives itself, an object whose `display` attribute is
the string `d` gives `d`, and a sequence of objects each having a string `display`
attribute gives those strings joined with ", " in their order; the four sample inputs
give "", "x", "A" and "A, B". -/
theorem C7_getDisplayValue_recognised (fmtFloat : Float64 → String) :
    getDisplayValue fmtFloat .null = ""
    ∧ (∀ s : String, getDisplayValue fmtFloat (.str s) = s)
    ∧ (∀ (m : List (String × JValue)) (d : String),
        mapIndex m "display" = some (.str d) → getDisplayValue fmtFloat (.obj m) = d)
    ∧ (∀ (objs : List (List (String × JValue))) (ds : List String),
        List.Forall₂ (fun m d => mapIndex m "display" = some (.str d)) objs ds →
        getDisplayValue fmtFloat (.arr (objs.map JValue.obj)) = ", ".intercalate ds)
    ∧ getDisplayValue fmtFloat (.str "x") = "x"
    ∧ getDisplayValue fmtFloat (.obj [("display", .str "A")]) = "A"
    ∧ getDisplayValue fmtFloat
        (.arr [.obj [("display", .str "A")], .obj [("display", .str "B")]]) = "A, B" := by
  refine ⟨rfl, fun _ => rfl, ?_, ?_, rfl, rfl, rfl⟩
  · intro m d h
    simp [getDisplayValue, h]
  · intro objs ds h
    rw [getDisplayValue_arr, filterMap_displayOf_refs objs ds h]

/-- Witness of C7 at an object carrying other attributes next to `display` and at a
two-element reference list. -/
theorem C7_getDisplayValue_recognised_witness :
    getDisplayValue (fun _ => "0")
        (.obj [("id", .str "7"), ("display", .str "Open")]) = "Open"
    ∧ getDisplayValue (fun _ => "0")
        (.arr ([[("display", .str "A")], [("id", .str "2"), ("display", .str "B")]].map
          JValue.obj)) = ", ".intercalate ["A", "B"] :=
  ⟨(C7_getDisplayValue_recognised (fun _ => "0")).2.2.1 _ "Open" rfl,
   (C7_getDisplayValue_recognised (fun _ => "0")).2.2.2.1 _ ["A", "B"]
     (.cons rfl (.cons rfl .nil))⟩

/-- C8, counterexample: a sequence of plain strings and a board list whose elements
have only an `id` are both turned into the empty string, while Go's `%v` of these
values is `[a b]` and `[map[id:1]]`. -/
theorem C8_counterexample :
    (∀ fmtFloat, getDisplayValue fmtFloat (.arr [.str "a", .str "b"]) = ""
      ∧ Sprintf_v fmtFloat (.arr [.str "a", .str "b"]) = "[a b]")
    ∧ (∀ fmtFloat, getDisplayValue fmtFloat (.arr [.obj [("id", .number ⟨1⟩)]]) = ""
      ∧ Sprintf_v fmtFloat (.arr [.obj [("id", .number ⟨1⟩)]])
          = "[map[id:" ++ fmtFloat ⟨1⟩ ++ "]]") := by
  refine ⟨fun _ => ⟨rfl, rfl⟩, fun f => ⟨rfl, ?_⟩⟩
  simp [Sprintf_v, Sprintf_vItems, Sprintf_vEntries, stringsJoin, String.intercalate,
    String.intercalate.go, String.append_assoc]
  rfl

/-- C8, as amended: a number, a boolean and an object without a string `display`
attribute are returned in Go's `%v` formatting; a sequence is never formatted with
`%v`: it gives the `display` strings of those of its elements that are objects with a
string `display` attribute, joined with ", ", every other element being skipped. -/
theorem C8_getDisplayValue_other_shapes (fmtFloat : Float64 → String) :
    (∀ f, getDisplayValue fmtFloat (.number f) = Sprintf_v fmtFloat (.number f))
    ∧ (∀ b, getDisplayValue fmtFloat (.bool b) = Sprintf_v fmtFloat (.bool b))
    ∧ (∀ m : List (String × JValue), (∀ d, mapIndex m "display" ≠ some (.str d)) →
        getDisplayValue fmtFloat (.obj m) = Sprintf_v fmtFloat (.obj m))
    ∧ (∀ items : List JValue, getDisplayValue fmtFloat (.arr items)
        = ", ".intercalate (items.filterMap displayOf?)) := by
  refine ⟨fun _ => rfl, fun _ => rfl, ?_, getDisplayValue_arr fmtFloat⟩
  intro m h
  cases hm : mapIndex m "display" with
  | none => simp [getDisplayValue, hm]
  | some v =>
    cases v with
    | str d => exact absurd hm (h d)
    | _ => simp [getDisplayValue, hm]

/-- Witness of C8 as amended: an object with only an `id`, and one whose `display` is
not a string, are printed as Go maps. -/
theorem C8_getDisplayValue_other_shapes_witness :
    getDisplayValue (fun _ => "1") (.obj [("id", .number ⟨1⟩)]) = "map[id:1]"
    ∧ getDisplayValue (fun _ => "1") (.obj [("id", .str "b"), ("display", .bool true)])
        = "map[display:true id:b]" :=
  ⟨((C8_getDisplayValue_other_shapes (fun _ => "1")).2.2.1 _
      (fun d h => by simp [mapIndex, List.lookup] at h)).trans rfl,
   ((C8_getDisplayValue_other_shapes (fun _ => "1")).2.2.1 _
      (fun d h => by simp [mapIndex, List.lookup] at h)).trans rfl⟩

/-! ### Row expansion -/

theorem foldl_appendField (cfg : Config) (fmtFloat : Float64 → String)
    (entry : ChangelogEntry) (fields : List EntryField) (acc : List Changelog) :
    fields.foldl (appendField cfg fmtFloat entry) acc
      = acc ++ (fields.filter (fun field => field.Field.Display != "")).map
          (fun field => appendField cfg fmtFloat entry [] field |>.headD {}) := by
  induction fields generalizing acc with
  | nil => simp
  | cons field rest ih =>
    rw [List.foldl_cons, ih]
    by_cases h : field.Field.Display = ""
    · simp [appendField, h]
    · simp [appendField, h]

theorem expandEntries_foldl (cfg : Config) (fmtFloat : Float64 → String)
    (entries : List ChangelogEntry) (acc : List Changelog) :
    entries.foldl (fun changelogs entry =>
        entry.Fields.foldl (appendField cfg fmtFloat entry) changelogs) acc
      = acc ++ entries.flatMap (fun entry =>
          (entry.Fields.filter (fun field => field.Field.Display != "")).map
            (fun field => appendField cfg fmtFloat entry [] field |>.headD {})) := by
  induction entries generalizing acc with
  | nil => simp
  | cons entry rest ih =>
    rw [List.foldl_cons, ih, foldl_appendField]
    simp

theorem appendField_row (cfg : Config) (fmtFloat : Float64 → String)
    (entry : ChangelogEntry) (field : EntryField) (h : (field.Field.Display != "") = true) :
    (appendField cfg fmtFloat entry [] field).headD {} =
      { OrganizationID := cfg.Tracker.OrgID
        ID := entry.ID
        IssueKey := entry.Issue.Key
        UpdatedAt := entry.UpdatedAt
        UpdatedByDisplay := entry.UpdatedBy.Display
        Type_ := entry.Type_
        FieldDisplay := field.Field.Display
        FromDisplay := getDisplayValue fmtFloat field.From
        ToDisplay := getDisplayValue fmtFloat field.To
        Worklog := "" } := by
  have h' : field.Field.Display ≠ "" := by simpa using h
  simp [appendField, h']

theorem expandEntries_eq (cfg : Config) (fmtFloat : Float64 → String)
    (entries : List ChangelogEntry) :
    expandEntries cfg fmtFloat entries
      = entries.flatMap (fun entry =>
          (entry.Fields.filter (fun field => field.Field.Display != "")).map
            (fun field =>
              ({ OrganizationID := cfg.Tracker.OrgID
                 ID := entry.ID
                 IssueKey := entry.Issue.Key
                 UpdatedAt := entry.UpdatedAt
                 UpdatedByDisplay := entry.UpdatedBy.Display
                 Type_ := entry.Type_
                 FieldDisplay := field.Field.Display
                 FromDisplay := getDisplayValue fmtFloat field.From
                 ToDisplay := getDisplayValue fmtFloat field.To
                 Worklog := "" } : Changelog))) := by
  unfold expandEntries
  rw [expandEntries_foldl, List.nil_append]
  congr 1
  funext entry
  apply List.map_congr_left
  intro field hf
  exact appendField_row cfg fmtFloat entry field (List.mem_filter.mp hf).2

/-! ### The retry loop -/

theorem attemptLoop_nil (cfg : Config) (fmtFloat : Float64 → String) (issueKey : String)
    (env : Nat → AttemptOutcome) (lastErr : Option GoError) :
    attemptLoop cfg fmtFloat issueKey env [] lastErr
      = [.sendErr (Errorf_w ("max retries exceeded for issue " ++ issueKey ++ ": ") lastErr)] := by
  rw [attemptLoop]

theorem attemptLoop_limiterErr (cfg : Config) (fmtFloat : Float64 → String)
    (issueKey : String) (env : Nat → AttemptOutcome) (a : Nat) (rest : List Nat)
    (lastErr : Option GoError) (err : GoError) (h : env a = .limiterErr err) :
    attemptLoop cfg fmtFloat issueKey env (a :: rest) lastErr
      = .limiterWait a :: attemptLoop cfg fmtFloat issueKey env rest
          (some (Errorf_w ("rate limiter error for issue " ++ issueKey ++ ": ") (some err))) := by
  rw [attemptLoop, h]

theorem attemptLoop_newRequestErr (cfg : Config) (fmtFloat : Float64 → String)
    (issueKey : String) (env : Nat → AttemptOutcome) (a : Nat) (rest : List Nat)
    (lastErr : Option GoError) (err : GoError) (h : env a = .newRequestErr err) :
    attemptLoop cfg fmtFloat issueKey env (a :: rest) lastErr
      = .limiterWait a :: attemptLoop cfg fmtFloat issueKey env rest
          (some (Errorf_w ("failed to create request for " ++ issueKey ++ ": ") (some err))) := by
  rw [attemptLoop, h]

theorem attemptLoop_doErr (cfg : Config) (fmtFloat : Float64 → String)
    (issueKey : String) (env : Nat → AttemptOutcome) (a : Nat) (rest : List Nat)
    (lastErr : Option GoError) (err : GoError) (h : env a = .doErr err) :
    attemptLoop cfg fmtFloat issueKey env (a :: rest) lastErr
      = .limiterWait a :: .request a (changelogRequest cfg issueKey) ::
          attemptLoop cfg fmtFloat issueKey env rest
            (some (Errorf_w ("failed to send request for " ++ issueKey ++ ": ") (some err))) := by
  rw [attemptLoop, h]

theorem attemptLoop_429 (cfg : Config) (fmtFloat : Float64 → String)
    (issueKey : String) (env : Nat → AttemptOutcome) (a : Nat) (rest : List Nat)
    (lastErr : Option GoError) (body : String) (decoded : Except GoError (List ChangelogEntry))
    (h : env a = .response 429 body decoded) :
    attemptLoop cfg fmtFloat issueKey env (a :: rest) lastErr
      = .limiterWait a :: .request a (changelogRequest cfg issueKey) ::
          .sleep (retryDelay * a) :: attemptLoop cfg fmtFloat issueKey env rest lastErr := by
  rw [attemptLoop, h]
  simp

theorem attemptLoop_badStatus (cfg : Config) (fmtFloat : Float64 → String)
    (issueKey : String) (env : Nat → AttemptOutcome) (a : Nat) (rest : List Nat)
    (lastErr : Option GoError) (StatusCode : Nat) (body : String)
    (decoded : Except GoError (List ChangelogEntry))
    (h : env a = .response StatusCode body decoded)
    (h429 : StatusCode ≠ 429) (h200 : StatusCode ≠ 200) :
    attemptLoop cfg fmtFloat issueKey env (a :: rest) lastErr
      = .limiterWait a :: .request a (changelogRequest cfg issueKey) ::
          attemptLoop cfg fmtFloat issueKey env rest
            (some (.plain ("tracker API error for " ++ issueKey ++ ": status="
              ++ toString StatusCode ++ ", body=" ++ body))) := by
  rw [attemptLoop, h]
  simp [h429, h200]

theorem attemptLoop_decodeErr (cfg : Config) (fmtFloat : Float64 → String)
    (issueKey : String) (env : Nat → AttemptOutcome) (a : Nat) (rest : List Nat)
    (lastErr : Option GoError) (body : String) (err : GoError)
    (h : env a = .response 200 body (.error err)) :
    attemptLoop cfg fmtFloat issueKey env (a :: rest) lastErr
      = .limiterWait a :: .request a (changelogRequest cfg issueKey) ::
          attemptLoop cfg fmtFloat issueKey env rest
            (some (Errorf_w ("failed to decode response for " ++ issueKey ++ ": ") (some err))) := by
  rw [attemptLoop, h]
  simp

theorem attemptLoop_ok (cfg : Config) (fmtFloat : Float64 → String)
    (issueKey : String) (env : Nat → AttemptOutcome) (a : Nat) (rest : List Nat)
    (lastErr : Option GoError) (body : String) (entries : List ChangelogEntry)
    (h : env a = .response 200 body (.ok entries)) :
    attemptLoop cfg fmtFloat issueKey env (a :: rest) lastErr
      = [.limiterWait a, .request a (changelogRequest cfg issueKey),
          .sendChangelogs (expandEntries cfg fmtFloat entries)] := by
  rw [attemptLoop, h]
  simp

/-- One failed pass of the loop: the events it adds and the `lastErr` it leaves. -/
theorem attemptLoop_failed_step (cfg : Config) (fmtFloat : Float64 → String)
    (issueKey : String) (env : Nat → AttemptOutcome) (a : Nat) (rest : List Nat)
    (lastErr : Option GoError) (hfa : (env a).isSuccess = false) :
    ∃ evs lastErr',
      attemptLoop cfg fmtFloat issueKey env (a :: rest) lastErr
        = evs ++ attemptLoop cfg fmtFloat issueKey env rest lastErr'
      ∧ requestsIssued evs = (if (env a).reachesUpstream then 1 else 0)
      ∧ attemptsMade evs = 1
      ∧ sentChangelogs evs = [] ∧ sentErrs evs = [] := by
  cases hout : env a with
  | limiterErr err =>
    exact ⟨[.limiterWait a], _, attemptLoop_limiterErr cfg fmtFloat issueKey env a rest lastErr err hout,
      rfl, rfl, rfl, rfl⟩
  | newRequestErr err =>
    exact ⟨[.limiterWait a], _, attemptLoop_newRequestErr cfg fmtFloat issueKey env a rest lastErr err hout,
      rfl, rfl, rfl, rfl⟩
  | doErr err =>
    exact ⟨[.limiterWait a, .request a (changelogRequest cfg issueKey)], _,
      attemptLoop_doErr cfg fmtFloat issueKey env a rest lastErr err hout, rfl, rfl, rfl, rfl⟩
  | response StatusCode body decoded =>
    by_cases h429 : StatusCode = 429
    · subst h429
      exact ⟨[.limiterWait a, .request a (changelogRequest cfg issueKey), .sleep (retryDelay * a)],
        _, attemptLoop_429 cfg fmtFloat issueKey env a rest lastErr body decoded hout,
        rfl, rfl, rfl, rfl⟩
    · by_cases h200 : StatusCode = 200
      · subst h200
        cases decoded with
        | ok entries => simp [hout, AttemptOutcome.isSuccess] at hfa
        | error err =>
          exact ⟨[.limiterWait a, .request a (changelogRequest cfg issueKey)], _,
            attemptLoop_decodeErr cfg fmtFloat issueKey env a rest lastErr body err hout,
            rfl, rfl, rfl, rfl⟩
      · exact ⟨[.limiterWait a, .request a (changelogRequest cfg issueKey)], _,
          attemptLoop_badStatus cfg fmtFloat issueKey env a rest lastErr StatusCode body decoded
            hout h429 h200, rfl, rfl, rfl, rfl⟩

theorem requestsIssued_append (xs ys : List Event) :
    requestsIssued (xs ++ ys) = requestsIssued xs + requestsIssued ys := by
  simp [requestsIssued, List.countP_append]

theorem attemptsMade_append (xs ys : List Event) :
    attemptsMade (xs ++ ys) = attemptsMade xs + attemptsMade ys := by
  simp [attemptsMade, List.countP_append]

theorem sentChangelogs_append (xs ys : List Event) :
    sentChangelogs (xs ++ ys) = sentChangelogs xs ++ sentChangelogs ys := by
  simp [sentChangelogs, List.filterMap_append]

theorem sentErrs_append (xs ys : List Event) :
    sentErrs (xs ++ ys) = sentErrs xs ++ sentErrs ys := by
  simp [sentErrs, List.filterMap_append]

theorem attemptLoop_failed_attempts (cfg : Config) (fmtFloat : Float64 → String)
    (issueKey : String) (env : Nat → AttemptOutcome) (pre rest : List Nat)
    (lastErr : Option GoError) (hfail : ∀ j ∈ pre, (env j).isSuccess = false) :
    ∃ evs lastErr',
      attemptLoop cfg fmtFloat issueKey env (pre ++ rest) lastErr
        = evs ++ attemptLoop cfg fmtFloat issueKey env rest lastErr'
      ∧ requestsIssued evs = (pre.filter (fun a => (env a).reachesUpstream)).length
      ∧ attemptsMade evs = pre.length
      ∧ sentChangelogs evs = [] ∧ sentErrs evs = [] := by
  induction pre generalizing lastErr with
  | nil => exact ⟨[], lastErr, rfl, rfl, rfl, rfl, rfl⟩
  | cons a pre ih =>
    obtain ⟨evs1, le1, h1, h2, h3, h4, h5⟩ :=
      attemptLoop_failed_step cfg fmtFloat issueKey env a (pre ++ rest) lastErr
        (hfail a (List.mem_cons_self _ _))
    obtain ⟨evs2, le2, k1, k2, k3, k4, k5⟩ :=
      ih le1 (fun j hj => hfail j (List.mem_cons_of_mem _ hj))
    refine ⟨evs1 ++ evs2, le2, ?_, ?_, ?_, ?_, ?_⟩
    · rw [List.cons_append, h1, k1, List.append_assoc]
    · rw [requestsIssued_append, h2, k2, List.filter_cons]
      by_cases hr : (env a).reachesUpstream = true
      · simp [hr]; omega
      · simp [hr]
    · rw [attemptsMade_append, h3, k3, List.length_cons]; omega
    · rw [sentChangelogs_append, h4, k4]; rfl
    · rw [sentErrs_append, h5, k5]; rfl

theorem sendChangelogs_mem_attemptLoop (cfg : Config) (fmtFloat : Float64 → String)
    (issueKey : String) (env : Nat → AttemptOutcome) (rows : List Changelog)
    (attempts : List Nat) (lastErr : Option GoError)
    (h : Event.sendChangelogs rows ∈ attemptLoop cfg fmtFloat issueKey env attempts lastErr) :
    ∃ attempt ∈ attempts, ∃ body entries,
      env attempt = .response 200 body (.ok entries)
      ∧ rows = expandEntries cfg fmtFloat entries := by
  induction attempts generalizing lastErr with
  | nil => simp [attemptLoop] at h
  | cons attempt rest ih =>
    unfold attemptLoop at h
    cases hout : env attempt with
    | limiterErr err =>
      simp only [hout, List.mem_cons] at h
      rcases h with h | h
      · cases h
      · obtain ⟨a, ha, rest'⟩ := ih _ h
        exact ⟨a, List.mem_cons_of_mem _ ha, rest'⟩
    | newRequestErr err =>
      simp only [hout, List.mem_cons] at h
      rcases h with h | h
      · cases h
      · obtain ⟨a, ha, rest'⟩ := ih _ h
        exact ⟨a, List.mem_cons_of_mem _ ha, rest'⟩
    | doErr err =>
      simp only [hout, List.mem_cons] at h
      rcases h with h | h | h
      · cases h
      · cases h
      · obtain ⟨a, ha, rest'⟩ := ih _ h
        exact ⟨a, List.mem_cons_of_mem _ ha, rest'⟩
    | response StatusCode body decoded =>
      simp only [hout, List.mem_cons] at h
      rcases h with h | h | h
      · cases h
      · cases h
      · by_cases h429 : StatusCode = 429
        · simp only [h429, if_true, List.mem_cons] at h
          rcases h with h | h
          · cases h
          · obtain ⟨a, ha, rest'⟩ := ih _ h
            exact ⟨a, List.mem_cons_of_mem _ ha, rest'⟩
        · by_cases h200 : StatusCode = 200
          · subst h200
            cases decoded with
            | error err =>
              simp at h
              obtain ⟨a, ha, rest'⟩ := ih _ h
              exact ⟨a, List.mem_cons_of_mem _ ha, rest'⟩
            | ok entries =>
              simp at h
              exact ⟨attempt, List.mem_cons_self _ _, body, entries, hout, h⟩
          · simp only [h429, h200, if_false, ne_eq, not_false_eq_true, if_true] at h
            obtain ⟨a, ha, rest'⟩ := ih _ h
            exact ⟨a, List.mem_cons_of_mem _ ha, rest'⟩

/-- C6: the batch built from the decoded change events holds exactly one row for each
(event, field) pair whose field display name is not empty, none for the others, events
in upstream order and fields in order within each event; each row carries the
configured organisation, the event's id, issue key, updated-at, updated-by display and
type, the field's display name, the normalised from and to values and an empty
worklog; and every batch a task sends is this expansion of the entries decoded from a
response with status 200. -/
theorem C6_row_batch (cfg : Config) (fmtFloat : Float64 → String) :
    (∀ entries : List ChangelogEntry,
      expandEntries cfg fmtFloat entries
        = entries.flatMap (fun entry =>
            (entry.Fields.filter (fun field => field.Field.Display != "")).map
              (fun field =>
                ({ OrganizationID := cfg.Tracker.OrgID
                   ID := entry.ID
                   IssueKey := entry.Issue.Key
                   UpdatedAt := entry.UpdatedAt
                   UpdatedByDisplay := entry.UpdatedBy.Display
                   Type_ := entry.Type_
                   FieldDisplay := field.Field.Display
                   FromDisplay := getDisplayValue fmtFloat field.From
                   ToDisplay := getDisplayValue fmtFloat field.To
                   Worklog := "" } : Changelog))))
    ∧ (∀ (issueKey : String) (env : Nat → AttemptOutcome) (rows : List Changelog),
        Event.sendChangelogs rows ∈ changelogTask cfg fmtFloat issueKey env →
        ∃ attempt body entries, env attempt = .response 200 body (.ok entries)
          ∧ rows = expandEntries cfg fmtFloat entries) := by
  refine ⟨expandEntries_eq cfg fmtFloat, ?_⟩
  intro issueKey env rows h
  simp only [changelogTask, List.mem_append, List.mem_singleton] at h
  rcases h with h | h
  · obtain ⟨a, _, body, entries, h1, h2⟩ :=
      sendChangelogs_mem_attemptLoop cfg fmtFloat issueKey env rows _ _ h
    exact ⟨a, body, entries, h1, h2⟩
  · cases h

/-- Witness of C6: the sample event gives two rows, its field without display name
none, and the batch sent by a task answered with these entries on its first attempt is
that expansion. -/
theorem C6_row_batch_witness :
    expandEntries sampleCfg noFloat sampleEntries =
      [{ OrganizationID := "org-1", ID := "ev1", IssueKey := "A-1", UpdatedAt := { nanos := 5 },
         UpdatedByDisplay := "Ann", Type_ := "IssueWorkflow", FieldDisplay := "Status",
         FromDisplay := "Open", ToDisplay := "Closed", Worklog := "" },
       { OrganizationID := "org-1", ID := "ev1", IssueKey := "A-1", UpdatedAt := { nanos := 5 },
         UpdatedByDisplay := "Ann", Type_ := "IssueWorkflow", FieldDisplay := "Assignee",
         FromDisplay := "", ToDisplay := "Bob", Worklog := "" }]
    ∧ ∃ (attempt : Nat) (body : String) (entries : List ChangelogEntry),
        envFirstOk attempt = AttemptOutcome.response 200 body (.ok entries)
        ∧ expandEntries sampleCfg noFloat sampleEntries
          = expandEntries sampleCfg noFloat entries :=
  ⟨((C6_row_batch sampleCfg noFloat).1 sampleEntries).trans rfl,
   (C6_row_batch sampleCfg noFloat).2 "A-1" envFirstOk
     (expandEntries sampleCfg noFloat sampleEntries)
     (by
       have h : changelogTask sampleCfg noFloat "A-1" envFirstOk
           = [.limiterWait 1, .request 1 (changelogRequest sampleCfg "A-1"),
              .sendChangelogs (expandEntries sampleCfg noFloat sampleEntries),
              .sendProgress "A-1"] := rfl
       rw [h]
       simp)⟩

theorem range'_split (k : Nat) (h1 : 1 ≤ k) (h3 : k ≤ maxRetries) :
    List.range' 1 maxRetries
        = List.range' 1 (k - 1) ++ k :: List.range' (k + 1) (maxRetries - k)
    ∧ List.range' 1 k = List.range' 1 (k - 1) ++ [k] := by
  unfold maxRetries at h3 ⊢
  interval_cases k <;> exact ⟨rfl, rfl⟩

/-- The counts of a task for every sequence of outcomes: a task whose every attempt
receives status 429 issues exactly `maxRetries` = 3 requests and ends in terminal
failure.  When the first successful attempt is attempt `k`, the task makes exactly `k`
passes of the loop, sends the batch of that attempt and nothing else, and issues one
request for each of the attempts 1..k that reached `client.Do`: at most `k` requests,
and exactly `k` when every earlier attempt reached it. -/
theorem changelogTask_retry_counts (cfg : Config) (fmtFloat : Float64 → String) (issueKey : String)
    (env : Nat → AttemptOutcome) :
    ((∀ a, 1 ≤ a → a ≤ maxRetries → ∃ body decoded, env a = .response 429 body decoded) →
      requestsIssued (changelogTask cfg fmtFloat issueKey env) = maxRetries
      ∧ maxRetries = 3
      ∧ attemptsMade (changelogTask cfg fmtFloat issueKey env) = maxRetries
      ∧ sentChangelogs (changelogTask cfg fmtFloat issueKey env) = []
      ∧ ∃ err, sentErrs (changelogTask cfg fmtFloat issueKey env) = [err])
    ∧ (∀ (k : Nat) (body : String) (entries : List ChangelogEntry),
        1 ≤ k → k ≤ maxRetries →
        (∀ j, 1 ≤ j → j < k → (env j).isSuccess = false) →
        env k = .response 200 body (.ok entries) →
        attemptsMade (changelogTask cfg fmtFloat issueKey env) = k
        ∧ sentChangelogs (changelogTask cfg fmtFloat issueKey env)
            = [expandEntries cfg fmtFloat entries]
        ∧ sentErrs (changelogTask cfg fmtFloat issueKey env) = []
        ∧ requestsIssued (changelogTask cfg fmtFloat issueKey env)
            = ((List.range' 1 k).filter (fun a => (env a).reachesUpstream)).length
        ∧ requestsIssued (changelogTask cfg fmtFloat issueKey env) ≤ k
        ∧ ((∀ j, 1 ≤ j → j < k → (env j).reachesUpstream = true) →
            requestsIssued (changelogTask cfg fmtFloat issueKey env) = k)) := by
  constructor
  · intro h429
    have hfail : ∀ j ∈ List.range' 1 maxRetries, (env j).isSuccess = false := by
      intro j hj
      rw [List.mem_range'_1] at hj
      obtain ⟨body, decoded, hj'⟩ := h429 j hj.1 (by omega)
      simp [hj', AttemptOutcome.isSuccess]
    have hreach : ∀ j ∈ List.range' 1 maxRetries, (env j).reachesUpstream = true := by
      intro j hj
      rw [List.mem_range'_1] at hj
      obtain ⟨body, decoded, hj'⟩ := h429 j hj.1 (by omega)
      simp [hj', AttemptOutcome.reachesUpstream]
    obtain ⟨evs, le, h1, h2, h3, h4, h5⟩ :=
      attemptLoop_failed_attempts cfg fmtFloat issueKey env (List.range' 1 maxRetries) [] none hfail
    rw [List.append_nil, attemptLoop_nil] at h1
    rw [List.filter_eq_self.mpr hreach, List.length_range'] at h2
    rw [List.length_range'] at h3
    unfold changelogTask
    rw [h1]
    refine ⟨?_, rfl, ?_, ?_, ?_⟩
    · simp [requestsIssued_append, h2]; rfl
    · simp [attemptsMade_append, h3]; rfl
    · simp [sentChangelogs_append, h4]; rfl
    · exact ⟨_, by simp [sentErrs_append, h5]; rfl⟩
  · intro k body entries hk1 hk3 hfail hok
    obtain ⟨hsplit, hsplit'⟩ := range'_split k hk1 hk3
    have hfail' : ∀ j ∈ List.range' 1 (k - 1), (env j).isSuccess = false := by
      intro j hj
      rw [List.mem_range'_1] at hj
      exact hfail j hj.1 (by omega)
    obtain ⟨evs, le, h1, h2, h3, h4, h5⟩ :=
      attemptLoop_failed_attempts cfg fmtFloat issueKey env (List.range' 1 (k - 1))
        (k :: List.range' (k + 1) (maxRetries - k)) none hfail'
    rw [attemptLoop_ok cfg fmtFloat issueKey env k _ le body entries hok] at h1
    rw [List.length_range'] at h3
    have hreq : requestsIssued (changelogTask cfg fmtFloat issueKey env)
        = ((List.range' 1 k).filter (fun a => (env a).reachesUpstream)).length := by
      unfold changelogTask
      rw [hsplit, h1, hsplit', List.filter_append]
      simp only [requestsIssued_append, h2, List.length_append]
      simp [requestsIssued, hok, AttemptOutcome.reachesUpstream]
    have hlen : ((List.range' 1 k).filter (fun a => (env a).reachesUpstream)).length ≤ k := by
      have := List.length_filter_le (fun a => (env a).reachesUpstream) (List.range' 1 k)
      rwa [List.length_range'] at this
    refine ⟨?_, ?_, ?_, hreq, hreq ▸ hlen, ?_⟩
    · unfold changelogTask
      rw [hsplit, h1]
      simp only [attemptsMade_append, h3]
      simp [attemptsMade]
      omega
    · unfold changelogTask
      rw [hsplit, h1]
      simp only [sentChangelogs_append, h4]
      simp [sentChangelogs]
    · unfold changelogTask
      rw [hsplit, h1]
      simp only [sentErrs_append, h5]
      simp [sentErrs]
    · intro hreach
      rw [hreq, List.filter_eq_self.mpr, List.length_range']
      intro j hj
      rw [List.mem_range'_1] at hj
      by_cases hjk : j = k
      · subst hjk
        simp [hok, AttemptOutcome.reachesUpstream]
      · exact hreach j hj.1 (by omega)

/-- An attempt before a successful one reached `client.Do` when failures persist. -/
theorem reachesUpstream_before_success (env : Nat → AttemptOutcome)
    (hpersist : failuresPersist env = true) (j k : Nat) (hj : 1 ≤ j) (hjk : j ≤ k)
    (hk : k ≤ maxRetries) (hok : (env k).reachesUpstream = true) :
    (env j).reachesUpstream = true := by
  unfold failuresPersist at hpersist
  rw [List.all_eq_true] at hpersist
  have hj' : j ∈ List.range' 1 maxRetries := by
    rw [List.mem_range'_1]
    omega
  have hk' : k ∈ List.range' 1 maxRetries := by
    rw [List.mem_range'_1]
    omega
  have h := hpersist j hj'
  rw [List.all_eq_true] at h
  have h' := h k hk'
  rw [hok] at h'
  cases hreach : (env j).reachesUpstream with
  | true => rfl
  | false =>
    rw [hreach] at h'
    simp at h'
    omega

/-- C2: for every task (the failures before `client.Do` being persistent, as those of
the limiter and of the request construction are): if every attempt receives HTTP 429,
the task issues exactly `maxRetries` = 3 requests and then ends in terminal failure,
sending one error and no batch; if the first successful attempt is attempt `k ≤ 3`,
the task issues exactly `k` requests, makes exactly `k` passes of the loop and so no
further attempt, and sends the row batch of that attempt and no error. -/
theorem C2_retry_bound (cfg : Config) (fmtFloat : Float64 → String) (issueKey : String)
    (env : Nat → AttemptOutcome) (hpersist : failuresPersist env = true) :
    ((∀ a, 1 ≤ a → a ≤ maxRetries → ∃ body decoded, env a = .response 429 body decoded) →
      requestsIssued (changelogTask cfg fmtFloat issueKey env) = maxRetries
      ∧ maxRetries = 3
      ∧ attemptsMade (changelogTask cfg fmtFloat issueKey env) = maxRetries
      ∧ sentChangelogs (changelogTask cfg fmtFloat issueKey env) = []
      ∧ ∃ err, sentErrs (changelogTask cfg fmtFloat issueKey env) = [err])
    ∧ (∀ (k : Nat) (body : String) (entries : List ChangelogEntry),
        1 ≤ k → k ≤ maxRetries →
        (∀ j, 1 ≤ j → j < k → (env j).isSuccess = false) →
        env k = .response 200 body (.ok entries) →
        requestsIssued (changelogTask cfg fmtFloat issueKey env) = k
        ∧ attemptsMade (changelogTask cfg fmtFloat issueKey env) = k
        ∧ sentChangelogs (changelogTask cfg fmtFloat issueKey env)
            = [expandEntries cfg fmtFloat entries]
        ∧ sentErrs (changelogTask cfg fmtFloat issueKey env) = []) := by
  refine ⟨(changelogTask_retry_counts cfg fmtFloat issueKey env).1, ?_⟩
  intro k body entries hk1 hk3 hfail hok
  obtain ⟨h1, h2, h3, _, _, h6⟩ :=
    (changelogTask_retry_counts cfg fmtFloat issueKey env).2 k body entries hk1 hk3 hfail hok
  refine ⟨h6 ?_, h1, h2, h3⟩
  intro j hj1 hjk
  exact reachesUpstream_before_success env hpersist j k hj1 (by omega) hk3
    (by rw [hok]; rfl)

/-- Witness of C2: status 429, then a transport error, then status 200 on the third
attempt: three requests, three passes, one batch; and a task answered with status 429
three times issues three requests and sends one error. -/
theorem C2_retry_bound_witness :
    (failuresPersist envThirdOk = true
      ∧ requestsIssued (changelogTask sampleCfg noFloat "A-1" envThirdOk) = 3
      ∧ attemptsMade (changelogTask sampleCfg noFloat "A-1" envThirdOk) = 3
      ∧ sentChangelogs (changelogTask sampleCfg noFloat "A-1" envThirdOk)
          = [expandEntries sampleCfg noFloat sampleEntries])
    ∧ (failuresPersist envAlways429 = true
      ∧ requestsIssued (changelogTask sampleCfg noFloat "A-1" envAlways429) = maxRetries
      ∧ sentChangelogs (changelogTask sampleCfg noFloat "A-1" envAlways429) = []
      ∧ ∃ err, sentErrs (changelogTask sampleCfg noFloat "A-1" envAlways429) = [err]) :=
  have hk := (C2_retry_bound sampleCfg noFloat "A-1" envThirdOk rfl).2 3 "[...]" sampleEntries
    (by decide) (by decide)
    (fun j h1 h3 => by
      have : j = 1 ∨ j = 2 := by omega
      rcases this with rfl | rfl <;> rfl)
    rfl
  have ha := (C2_retry_bound sampleCfg noFloat "A-1" envAlways429 rfl).1
    (fun _ _ _ => ⟨"", .error (.plain "EOF"), rfl⟩)
  ⟨⟨rfl, hk.1, hk.2.1, hk.2.2.1⟩, ⟨rfl, ha.1, ha.2.2.2.1, ha.2.2.2.2⟩⟩

/-! ### Collecting the results of the tasks -/

theorem attemptLoop_sends_once (cfg : Config) (fmtFloat : Float64 → String)
    (issueKey : String) (env : Nat → AttemptOutcome) (attempts : List Nat)
    (lastErr : Option GoError) :
    (∃ rows, sentChangelogs (attemptLoop cfg fmtFloat issueKey env attempts lastErr) = [rows]
        ∧ sentErrs (attemptLoop cfg fmtFloat issueKey env attempts lastErr) = [])
    ∨ (∃ err, sentChangelogs (attemptLoop cfg fmtFloat issueKey env attempts lastErr) = []
        ∧ sentErrs (attemptLoop cfg fmtFloat issueKey env attempts lastErr) = [err]) := by
  induction attempts generalizing lastErr with
  | nil => exact Or.inr ⟨_, by rw [attemptLoop_nil]; rfl, by rw [attemptLoop_nil]; rfl⟩
  | cons a rest ih =>
    by_cases hs : (env a).isSuccess = true
    · cases hout : env a with
      | response StatusCode body decoded =>
        rw [hout] at hs
        cases decoded with
        | error err => simp [AttemptOutcome.isSuccess] at hs
        | ok entries =>
          have h200 : StatusCode = 200 := by
            by_contra hne
            unfold AttemptOutcome.isSuccess at hs
            split at hs
            · next heq => cases heq; exact hne rfl
            · cases hs
          subst h200
          rw [attemptLoop_ok cfg fmtFloat issueKey env a rest lastErr body entries hout]
          exact Or.inl ⟨_, rfl, rfl⟩
      | limiterErr err => simp [hout, AttemptOutcome.isSuccess] at hs
      | newRequestErr err => simp [hout, AttemptOutcome.isSuccess] at hs
      | doErr err => simp [hout, AttemptOutcome.isSuccess] at hs
    · obtain ⟨evs, le, h1, _, _, h4, h5⟩ :=
        attemptLoop_failed_step cfg fmtFloat issueKey env a rest lastErr (by simpa using hs)
      rw [h1, sentChangelogs_append, sentErrs_append, h4, h5]
      simpa using ih le

theorem changelogTask_sends_once (cfg : Config) (fmtFloat : Float64 → String)
    (issueKey : String) (env : Nat → AttemptOutcome) :
    (∃ rows, sentChangelogs (changelogTask cfg fmtFloat issueKey env) = [rows]
        ∧ sentErrs (changelogTask cfg fmtFloat issueKey env) = [])
    ∨ (∃ err, sentChangelogs (changelogTask cfg fmtFloat issueKey env) = []
        ∧ sentErrs (changelogTask cfg fmtFloat issueKey env) = [err]) := by
  unfold changelogTask
  rw [sentChangelogs_append, sentErrs_append]
  have hp1 : sentChangelogs [Event.sendProgress issueKey] = [] := rfl
  have hp2 : sentErrs [Event.sendProgress issueKey] = [] := rfl
  rw [hp1, hp2, List.append_nil, List.append_nil]
  exact attemptLoop_sends_once cfg fmtFloat issueKey env _ none

theorem filterMap_range_get? {α β : Type} (l : List α) (g : Nat → α → β) :
    (List.range l.length).filterMap (fun i => (l.get? i).map (g i))
      = l.enum.map (fun p => g p.1 p.2) := by
  induction l using List.reverseRecOn with
  | nil => rfl
  | append_singleton l a ih =>
    rw [List.length_append, List.length_singleton, List.range_succ, List.filterMap_append,
      List.enum_append, List.map_append]
    congr 1
    · rw [← ih]
      apply List.filterMap_congr
      intro i hi
      rw [List.mem_range] at hi
      simp [List.getElem?_append_left hi]
    · simp

theorem taskTraces_eq (cfg : Config) (fmtFloat : Float64 → String) (issues : List Issue)
    (env : Nat → Nat → AttemptOutcome) :
    (List.range issues.length).filterMap (taskAt cfg fmtFloat issues env)
      = taskTraces cfg fmtFloat issues env := by
  unfold taskTraces
  rw [← filterMap_range_get? issues (fun i issue => changelogTask cfg fmtFloat issue.Key (env i))]
  rfl

theorem foldl_append_flatten {α : Type} (L : List (List α)) (acc : List α) :
    L.foldl (fun all cl => all ++ cl) acc = acc ++ L.flatten := by
  induction L generalizing acc with
  | nil => simp
  | cons x xs ih => rw [List.foldl_cons, ih]; simp

/-- C1: whatever the issues, the answers the tasks receive and the order in which the
tasks finish, every task sends either one batch or one terminal error;
`GetChangelogsConcurrently` returns an error (and so no rows) exactly when at least one
task ended in terminal failure; and when no task failed it returns the rows of all
batches, as a multiset, so that the number of rows is the sum of the batch sizes. -/
theorem C1_all_or_nothing (cfg : Config) (fmtFloat : Float64 → String)
    (issues : List Issue) (env : Nat → Nat → AttemptOutcome) (finished : List Nat)
    (hperm : finished.Perm (List.range issues.length)) :
    (∀ t ∈ taskTraces cfg fmtFloat issues env,
        (∃ rows, sentChangelogs t = [rows] ∧ sentErrs t = [])
        ∨ (∃ err, sentChangelogs t = [] ∧ sentErrs t = [err]))
    ∧ ((∃ err, GetChangelogsConcurrently cfg fmtFloat issues env finished = .error err)
        ↔ ∃ t ∈ taskTraces cfg fmtFloat issues env, sentErrs t ≠ [])
    ∧ ((∀ t ∈ taskTraces cfg fmtFloat issues env, sentErrs t = []) →
        ∃ rows, GetChangelogsConcurrently cfg fmtFloat issues env finished = .ok rows
          ∧ rows.Perm ((taskTraces cfg fmtFloat issues env).flatMap
              (fun t => (sentChangelogs t).flatten))
          ∧ rows.length = ((taskTraces cfg fmtFloat issues env).map
              (fun t => ((sentChangelogs t).flatten).length)).sum) := by
  have hT : (finished.filterMap (taskAt cfg fmtFloat issues env)).Perm
      (taskTraces cfg fmtFloat issues env) := by
    rw [← taskTraces_eq]
    exact hperm.filterMap _
  have hmem : ∀ t, t ∈ finished.filterMap (taskAt cfg fmtFloat issues env)
      ↔ t ∈ taskTraces cfg fmtFloat issues env := fun t => hT.mem_iff
  refine ⟨?_, ?_, ?_⟩
  · intro t ht
    simp only [taskTraces, List.mem_map] at ht
    obtain ⟨p, _, rfl⟩ := ht
    exact changelogTask_sends_once cfg fmtFloat p.2.Key (env p.1)
  · unfold GetChangelogsConcurrently
    cases herr : ((finished.filterMap (taskAt cfg fmtFloat issues env)).map sentErrs).flatten with
    | nil =>
      simp only [herr]
      constructor
      · rintro ⟨err, h⟩
        cases h
      · rintro ⟨t, ht, hne⟩
        rw [List.flatten_eq_nil_iff] at herr
        exact absurd (herr _ (List.mem_map.mpr ⟨t, (hmem t).mpr ht, rfl⟩)) hne
    | cons e es =>
      simp only [herr]
      constructor
      · intro _
        have hin : e ∈ ((finished.filterMap (taskAt cfg fmtFloat issues env)).map
            sentErrs).flatten := by rw [herr]; exact List.mem_cons_self _ _
        rw [List.mem_flatten] at hin
        obtain ⟨l, hl, hel⟩ := hin
        obtain ⟨t, ht, rfl⟩ := List.mem_map.mp hl
        exact ⟨t, (hmem t).mp ht, List.ne_nil_of_mem hel⟩
      · intro _
        exact ⟨e, rfl⟩
  · intro hnone
    have herr : ((finished.filterMap (taskAt cfg fmtFloat issues env)).map sentErrs).flatten
        = [] := by
      rw [List.flatten_eq_nil_iff]
      intro l hl
      obtain ⟨t, ht, rfl⟩ := List.mem_map.mp hl
      exact hnone t ((hmem t).mp ht)
    have hrows : ((finished.filterMap (taskAt cfg fmtFloat issues env)).map
          sentChangelogs).flatten.flatten.Perm
        ((taskTraces cfg fmtFloat issues env).flatMap (fun t => (sentChangelogs t).flatten)) := by
      have h1 := (hT.flatMap_right (fun t => (sentChangelogs t).flatten))
      have h2 : ∀ L : List (List Event),
          (L.map sentChangelogs).flatten.flatten
            = L.flatMap (fun t => (sentChangelogs t).flatten) := by
        intro L
        induction L with
        | nil => rfl
        | cons x xs ih => simp [List.flatMap_cons, ih]
      rw [h2]
      exact h1
    refine ⟨_, ?_, hrows, ?_⟩
    · unfold GetChangelogsConcurrently
      simp only [herr, foldl_append_flatten, List.nil_append]
    · rw [hrows.length_eq, List.flatMap, List.length_flatten, List.map_map]
      rfl

/-- Witness of C1: two issues whose tasks both succeed, the second task finishing
first: the call returns the four rows of the two batches. -/
theorem C1_all_or_nothing_witness :
    ([1, 0] : List Nat).Perm (List.range sampleIssues.length)
    ∧ ∃ rows, GetChangelogsConcurrently sampleCfg noFloat sampleIssues envTwoTasks [1, 0]
          = .ok rows
        ∧ rows.length = ((taskTraces sampleCfg noFloat sampleIssues envTwoTasks).map
            (fun t => ((sentChangelogs t).flatten).length)).sum
        ∧ rows.length = 4 :=
  have hperm : ([1, 0] : List Nat).Perm (List.range sampleIssues.length) :=
    List.Perm.swap 0 1 []
  ⟨hperm,
   match (C1_all_or_nothing sampleCfg noFloat sampleIssues envTwoTasks [1, 0] hperm).2.2
      (by
        intro t ht
        have h : taskTraces sampleCfg noFloat sampleIssues envTwoTasks
            = [changelogTask sampleCfg noFloat "A-1" envThirdOk,
               changelogTask sampleCfg noFloat "A-2" envFirstOk] := rfl
        rw [h] at ht
        simp only [List.mem_cons, List.mem_singleton, List.not_mem_nil, or_false] at ht
        rcases ht with rfl | rfl <;> rfl) with
   | ⟨rows, h1, _, h3⟩ => ⟨rows, h1, h3, h3.trans rfl⟩⟩

/-! ### The total-count header -/

theorem isDigit_iff (c : Char) : c.isDigit = true ↔ 48 ≤ c.toNat ∧ c.toNat ≤ 57 := by
  simp [Char.isDigit, Char.toNat, UInt32.le_def, UInt32.toNat, BitVec.le_def]

theorem atoiDigits_none (digits : List Char) (n : Nat)
    (h : digits.all Char.isDigit = false) : atoiDigits digits n = none := by
  induction digits generalizing n with
  | nil => simp at h
  | cons ch rest ih =>
    unfold atoiDigits
    by_cases hd : 48 ≤ ch.toNat ∧ ch.toNat ≤ 57
    · rw [if_pos hd]
      apply ih
      have hc : ch.isDigit = true := (isDigit_iff ch).mpr hd
      simpa [List.all_cons, hc] using h
    · rw [if_neg hd]

theorem Atoi_error_of_not_decimal (s : String) (h : isDecimalInteger s = false) :
    ∃ err, Atoi s = .error err := by
  unfold isDecimalInteger at h
  unfold Atoi
  split at h
  · next digits heq =>
    simp only [heq]
    by_cases hlen : digits.length < 1
    · exact ⟨_, if_pos hlen⟩
    · have hne : digits.isEmpty = false := by
        cases digits with
        | nil => simp at hlen
        | cons _ _ => rfl
      rw [hne] at h
      rw [if_neg hlen, atoiDigits_none digits 0 (by simpa using h)]
      exact ⟨_, rfl⟩
  · next digits heq =>
    simp only [heq]
    by_cases hlen : digits.length < 1
    · exact ⟨_, if_pos hlen⟩
    · have hne : digits.isEmpty = false := by
        cases digits with
        | nil => simp at hlen
        | cons _ _ => rfl
      rw [hne] at h
      rw [if_neg hlen, atoiDigits_none digits 0 (by simpa using h)]
      exact ⟨_, rfl⟩
  · next digits hminus hplus =>
    split
    · exact ⟨_, rfl⟩
    · next ds heq => exact absurd heq (hminus ds)
    · next ds heq => exact absurd heq (hplus ds)
    · next hnil _ _ =>
      have hne : s.toList.isEmpty = false := by
        cases hs : s.toList with
        | nil => exact absurd hs hnil
        | cons _ _ => rfl
      rw [hne] at h
      rw [atoiDigits_none s.toList 0 (by simpa using h)]
      exact ⟨_, rfl⟩

/-- C5: when the first response has status 200 and a decodable body but its
`X-Total-Count` header is absent or is not a decimal integer, `GetIssues` returns an
error, never the first page, and the first request is the only one it has issued. -/
theorem C5_bad_total_count (cfg : Config)
    (upstream : Nat → HTTPRequest → ClientOutcome (List Issue)) (query : String) (fuel : Nat)
    (resp : Response (List Issue)) (issues : List Issue)
    (hfirst : upstream 0 (firstRequest cfg query) = .response resp)
    (h200 : resp.StatusCode = 200) (hdec : resp.decoded = .ok issues)
    (hbad : List.lookup "X-Total-Count" resp.Header = none
      ∨ isDecimalInteger (headerGet resp.Header "X-Total-Count") = false) :
    ∃ err, GetIssues cfg upstream query fuel
      = { result := some (.error err), requests := [firstRequest cfg query] } := by
  have hnot : isDecimalInteger (headerGet resp.Header "X-Total-Count") = false := by
    rcases hbad with habs | hbad
    · simp only [headerGet, habs]
      rfl
    · exact hbad
  obtain ⟨err, herr⟩ := Atoi_error_of_not_decimal _ hnot
  refine ⟨Errorf_w "failed to parse total count: " (some err), ?_⟩
  unfold GetIssues
  simp only [hfirst, h200, hdec, herr]
  simp

/-- Witness of C5: a first page of one issue whose count header reads `12a`, and one
without the header. -/
theorem C5_bad_total_count_witness :
    (∃ err, GetIssues sampleCfg badCountServer "" 7
      = { result := some (.error err), requests := [firstRequest sampleCfg ""] })
    ∧ (∃ err, GetIssues sampleCfg noCountServer "" 7
      = { result := some (.error err), requests := [firstRequest sampleCfg ""] }) :=
  ⟨C5_bad_total_count sampleCfg badCountServer "" 7 _ [{ ID := "1", Key := "A-1" }]
      rfl rfl rfl (Or.inr rfl),
   C5_bad_total_count sampleCfg noCountServer "" 7 _ [{ ID := "1", Key := "A-1" }]
      rfl rfl rfl (Or.inl rfl)⟩

/-! ### The scroll loop -/

theorem scrollLoop_done (cfg : Config)
    (upstream : Nat → HTTPRequest → ClientOutcome (List Issue)) (query : String)
    (totalCount : Int) (fuel : Nat) (resp : Response (List Issue)) (issues : List Issue)
    (sent : List HTTPRequest) (h : ¬ (issues.length : Int) < totalCount) :
    scrollLoop cfg upstream query totalCount fuel resp issues sent
      = { result := some (.ok issues), requests := sent } := by
  cases fuel <;> simp [scrollLoop, h]

theorem scrollLoop_zero (cfg : Config)
    (upstream : Nat → HTTPRequest → ClientOutcome (List Issue)) (query : String)
    (totalCount : Int) (resp : Response (List Issue)) (issues : List Issue)
    (sent : List HTTPRequest) (h : (issues.length : Int) < totalCount) :
    scrollLoop cfg upstream query totalCount 0 resp issues sent
      = { result := none, requests := sent } := by
  simp [scrollLoop, h]

theorem scrollLoop_page (cfg : Config)
    (upstream : Nat → HTTPRequest → ClientOutcome (List Issue)) (query : String)
    (totalCount : Int) (fuel : Nat) (resp r : Response (List Issue))
    (issues moreIssues : List Issue) (sent : List HTTPRequest)
    (h : (issues.length : Int) < totalCount)
    (hup : upstream sent.length (scrollRequest cfg resp query) = .response r)
    (h200 : r.StatusCode = 200) (hdec : r.decoded = .ok moreIssues) :
    scrollLoop cfg upstream query totalCount (fuel + 1) resp issues sent
      = scrollLoop cfg upstream query totalCount fuel r (issues ++ moreIssues)
          (sent ++ [scrollRequest cfg resp query]) := by
  rw [scrollLoop]
  simp [h, hup, h200, hdec]

theorem pages_needed (T P n : Nat) (hP : 0 < P) :
    (max 1 ((T + P - 1) / P) ≤ n → T ≤ n * P)
    ∧ (1 ≤ n → n < max 1 ((T + P - 1) / P) → n * P < T) := by
  constructor
  · intro h
    have h1 : (T + P - 1) / P < n + 1 := by omega
    rw [Nat.div_lt_iff_lt_mul hP, Nat.succ_mul] at h1
    omega
  · intro h1 h
    have h2 : n + 1 ≤ (T + P - 1) / P := by omega
    rw [Nat.le_div_iff_mul_le hP, Nat.succ_mul] at h2
    omega

theorem scrollLoop_paged (cfg : Config) (query : String) (all : List Issue) (P : Nat)
    (total : String) (hP : 0 < P) (d : Nat) :
    ∀ (n fuel : Nat) (resp : Response (List Issue)) (sent : List HTTPRequest),
      1 ≤ n → sent.length = n → n + d = max 1 ((all.length + P - 1) / P) → d ≤ fuel →
      ∃ reqs, scrollLoop cfg (pagedServer all P total) query (all.length : Int) fuel resp
            (all.take (n * P)) sent
          = { result := some (.ok all), requests := reqs }
        ∧ reqs.length = max 1 ((all.length + P - 1) / P) := by
  induction d with
  | zero =>
    intro n fuel resp sent _ hsent hn _
    have hle : all.length ≤ n * P := (pages_needed all.length P n hP).1 (by omega)
    refine ⟨sent, ?_, by omega⟩
    rw [scrollLoop_done]
    · rw [List.take_of_length_le hle]
    · rw [List.take_of_length_le hle]
      omega
  | succ d ih =>
    intro n fuel resp sent h1 hsent hn hfuel
    have hlt : n * P < all.length := (pages_needed all.length P n hP).2 h1 (by omega)
    obtain ⟨fuel', rfl⟩ : ∃ f, fuel = f + 1 := ⟨fuel - 1, by omega⟩
    have hlen : (all.take (n * P)).length = n * P := by
      rw [List.length_take]; omega
    rw [scrollLoop_page cfg (pagedServer all P total) query (all.length : Int) fuel' resp
      { StatusCode := 200
        Header := [("X-Total-Count", total), ("X-Scroll-Id", "scroll"),
          ("X-Scroll-Token", toString sent.length)]
        decoded := .ok ((all.drop (sent.length * P)).take P) }
      (all.take (n * P)) ((all.drop (sent.length * P)).take P) sent
      (by rw [hlen]; exact_mod_cast hlt) rfl rfl rfl]
    have htake : all.take (n * P) ++ (all.drop (sent.length * P)).take P
        = all.take ((n + 1) * P) := by
      rw [hsent, Nat.succ_mul, List.take_add]
    rw [htake]
    exact ih (n + 1) fuel' _ _ (by omega) (by simp [hsent]) (by omega) (by omega)

/-- C3, counterexample: with no matching issue (T = 0) and pages of 500 the fetch still
issues its first request, one request and not ⌈0/500⌉ = 0. -/
theorem C3_counterexample :
    (GetIssues sampleCfg (pagedServer [] 500 "0") "" 0).result = some (.ok [])
    ∧ (GetIssues sampleCfg (pagedServer [] 500 "0") "" 0).requests.length = 1
    ∧ (0 + 500 - 1) / 500 = 0 := by
  refine ⟨rfl, rfl, by decide⟩

/-- C3, as amended: against a server that reports the total `T` (a header that
`strconv.Atoi` reads as `T`) and serves the `T` matching issues in consecutive pages
of `P > 0`, `GetIssues` returns exactly these `T` issues after exactly
max(1, ⌈T/P⌉) search requests: ⌈T/P⌉ requests when `T ≥ 1`, and the one first
request when `T = 0`. -/
theorem C3_pagination (cfg : Config) (query : String) (all : List Issue) (P : Nat)
    (total : String) (fuel : Nat) (hP : 0 < P)
    (htotal : Atoi total = .ok (all.length : Int))
    (hfuel : (all.length + P - 1) / P ≤ fuel) :
    ∃ reqs, GetIssues cfg (pagedServer all P total) query fuel
          = { result := some (.ok all), requests := reqs }
      ∧ reqs.length = max 1 ((all.length + P - 1) / P)
      ∧ (1 ≤ all.length → reqs.length = (all.length + P - 1) / P)
      ∧ (all.length = 0 → reqs.length = 1) := by
  have hrun : ∃ reqs, GetIssues cfg (pagedServer all P total) query fuel
        = { result := some (.ok all), requests := reqs }
      ∧ reqs.length = max 1 ((all.length + P - 1) / P) := by
    have h0 : GetIssues cfg (pagedServer all P total) query fuel
        = scrollLoop cfg (pagedServer all P total) (effectiveQuery cfg query) (all.length : Int)
            fuel
            { StatusCode := 200
              Header := [("X-Total-Count", total), ("X-Scroll-Id", "scroll"),
                ("X-Scroll-Token", toString 0)]
              decoded := .ok ((all.drop (0 * P)).take P) }
            (all.take (1 * P)) [firstRequest cfg query] := by
      unfold GetIssues
      simp only [pagedServer]
      have hh : headerGet [("X-Total-Count", total), ("X-Scroll-Id", "scroll"),
          ("X-Scroll-Token", toString 0)] "X-Total-Count" = total := by
        simp [headerGet, List.lookup]
      simp [hh, htotal]
    rw [h0]
    exact scrollLoop_paged cfg (effectiveQuery cfg query) all P total hP
      (max 1 ((all.length + P - 1) / P) - 1) 1 fuel _ _ (le_refl 1) rfl (by omega) (by omega)
  obtain ⟨reqs, h1, h2⟩ := hrun
  refine ⟨reqs, h1, h2, ?_, ?_⟩
  · intro hT
    have hpos : 1 ≤ (all.length + P - 1) / P := by
      rw [Nat.le_div_iff_mul_le hP]; omega
    omega
  · intro hT
    have hz : (all.length + P - 1) / P = 0 := by
      rw [hT, Nat.div_eq_zero_iff hP]; omega
    omega

/-- Witness of C3 as amended: 1200 matching issues in pages of 500 are fetched with
three requests. -/
theorem C3_pagination_witness :
    ∃ reqs, GetIssues sampleCfg (pagedServer (List.replicate 1200 {}) 500 "1200") "" 3
          = { result := some (.ok (List.replicate 1200 {})), requests := reqs }
      ∧ reqs.length = 3 :=
  match C3_pagination sampleCfg "" (List.replicate 1200 {}) 500 "1200" 3 (by decide)
      (by rw [List.length_replicate]; rfl) (by rw [List.length_replicate]) with
  | ⟨reqs, h1, h2, _⟩ => ⟨reqs, h1, h2.trans (by rw [List.length_replicate]; rfl)⟩

theorem scrollLoop_stuck (cfg : Config)
    (upstream : Nat → HTTPRequest → ClientOutcome (List Issue)) (query : String)
    (totalCount : Int)
    (hstuck : ∀ n req, 1 ≤ n →
      ∃ r, upstream n req = .response r ∧ r.StatusCode = 200 ∧ r.decoded = .ok [])
    (fuel : Nat) :
    ∀ (resp : Response (List Issue)) (issues : List Issue) (sent : List HTTPRequest),
      1 ≤ sent.length → (issues.length : Int) < totalCount →
      (scrollLoop cfg upstream query totalCount fuel resp issues sent).result = none
      ∧ (scrollLoop cfg upstream query totalCount fuel resp issues sent).requests.length
          = sent.length + fuel := by
  induction fuel with
  | zero =>
    intro resp issues sent _ hlt
    rw [scrollLoop_zero cfg upstream query totalCount resp issues sent hlt]
    exact ⟨rfl, rfl⟩
  | succ fuel ih =>
    intro resp issues sent hsent hlt
    obtain ⟨r, hup, h200, hdec⟩ := hstuck sent.length (scrollRequest cfg resp query) hsent
    rw [scrollLoop_page cfg upstream query totalCount fuel resp r issues [] sent hlt hup h200 hdec]
    have := ih r (issues ++ []) (sent ++ [scrollRequest cfg resp query])
      (by simp) (by simpa using hlt)
    refine ⟨this.1, ?_⟩
    rw [this.2, List.length_append, List.length_singleton]
    omega

theorem scrollLoop_ok_reached (cfg : Config)
    (upstream : Nat → HTTPRequest → ClientOutcome (List Issue)) (query : String)
    (totalCount : Int) (fuel : Nat) :
    ∀ (resp : Response (List Issue)) (issues : List Issue) (sent : List HTTPRequest)
      (out : List Issue),
      (scrollLoop cfg upstream query totalCount fuel resp issues sent).result = some (.ok out) →
      totalCount ≤ (out.length : Int) := by
  induction fuel with
  | zero =>
    intro resp issues sent out h
    by_cases hlt : (issues.length : Int) < totalCount
    · rw [scrollLoop_zero cfg upstream query totalCount resp issues sent hlt] at h
      cases h
    · rw [scrollLoop_done cfg upstream query totalCount 0 resp issues sent hlt] at h
      simp only [Option.some.injEq, Except.ok.injEq] at h
      subst h
      omega
  | succ fuel ih =>
    intro resp issues sent out h
    by_cases hlt : (issues.length : Int) < totalCount
    · rw [scrollLoop] at h
      simp only [hlt, if_true] at h
      cases hup : upstream sent.length (scrollRequest cfg resp query) with
      | newRequestErr err => simp [hup] at h
      | doErr err => simp [hup] at h
      | response r =>
        simp only [hup] at h
        by_cases h200 : r.StatusCode = 200
        · cases hdec : r.decoded with
          | error err => simp [h200, hdec] at h
          | ok more =>
            simp only [h200, hdec, ne_eq, not_true_eq_false, if_false] at h
            exact ih _ _ _ _ h
        · simp [h200] at h
    · rw [scrollLoop_done cfg upstream query totalCount (fuel + 1) resp issues sent hlt] at h
      simp only [Option.some.injEq, Except.ok.injEq] at h
      subst h
      omega

/-- C4, counterexample: the server reports a total of 3, serves one issue and then
only empty pages with status 200.  Whatever the number of iterations allowed, the
fetch has not returned, and after `fuel` iterations it has issued `fuel + 1` requests:
it never returns an error. -/
theorem C4_counterexample :
    (∀ fuel, (GetIssues sampleCfg stuckServer "" fuel).result = none
      ∧ (GetIssues sampleCfg stuckServer "" fuel).requests.length = fuel + 1)
    ∧ ¬ ∃ fuel err, (GetIssues sampleCfg stuckServer "" fuel).result = some (.error err) := by
  have hall : ∀ fuel, (GetIssues sampleCfg stuckServer "" fuel).result = none
      ∧ (GetIssues sampleCfg stuckServer "" fuel).requests.length = fuel + 1 := by
    intro fuel
    have h0 : GetIssues sampleCfg stuckServer "" fuel
        = scrollLoop sampleCfg stuckServer (effectiveQuery sampleCfg "") 3 fuel
            stuckFirstPage [{ ID := "1", Key := "A-1" }] [firstRequest sampleCfg ""] := rfl
    rw [h0]
    have := scrollLoop_stuck sampleCfg stuckServer (effectiveQuery sampleCfg "") 3
      (fun n req hn => by
        obtain ⟨m, rfl⟩ : ∃ m, n = m + 1 := ⟨n - 1, by omega⟩
        exact ⟨_, rfl, rfl, rfl⟩)
      fuel stuckFirstPage [{ ID := "1", Key := "A-1" }] [firstRequest sampleCfg ""]
      (by simp) (by decide)
    refine ⟨this.1, ?_⟩
    rw [this.2, List.length_singleton]
    omega
  refine ⟨hall, ?_⟩
  rintro ⟨fuel, err, h⟩
  rw [(hall fuel).1] at h
  cases h

/-- C4, as amended: `GetIssues` has no check for progress.  After a first response
with status 200, a decodable page and a total count `T`, it returns without error only
once the accumulated count has reached `T`; and against a server whose reported total
exceeds the first page and whose continuation pages are all empty lists with status
200 it does not return at all: after any number `fuel` of iterations it is still in
the loop and has issued `fuel + 1` requests. -/
theorem C4_no_progress_check (cfg : Config)
    (upstream : Nat → HTTPRequest → ClientOutcome (List Issue)) (query : String)
    (resp : Response (List Issue)) (first : List Issue) (T : Int)
    (hfirst : upstream 0 (firstRequest cfg query) = .response resp)
    (h200 : resp.StatusCode = 200) (hdec : resp.decoded = .ok first)
    (hT : Atoi (headerGet resp.Header "X-Total-Count") = .ok T) :
    (∀ fuel out, (GetIssues cfg upstream query fuel).result = some (.ok out) →
        T ≤ (out.length : Int))
    ∧ ((first.length : Int) < T →
        (∀ n req, 1 ≤ n →
          ∃ r, upstream n req = .response r ∧ r.StatusCode = 200 ∧ r.decoded = .ok []) →
        ∀ fuel, (GetIssues cfg upstream query fuel).result = none
          ∧ (GetIssues cfg upstream query fuel).requests.length = fuel + 1) := by
  have h0 : ∀ fuel, GetIssues cfg upstream query fuel
      = scrollLoop cfg upstream (effectiveQuery cfg query) T fuel resp first
          [firstRequest cfg query] := by
    intro fuel
    unfold GetIssues
    simp [hfirst, h200, hdec, hT]
  constructor
  · intro fuel out h
    rw [h0] at h
    exact scrollLoop_ok_reached cfg upstream _ T fuel _ _ _ out h
  · intro hlt hstuck fuel
    rw [h0]
    have := scrollLoop_stuck cfg upstream (effectiveQuery cfg query) T hstuck fuel resp first
      [firstRequest cfg query] (by simp) hlt
    refine ⟨this.1, ?_⟩
    rw [this.2, List.length_singleton]
    omega

/-- Witness of C4 as amended, at the server that reports 3 and serves one issue: after
ten iterations the fetch has issued eleven requests and has not returned. -/
theorem C4_no_progress_check_witness :
    (GetIssues sampleCfg stuckServer "" 10).result = none
    ∧ (GetIssues sampleCfg stuckServer "" 10).requests.length = 10 + 1 :=
  (C4_no_progress_check sampleCfg stuckServer "" stuckFirstPage [{ ID := "1", Key := "A-1" }] 3
    rfl rfl rfl rfl).2 (by decide)
    (fun n req hn => by
      obtain ⟨m, rfl⟩ : ∃ m, n = m + 1 := ⟨n - 1, by omega⟩
      exact ⟨_, rfl, rfl, rfl⟩) 10

/-! ### The organisation id -/

theorem expandEntries_org (cfg : Config) (fmtFloat : Float64 → String)
    (entries : List ChangelogEntry) :
    ∀ row ∈ expandEntries cfg fmtFloat entries, row.OrganizationID = cfg.Tracker.OrgID := by
  intro row hrow
  rw [expandEntries_eq] at hrow
  simp only [List.mem_flatMap, List.mem_map] at hrow
  obtain ⟨entry, _, field, _, rfl⟩ := hrow
  rfl

theorem GetStatusTypes_org (cfg : Config)
    (upstream : HTTPRequest → ClientOutcome (List StatusType)) (sts : List StatusType)
    (h : GetStatusTypes cfg upstream = .ok sts) :
    ∀ st ∈ sts, st.OrganizationID = cfg.Tracker.OrgID := by
  unfold GetStatusTypes at h
  split at h
  · cases h
  · cases h
  · next resp _ =>
    split at h
    · cases h
    · split at h
      · cases h
      · next statusTypes _ =>
        simp only [Except.ok.injEq] at h
        subst h
        intro st hst
        simp only [List.mem_map] at hst
        obtain ⟨st0, _, rfl⟩ := hst
        rfl

/-- C9, the code at the failing input: with the organisation `org-1` configured and an
upstream record that carries no `organization_id`, the issue `GetIssues` returns has
the empty organisation id, not the configured one, and `SaveIssues` stores that empty
value, whereas every changelog row and every status type is stamped with the
configured organisation. -/
theorem C9_issue_organization_not_set :
    sampleCfg.Tracker.OrgID = "org-1"
    ∧ (GetIssues sampleCfg (pagedServer [{ ID := "1", Key := "A-1" }] 500 "1") "" 1).result
        = some (.ok [{ ID := "1", Key := "A-1", OrganizationID := "" }])
    ∧ (SaveIssues {} { nanos := 10 } {} [{ ID := "1", Key := "A-1", OrganizationID := "" }]).2.issues.map
        (fun r => r.organization_id) = [""]
    ∧ (∀ cfg fmtFloat entries, ∀ row ∈ expandEntries cfg fmtFloat entries,
        row.OrganizationID = cfg.Tracker.OrgID)
    ∧ (∀ cfg upstream sts, GetStatusTypes cfg upstream = .ok sts →
        ∀ st ∈ sts, st.OrganizationID = cfg.Tracker.OrgID) :=
  ⟨rfl, rfl, rfl, expandEntries_org, GetStatusTypes_org⟩

/-! ### Upserts -/

theorem keys_upsert {Row Key : Type} [DecidableEq Key] (key : Row → Key)
    (onConflict : Row → Row → Row) (hkey : ∀ row p, key (onConflict row p) = key row)
    (t : List Row) (p : Row) :
    (upsert key onConflict t p).map key
      = if key p ∈ t.map key then t.map key else t.map key ++ [key p] := by
  induction t with
  | nil => simp [upsert]
  | cons row rest ih =>
    unfold upsert
    by_cases h : key row = key p
    · simp [h, hkey]
    · have h' : ¬ key p = key row := fun e => h e.symm
      simp only [h, if_false, List.map_cons, ih, List.mem_cons, h', false_or]
      split <;> simp

theorem nodup_upsert {Row Key : Type} [DecidableEq Key] (key : Row → Key)
    (onConflict : Row → Row → Row) (hkey : ∀ row p, key (onConflict row p) = key row)
    (t : List Row) (p : Row) (h : (t.map key).Nodup) :
    ((upsert key onConflict t p).map key).Nodup := by
  rw [keys_upsert key onConflict hkey]
  split
  · exact h
  · next hn =>
    rw [List.nodup_append]
    refine ⟨h, List.nodup_singleton _, ?_⟩
    intro a ha hb
    rw [List.mem_singleton] at hb
    exact hn (hb ▸ ha)

theorem mem_keys_upsert {Row Key : Type} [DecidableEq Key] (key : Row → Key)
    (onConflict : Row → Row → Row) (hkey : ∀ row p, key (onConflict row p) = key row)
    (t : List Row) (p : Row) (k : Key) (h : k = key p ∨ k ∈ t.map key) :
    k ∈ (upsert key onConflict t p).map key := by
  rw [keys_upsert key onConflict hkey]
  split
  · next hm =>
    rcases h with rfl | h
    · exact hm
    · exact h
  · rcases h with rfl | h
    · simp
    · exact List.mem_append_left _ h

theorem nodup_foldl_upsert {Row Key : Type} [DecidableEq Key] (key : Row → Key)
    (onConflict : Row → Row → Row) (hkey : ∀ row p, key (onConflict row p) = key row)
    (ps : List Row) (t : List Row) (h : (t.map key).Nodup) :
    ((ps.foldl (upsert key onConflict) t).map key).Nodup := by
  induction ps generalizing t with
  | nil => exact h
  | cons p ps ih => exact ih _ (nodup_upsert key onConflict hkey t p h)

theorem mem_keys_foldl_upsert {Row Key : Type} [DecidableEq Key] (key : Row → Key)
    (onConflict : Row → Row → Row) (hkey : ∀ row p, key (onConflict row p) = key row)
    (ps : List Row) (t : List Row) (k : Key) (h : (∃ p ∈ ps, k = key p) ∨ k ∈ t.map key) :
    k ∈ (ps.foldl (upsert key onConflict) t).map key := by
  induction ps generalizing t with
  | nil =>
    rcases h with ⟨p, hp, _⟩ | h
    · cases hp
    · exact h
  | cons p ps ih =>
    rw [List.foldl_cons]
    apply ih
    rcases h with ⟨q, hq, hk⟩ | h
    · rcases List.mem_cons.mp hq with rfl | hq'
      · exact Or.inr (mem_keys_upsert key onConflict hkey t q k (Or.inl hk))
      · exact Or.inl ⟨q, hq', hk⟩
    · exact Or.inr (mem_keys_upsert key onConflict hkey t p k (Or.inr h))

theorem keys_foldl_upsert_of_mem {Row Key : Type} [DecidableEq Key] (key : Row → Key)
    (onConflict : Row → Row → Row) (hkey : ∀ row p, key (onConflict row p) = key row)
    (ps : List Row) (t : List Row) (h : ∀ p ∈ ps, key p ∈ t.map key) :
    (ps.foldl (upsert key onConflict) t).map key = t.map key := by
  induction ps generalizing t with
  | nil => rfl
  | cons p ps ih =>
    have hp : key p ∈ t.map key := h p (List.mem_cons_self _ _)
    have hk : (upsert key onConflict t p).map key = t.map key := by
      rw [keys_upsert key onConflict hkey, if_pos hp]
    rw [List.foldl_cons, ih, hk]
    intro q hq
    rw [hk]
    exact h q (List.mem_cons_of_mem _ hq)

theorem find_upsert_same {Row Key : Type} [DecidableEq Key] (key : Row → Key)
    (onConflict : Row → Row → Row) (hkey : ∀ row p, key (onConflict row p) = key row)
    (t : List Row) (p : Row) :
    ∃ r, (upsert key onConflict t p).find? (fun r => decide (key r = key p)) = some r
      ∧ (r = p ∨ ∃ row, r = onConflict row p) := by
  induction t with
  | nil => exact ⟨p, by simp [upsert], Or.inl rfl⟩
  | cons row rest ih =>
    unfold upsert
    by_cases h : key row = key p
    · refine ⟨onConflict row p, ?_, Or.inr ⟨row, rfl⟩⟩
      simp [h, hkey]
    · obtain ⟨r, hr, hor⟩ := ih
      refine ⟨r, ?_, hor⟩
      simp only [h, if_false]
      rw [List.find?_cons_of_neg _ (by simpa using h)]
      exact hr

theorem find_upsert_other {Row Key : Type} [DecidableEq Key] (key : Row → Key)
    (onConflict : Row → Row → Row) (hkey : ∀ row p, key (onConflict row p) = key row)
    (t : List Row) (p : Row) (k : Key) (hk : key p ≠ k) :
    (upsert key onConflict t p).find? (fun r => decide (key r = k))
      = t.find? (fun r => decide (key r = k)) := by
  induction t with
  | nil => simp [upsert, hk]
  | cons row rest ih =>
    unfold upsert
    by_cases h : key row = key p
    · have hrow : key row ≠ k := fun e => hk (h ▸ e)
      have hc : key (onConflict row p) ≠ k := by rw [hkey]; exact hrow
      simp only [h, if_true]
      rw [List.find?_cons_of_neg _ (by simpa using hc),
        List.find?_cons_of_neg _ (by simpa using hrow)]
    · simp only [h, if_false]
      by_cases hrow : key row = k
      · rw [List.find?_cons_of_pos _ (by simpa using hrow),
          List.find?_cons_of_pos _ (by simpa using hrow)]
      · rw [List.find?_cons_of_neg _ (by simpa using hrow),
          List.find?_cons_of_neg _ (by simpa using hrow), ih]

theorem find_foldl_upsert_other {Row Key : Type} [DecidableEq Key] (key : Row → Key)
    (onConflict : Row → Row → Row) (hkey : ∀ row p, key (onConflict row p) = key row)
    (ps : List Row) (t : List Row) (k : Key) (hk : ∀ q ∈ ps, key q ≠ k) :
    (ps.foldl (upsert key onConflict) t).find? (fun r => decide (key r = k))
      = t.find? (fun r => decide (key r = k)) := by
  induction ps generalizing t with
  | nil => rfl
  | cons p ps ih =>
    rw [List.foldl_cons, ih _ (fun q hq => hk q (List.mem_cons_of_mem _ hq)),
      find_upsert_other key onConflict hkey t p k (hk p (List.mem_cons_self _ _))]

/-- After a batch of upserts the row of a key written by the batch carries, in the
columns the conflict clause overwrites (`cols`), the values of the last row of the
batch with that key. -/
theorem find_foldl_upsert_latest {Row Key M : Type} [DecidableEq Key] (key : Row → Key)
    (onConflict : Row → Row → Row) (cols : Row → M)
    (hkey : ∀ row p, key (onConflict row p) = key row)
    (hcols : ∀ row p, cols (onConflict row p) = cols p)
    (ps : List Row) (t : List Row) (k : Key) (h : ∃ p ∈ ps, key p = k) :
    ∃ r latest, (ps.foldl (upsert key onConflict) t).find? (fun r => decide (key r = k)) = some r
      ∧ (ps.filter (fun p => decide (key p = k))).getLast? = some latest
      ∧ cols r = cols latest := by
  induction ps generalizing t with
  | nil =>
    obtain ⟨p, hp, _⟩ := h
    cases hp
  | cons p ps ih =>
    rw [List.foldl_cons]
    by_cases hlater : ∃ q ∈ ps, key q = k
    · obtain ⟨r, latest, h1, h2, h3⟩ := ih (upsert key onConflict t p) hlater
      refine ⟨r, latest, h1, ?_, h3⟩
      by_cases hp : key p = k
      · rw [List.filter_cons_of_pos (by simpa using hp)]
        cases hf : ps.filter (fun p => decide (key p = k)) with
        | nil => rw [hf] at h2; cases h2
        | cons x xs => rw [List.getLast?_cons_cons, ← hf, h2]
      · rw [List.filter_cons_of_neg (by simpa using hp)]
        exact h2
    · have hnone : ∀ q ∈ ps, key q ≠ k := fun q hq e => hlater ⟨q, hq, e⟩
      have hp : key p = k := by
        obtain ⟨q, hq, hqk⟩ := h
        rcases List.mem_cons.mp hq with rfl | hq'
        · exact hqk
        · exact absurd hqk (hnone q hq')
      obtain ⟨r, hr, hor⟩ := find_upsert_same key onConflict hkey t p
      refine ⟨r, p, ?_, ?_, ?_⟩
      · rw [find_foldl_upsert_other key onConflict hkey ps _ k hnone, ← hp]
        exact hr
      · rw [List.filter_cons_of_pos (by simpa using hp)]
        have hf : ps.filter (fun p => decide (key p = k)) = [] := by
          rw [List.filter_eq_nil_iff]
          intro q hq
          simpa using hnone q hq
        rw [hf]
        rfl
      · rcases hor with rfl | ⟨row, rfl⟩
        · rfl
        · exact hcols row p

theorem filter_eq_singleton_of_find {Row Key : Type} [DecidableEq Key] (key : Row → Key)
    (t : List Row) (k : Key) (r : Row) (hnd : (t.map key).Nodup)
    (hfind : t.find? (fun r => decide (key r = k)) = some r) :
    t.filter (fun r => decide (key r = k)) = [r] := by
  induction t with
  | nil => cases hfind
  | cons row rest ih =>
    rw [List.map_cons, List.nodup_cons] at hnd
    by_cases h : key row = k
    · rw [List.find?_cons_of_pos _ (by simpa using h)] at hfind
      cases hfind
      rw [List.filter_cons_of_pos (by simpa using h)]
      congr 1
      rw [List.filter_eq_nil_iff]
      intro q hq hqk
      have hqk' : key q = k := by simpa using hqk
      exact hnd.1 (List.mem_map.mpr ⟨q, hq, hqk'.trans h.symm⟩)
    · rw [List.find?_cons_of_neg _ (by simpa using h)] at hfind
      rw [List.filter_cons_of_neg (by simpa using h)]
      exact ih hnd.2 hfind

theorem find_isSome_of_mem_keys {Row Key : Type} [DecidableEq Key] (key : Row → Key)
    (t : List Row) (k : Key) (h : k ∈ t.map key) :
    ∃ r, t.find? (fun r => decide (key r = k)) = some r := by
  induction t with
  | nil => cases h
  | cons row rest ih =>
    by_cases hk : key row = k
    · exact ⟨row, List.find?_cons_of_pos _ (by simpa using hk)⟩
    · rw [List.find?_cons_of_neg _ (by simpa using hk)]
      apply ih
      rcases List.mem_cons.mp h with h | h
      · exact absurd h.symm hk
      · exact h

theorem execAll_ok {α Row : Type} (faults : TxFaults) (exec : List Row → α → List Row)
    (wrap : α → String) (batch : List α) (i : Nat) (table table' : List Row)
    (h : execAll faults exec wrap batch i table = .ok table') :
    table' = batch.foldl exec table := by
  induction batch generalizing i table with
  | nil =>
    simp only [execAll, Except.ok.injEq] at h
    exact h.symm
  | cons x rest ih =>
    unfold execAll at h
    cases he : faults.execErr i with
    | some err => simp [he] at h
    | none =>
      simp only [he] at h
      exact ih _ _ h

theorem runTx_ok {α Row : Type} (faults : TxFaults) (exec : List Row → α → List Row)
    (wrap : α → String) (batch : List α) (table : List Row) (out : Option GoError × List Row)
    (h : runTx faults exec wrap batch table = out) (hnone : out.1 = none) :
    out.2 = batch.foldl exec table := by
  subst h
  unfold runTx at hnone ⊢
  cases hb : faults.beginErr with
  | some err => simp [hb] at hnone
  | none =>
    cases hp : faults.prepareErr with
    | some err => simp [hb, hp] at hnone
    | none =>
      cases he : execAll faults exec wrap batch 0 table with
      | error err => simp [hb, hp, he] at hnone
      | ok table' =>
        cases hc : faults.commitErr with
        | some err => simp [hb, hp, he, hc] at hnone
        | none =>
          simp only [hb, hp, he, hc]
          exact execAll_ok faults exec wrap batch 0 table table' he

theorem SaveIssues_ok (faults : TxFaults) (now : Time) (store s' : Store)
    (issues : List Issue) (h : SaveIssues faults now store issues = (none, s')) :
    s'.issues = (issues.map issueParams).foldl
        (upsert IssueRow.conflictKey (issueOnConflict now)) store.issues
    ∧ s'.changelog = store.changelog ∧ s'.status_types = store.status_types := by
  unfold SaveIssues at h
  simp only [Prod.mk.injEq] at h
  obtain ⟨h1, h2⟩ := h
  have := runTx_ok faults _ _ issues store.issues _ rfl h1
  subst h2
  refine ⟨?_, rfl, rfl⟩
  simp only [this, List.foldl_map]

theorem SaveChangelogs_ok (faults : TxFaults) (store s' : Store)
    (changelogs : List Changelog) (h : SaveChangelogs faults store changelogs = (none, s')) :
    s'.changelog = (changelogs.map changelogParams).foldl
        (upsert ChangelogRow.conflictKey changelogOnConflict) store.changelog
    ∧ s'.issues = store.issues ∧ s'.status_types = store.status_types := by
  unfold SaveChangelogs at h
  simp only [Prod.mk.injEq] at h
  obtain ⟨h1, h2⟩ := h
  have := runTx_ok faults _ _ changelogs store.changelog _ rfl h1
  subst h2
  refine ⟨?_, rfl, rfl⟩
  simp only [this, List.foldl_map]

/-- C10: on a store that respects the unique keys, two successful runs of `SaveIssues`
with the same batch leave exactly one row for each `tracker_id` of the batch, no two
rows of the table sharing a key, and the same row keys as after the first run; two
successful runs of `SaveChangelogs` with the same batch leave exactly one row for each
(`tracker_id`, `field_display`) of the batch, whose `updated_at`,
`updated_by_display`, `from_display`, `to_display` and `worklog` are those of the last
row of the batch with that key. -/
theorem C10_idempotent_upsert (store : Store) (issues : List Issue)
    (changelogs : List Changelog) (fi1 fi2 fc1 fc2 : TxFaults) (now1 now2 : Time)
    (si1 si2 sc1 sc2 : Store) (hkeys : store.WellKeyed)
    (hi1 : SaveIssues fi1 now1 store issues = (none, si1))
    (hi2 : SaveIssues fi2 now2 si1 issues = (none, si2))
    (hc1 : SaveChangelogs fc1 store changelogs = (none, sc1))
    (hc2 : SaveChangelogs fc2 sc1 changelogs = (none, sc2)) :
    ((si2.issues.map (fun r => r.tracker_id)).Nodup
      ∧ (∀ issue ∈ issues,
          (si2.issues.filter (fun r => decide (r.tracker_id = issue.ID))).length = 1)
      ∧ si2.issues.map (fun r => r.tracker_id) = si1.issues.map (fun r => r.tracker_id))
    ∧ ((sc2.changelog.map (fun r => (r.tracker_id, r.field_display))).Nodup
      ∧ ∀ c ∈ changelogs, ∃ row latest,
          sc2.changelog.filter
              (fun r => decide (r.tracker_id = c.ID ∧ r.field_display = c.FieldDisplay)) = [row]
          ∧ (changelogs.filter
              (fun c' => decide (c'.ID = c.ID ∧ c'.FieldDisplay = c.FieldDisplay))).getLast?
                = some latest
          ∧ row.updated_at = latest.UpdatedAt
          ∧ row.updated_by_display = latest.UpdatedByDisplay
          ∧ row.from_display = latest.FromDisplay
          ∧ row.to_display = latest.ToDisplay
          ∧ row.worklog = latest.Worklog) := by
  obtain ⟨hik, hck, _⟩ := hkeys
  have hikey : ∀ (now : Time) (row p : IssueRow),
      IssueRow.conflictKey (issueOnConflict now row p) = IssueRow.conflictKey row :=
    fun _ _ _ => rfl
  have hckey : ∀ row p : ChangelogRow,
      ChangelogRow.conflictKey (changelogOnConflict row p) = ChangelogRow.conflictKey row :=
    fun _ _ => rfl
  obtain ⟨e1, _, _⟩ := SaveIssues_ok fi1 now1 store si1 issues hi1
  obtain ⟨e2, _, _⟩ := SaveIssues_ok fi2 now2 si1 si2 issues hi2
  obtain ⟨d1, _, _⟩ := SaveChangelogs_ok fc1 store sc1 changelogs hc1
  obtain ⟨d2, _, _⟩ := SaveChangelogs_ok fc2 sc1 sc2 changelogs hc2
  have hnd1 : (si1.issues.map IssueRow.conflictKey).Nodup := by
    rw [e1]; exact nodup_foldl_upsert _ _ (hikey now1) _ _ hik
  have hnd2 : (si2.issues.map IssueRow.conflictKey).Nodup := by
    rw [e2]; exact nodup_foldl_upsert _ _ (hikey now2) _ _ hnd1
  have hcd1 : (sc1.changelog.map ChangelogRow.conflictKey).Nodup := by
    rw [d1]; exact nodup_foldl_upsert _ _ hckey _ _ hck
  have hcd2 : (sc2.changelog.map ChangelogRow.conflictKey).Nodup := by
    rw [d2]; exact nodup_foldl_upsert _ _ hckey _ _ hcd1
  refine ⟨⟨hnd2, ?_, ?_⟩, hcd2, ?_⟩
  · intro issue hissue
    have hmem : issue.ID ∈ si2.issues.map IssueRow.conflictKey := by
      rw [e2]
      exact mem_keys_foldl_upsert _ _ (hikey now2) _ _ _
        (Or.inl ⟨issueParams issue, List.mem_map.mpr ⟨issue, hissue, rfl⟩, rfl⟩)
    obtain ⟨r, hr⟩ := find_isSome_of_mem_keys IssueRow.conflictKey si2.issues issue.ID hmem
    have := filter_eq_singleton_of_find IssueRow.conflictKey si2.issues issue.ID r hnd2 hr
    have hfil : si2.issues.filter (fun r => decide (r.tracker_id = issue.ID)) = [r] := this
    rw [hfil]
    rfl
  · have : si2.issues.map IssueRow.conflictKey = si1.issues.map IssueRow.conflictKey := by
      rw [e2]
      apply keys_foldl_upsert_of_mem _ _ (hikey now2)
      intro p hp
      obtain ⟨issue, hissue, rfl⟩ := List.mem_map.mp hp
      rw [e1]
      exact mem_keys_foldl_upsert _ _ (hikey now1) _ _ _
        (Or.inl ⟨issueParams issue, List.mem_map.mpr ⟨issue, hissue, rfl⟩, rfl⟩)
    exact this
  · intro c hc
    obtain ⟨row, latestRow, h1, h2, h3⟩ :=
      find_foldl_upsert_latest ChangelogRow.conflictKey changelogOnConflict
        (fun r => (r.updated_at, r.updated_by_display, r.from_display, r.to_display, r.worklog))
        hckey (fun _ _ => rfl) (changelogs.map changelogParams) sc1.changelog (c.ID, c.FieldDisplay)
        ⟨changelogParams c, List.mem_map.mpr ⟨c, hc, rfl⟩, rfl⟩
    rw [← d2] at h1
    have hfil := filter_eq_singleton_of_find ChangelogRow.conflictKey sc2.changelog
      (c.ID, c.FieldDisplay) row hcd2 h1
    have hpred : (fun r : ChangelogRow =>
          decide (r.tracker_id = c.ID ∧ r.field_display = c.FieldDisplay))
        = (fun r => decide (ChangelogRow.conflictKey r = (c.ID, c.FieldDisplay))) := by
      funext r
      simp [ChangelogRow.conflictKey]
    have hpred' : (fun c' : Changelog =>
          decide (c'.ID = c.ID ∧ c'.FieldDisplay = c.FieldDisplay))
        = (fun c' => decide (ChangelogRow.conflictKey (changelogParams c')
            = (c.ID, c.FieldDisplay))) := by
      funext c'
      simp [ChangelogRow.conflictKey, changelogParams]
    rw [List.filter_map] at h2
    have h2' : ((changelogs.filter (fun c' => decide (ChangelogRow.conflictKey
        (changelogParams c') = (c.ID, c.FieldDisplay)))).map changelogParams).getLast?
          = some latestRow := h2
    rw [List.getLast?_map] at h2'
    cases hl : (changelogs.filter (fun c' => decide (ChangelogRow.conflictKey
        (changelogParams c') = (c.ID, c.FieldDisplay)))).getLast? with
    | none => rw [hl] at h2'; cases h2'
    | some latest =>
      rw [hl] at h2'
      simp only [Option.map_some', Option.some.injEq] at h2'
      subst h2'
      simp only [Prod.mk.injEq] at h3
      refine ⟨row, latest, ?_, ?_, h3.1, h3.2.1, h3.2.2.1, h3.2.2.2.1, h3.2.2.2.2⟩
      · rw [hpred]; exact hfil
      · rw [hpred']; exact hl

/-- Witness of C10: the sample store, the sample batches, every driver call succeeding;
the table `issues` ends with the keys `1` and `2`, and the changelog row of
(`ev1`, `Status`) ends with the values of the third row of the batch. -/
theorem C10_idempotent_upsert_witness :
    sampleStore.WellKeyed
    ∧ (((SaveIssues {} { nanos := 20 }
          (SaveIssues {} { nanos := 10 } sampleStore sampleIssueBatch).2
          sampleIssueBatch).2.issues.map (fun r => r.tracker_id)) = ["1", "2"])
    ∧ ∃ row latest,
        (SaveChangelogs {} (SaveChangelogs {} sampleStore sampleChangelogBatch).2
            sampleChangelogBatch).2.changelog.filter
          (fun r => decide (r.tracker_id = "ev1" ∧ r.field_display = "Status")) = [row]
        ∧ (sampleChangelogBatch.filter
            (fun c' => decide (c'.ID = "ev1" ∧ c'.FieldDisplay = "Status"))).getLast?
              = some latest
        ∧ row.to_display = latest.ToDisplay ∧ latest.ToDisplay = "Done" :=
  have hk : sampleStore.WellKeyed := by
    refine ⟨?_, ?_, ?_⟩ <;> decide
  have h := C10_idempotent_upsert sampleStore sampleIssueBatch sampleChangelogBatch
    {} {} {} {} { nanos := 10 } { nanos := 20 }
    (SaveIssues {} { nanos := 10 } sampleStore sampleIssueBatch).2
    (SaveIssues {} { nanos := 20 }
      (SaveIssues {} { nanos := 10 } sampleStore sampleIssueBatch).2 sampleIssueBatch).2
    (SaveChangelogs {} sampleStore sampleChangelogBatch).2
    (SaveChangelogs {} (SaveChangelogs {} sampleStore sampleChangelogBatch).2
      sampleChangelogBatch).2
    hk rfl rfl rfl rfl
  ⟨hk, h.1.2.2.trans rfl,
   match h.2.2 { ID := "ev1", IssueKey := "A-1", FieldDisplay := "Status", ToDisplay := "Closed" }
      (List.mem_cons_self _ _) with
   | ⟨row, latest, h1, h2, _, _, _, h6, _⟩ =>
     ⟨row, latest, h1, h2, h6, by
       have h2' : sampleChangelogBatch[2]? = some latest := h2
       cases h2'
       rfl⟩⟩

/-! ### The conflict clause of `insert_issue` -/

theorem find_upsert_conflict {Row Key : Type} [DecidableEq Key] (key : Row → Key)
    (onConflict : Row → Row → Row) (hkey : ∀ row p, key (onConflict row p) = key row)
    (t : List Row) (p row : Row)
    (hfind : t.find? (fun r => decide (key r = key p)) = some row) :
    (upsert key onConflict t p).find? (fun r => decide (key r = key p))
      = some (onConflict row p) := by
  induction t with
  | nil => cases hfind
  | cons r0 rest ih =>
    unfold upsert
    by_cases h : key r0 = key p
    · rw [List.find?_cons_of_pos _ (by simpa using h)] at hfind
      cases hfind
      simp [h, hkey]
    · rw [List.find?_cons_of_neg _ (by simpa using h)] at hfind
      simp only [h, if_false]
      rw [List.find?_cons_of_neg _ (by simpa using h)]
      exact ih hfind

/-- After a batch of upserts a row that was in the table before is the result of
applying the conflict clause, in order, with every row of the batch that has its key. -/
theorem find_foldl_upsert_existing {Row Key : Type} [DecidableEq Key] (key : Row → Key)
    (onConflict : Row → Row → Row) (hkey : ∀ row p, key (onConflict row p) = key row)
    (ps : List Row) (t : List Row) (k : Key) (row : Row)
    (hfind : t.find? (fun r => decide (key r = k)) = some row) :
    (ps.foldl (upsert key onConflict) t).find? (fun r => decide (key r = k))
      = some ((ps.filter (fun p => decide (key p = k))).foldl onConflict row) := by
  induction ps generalizing t row with
  | nil => exact hfind
  | cons p ps ih =>
    rw [List.foldl_cons]
    by_cases hp : key p = k
    · rw [List.filter_cons_of_pos (by simpa using hp), List.foldl_cons]
      apply ih
      subst hp
      exact find_upsert_conflict key onConflict hkey t p row hfind
    · rw [List.filter_cons_of_neg (by simpa using hp)]
      apply ih
      rw [find_upsert_other key onConflict hkey t p k hp]
      exact hfind

theorem find_of_mem_nodup {Row Key : Type} [DecidableEq Key] (key : Row → Key)
    (t : List Row) (row : Row) (hnd : (t.map key).Nodup) (hmem : row ∈ t) :
    t.find? (fun r => decide (key r = key row)) = some row := by
  induction t with
  | nil => cases hmem
  | cons r0 rest ih =>
    rw [List.map_cons, List.nodup_cons] at hnd
    rcases List.mem_cons.mp hmem with rfl | hrest
    · exact List.find?_cons_of_pos _ (by simp)
    · have hne : key r0 ≠ key row := fun e =>
        hnd.1 (e ▸ List.mem_map.mpr ⟨row, hrest, rfl⟩)
      rw [List.find?_cons_of_neg _ (by simpa using hne)]
      exact ih hnd.2 hrest

theorem foldl_issueOnConflict (now : Time) (l : List IssueRow) (row latest : IssueRow)
    (hlast : l.getLast? = some latest) :
    l.foldl (issueOnConflict now) row
      = { row with
          updated_at := latest.updated_at
          updated_at_db := some now
          team_number := latest.team_number } := by
  induction l generalizing row with
  | nil => cases hlast
  | cons p l ih =>
    cases l with
    | nil =>
      simp only [List.getLast?_singleton, Option.some.injEq] at hlast
      subst hlast
      rfl
    | cons q l' =>
      rw [List.getLast?_cons_cons] at hlast
      rw [List.foldl_cons, ih (issueOnConflict now row p) hlast]
      rfl

/-- C11: when `SaveIssues` succeeds on a store that already holds a row with the
`tracker_id` of an issue of the batch, that row is afterwards the stored row with only
`updated_at`, `updated_at_db` and `team_number` replaced (by the values of the last
such issue of the batch and the time of the transaction): every other column keeps the
value first written, whatever the new issue carries; a stored row whose `tracker_id`
is not in the batch is left as it is. -/
theorem C11_conflict_frame (faults : TxFaults) (now : Time) (store s' : Store)
    (issues : List Issue) (row : IssueRow)
    (hkeys : (store.issues.map IssueRow.conflictKey).Nodup) (hrow : row ∈ store.issues)
    (hsave : SaveIssues faults now store issues = (none, s')) :
    (∀ latest : Issue,
      (issues.filter (fun i => decide (i.ID = row.tracker_id))).getLast? = some latest →
      s'.issues.filter (fun r => decide (r.tracker_id = row.tracker_id))
        = [{ row with
             updated_at := nilIfZeroTime latest.UpdatedAt
             updated_at_db := some now
             team_number := latest.TeamNumber }])
    ∧ ((∀ i ∈ issues, i.ID ≠ row.tracker_id) →
      s'.issues.filter (fun r => decide (r.tracker_id = row.tracker_id)) = [row]) := by
  have hikey : ∀ (row p : IssueRow),
      IssueRow.conflictKey (issueOnConflict now row p) = IssueRow.conflictKey row :=
    fun _ _ => rfl
  obtain ⟨e1, _, _⟩ := SaveIssues_ok faults now store s' issues hsave
  have hnd : (s'.issues.map IssueRow.conflictKey).Nodup := by
    rw [e1]; exact nodup_foldl_upsert _ _ hikey _ _ hkeys
  have hfind := find_foldl_upsert_existing IssueRow.conflictKey (issueOnConflict now) hikey
    (issues.map issueParams) store.issues (IssueRow.conflictKey row) row
    (find_of_mem_nodup IssueRow.conflictKey store.issues row hkeys hrow)
  rw [← e1] at hfind
  have hfilter := filter_eq_singleton_of_find IssueRow.conflictKey s'.issues
    (IssueRow.conflictKey row) _ hnd hfind
  have hmatch : (issues.map issueParams).filter
        (fun p => decide (IssueRow.conflictKey p = IssueRow.conflictKey row))
      = (issues.filter (fun i => decide (i.ID = row.tracker_id))).map issueParams := by
    rw [List.filter_map]
    rfl
  rw [hmatch] at hfilter
  constructor
  · intro latest hlatest
    have hlast : ((issues.filter (fun i => decide (i.ID = row.tracker_id))).map
        issueParams).getLast? = some (issueParams latest) := by
      rw [List.getLast?_map, hlatest]
      rfl
    rw [foldl_issueOnConflict now _ row (issueParams latest) hlast] at hfilter
    exact hfilter
  · intro hnone
    have hempty : issues.filter (fun i => decide (i.ID = row.tracker_id)) = [] := by
      rw [List.filter_eq_nil_iff]
      intro i hi
      simpa using hnone i hi
    rw [hempty] at hfilter
    exact hfilter

/-- Witness of C11: the stored issue `1` (summary `first import`, team `7`) after a
batch that carries it with summary `renamed`, team `8` and a new update time: the
summary is kept, the team and the update time are replaced. -/
theorem C11_conflict_frame_witness :
    ((SaveIssues {} { nanos := 10 } sampleStore sampleIssueBatch).2.issues.filter
        (fun r => decide (r.tracker_id = "1"))).map
          (fun r => (r.summary, r.team_number, r.updated_at, r.updated_at_db))
      = [("first import", "8", some { nanos := 9 }, some { nanos := 10 })] := by
  have hstore : sampleStore.issues = [sampleStoredRow] := rfl
  have h := (C11_conflict_frame {} { nanos := 10 } sampleStore
    (SaveIssues {} { nanos := 10 } sampleStore sampleIssueBatch).2 sampleIssueBatch
    sampleStoredRow (by rw [hstore]; exact List.nodup_singleton _)
    (by rw [hstore]; exact List.mem_singleton.mpr rfl) rfl).1
    sampleRenamedIssue rfl
  have h' : (SaveIssues {} { nanos := 10 } sampleStore sampleIssueBatch).2.issues.filter
      (fun r => decide (r.tracker_id = "1")) = _ := h
  rw [h']
  rfl

/-! ### Rollback -/

theorem execAll_error {α Row : Type} (faults : TxFaults) (exec : List Row → α → List Row)
    (wrap : α → String) (batch : List α) (i : Nat) (table : List Row)
    (h : ∃ j, j < batch.length ∧ (faults.execErr (i + j)).isSome = true) :
    ∃ err, execAll faults exec wrap batch i table = .error err := by
  induction batch generalizing i table with
  | nil =>
    obtain ⟨j, hj, _⟩ := h
    simp at hj
  | cons x rest ih =>
    unfold execAll
    cases he : faults.execErr i with
    | some err => exact ⟨_, rfl⟩
    | none =>
      simp only []
      apply ih
      obtain ⟨j, hj, hsome⟩ := h
      cases j with
      | zero => simp [he] at hsome
      | succ j =>
        refine ⟨j, by simpa using hj, ?_⟩
        rw [show i + 1 + j = i + (j + 1) by omega]
        exact hsome

theorem execAll_ok_iff {α Row : Type} (faults : TxFaults) (exec : List Row → α → List Row)
    (wrap : α → String) (batch : List α) (i : Nat) (table table' : List Row)
    (h : execAll faults exec wrap batch i table = .ok table') :
    ∀ j, j < batch.length → faults.execErr (i + j) = none := by
  intro j hj
  cases hs : faults.execErr (i + j) with
  | none => rfl
  | some err =>
    obtain ⟨e, he⟩ := execAll_error faults exec wrap batch i table ⟨j, hj, by simp [hs]⟩
    rw [he] at h
    cases h

/-- The transaction frame: an error of any `Exec` makes the call fail, every failing
call leaves the table as it was, and a call without error has met no error in `Begin`,
`Prepare`, any `Exec` or `Commit`. -/
theorem runTx_rollback {α Row : Type} (faults : TxFaults) (exec : List Row → α → List Row)
    (wrap : α → String) (batch : List α) (table : List Row) :
    ((∃ j, j < batch.length ∧ (faults.execErr j).isSome = true) →
        (runTx faults exec wrap batch table).1 ≠ none)
    ∧ ((runTx faults exec wrap batch table).1 ≠ none →
        (runTx faults exec wrap batch table).2 = table)
    ∧ ((runTx faults exec wrap batch table).1 = none →
        faults.beginErr = none ∧ faults.prepareErr = none
        ∧ (∀ j, j < batch.length → faults.execErr j = none)
        ∧ faults.commitErr = none
        ∧ (runTx faults exec wrap batch table).2 = batch.foldl exec table) := by
  unfold runTx
  cases hb : faults.beginErr with
  | some err => simp
  | none =>
    cases hp : faults.prepareErr with
    | some err => simp
    | none =>
      cases he : execAll faults exec wrap batch 0 table with
      | error err => simp
      | ok table' =>
        have hall := execAll_ok_iff faults exec wrap batch 0 table table' he
        simp only [Nat.zero_add] at hall
        cases hc : faults.commitErr with
        | some err =>
          refine ⟨fun _ => by simp, fun _ => rfl, fun h => by simp at h⟩
        | none =>
          refine ⟨?_, fun h => by simp at h, fun _ => ⟨rfl, rfl, hall, rfl, ?_⟩⟩
          · rintro ⟨j, hj, hsome⟩
            rw [hall j hj] at hsome
            cases hsome
          · exact execAll_ok faults exec wrap batch 0 table table' he

/-- C12: for `SaveIssues`, `SaveChangelogs` and `SaveStatusTypes` alike, when the
upsert of any row of the batch fails the call returns an error; whenever the call
returns an error the store is exactly the store before the call, the rows upserted
before the failure included; and the store differs from the one before the call only
when no `Exec` failed, the commit succeeded and no error is returned. -/
theorem C12_rollback (faults : TxFaults) (now : Time) (store : Store) (issues : List Issue)
    (changelogs : List Changelog) (statusTypes : List StatusType) :
    (((∃ j, j < issues.length ∧ (faults.execErr j).isSome = true) →
          (SaveIssues faults now store issues).1 ≠ none)
      ∧ ((SaveIssues faults now store issues).1 ≠ none →
          (SaveIssues faults now store issues).2 = store)
      ∧ ((SaveIssues faults now store issues).2 ≠ store →
          (∀ j, j < issues.length → faults.execErr j = none) ∧ faults.commitErr = none
          ∧ (SaveIssues faults now store issues).1 = none))
    ∧ (((∃ j, j < changelogs.length ∧ (faults.execErr j).isSome = true) →
          (SaveChangelogs faults store changelogs).1 ≠ none)
      ∧ ((SaveChangelogs faults store changelogs).1 ≠ none →
          (SaveChangelogs faults store changelogs).2 = store)
      ∧ ((SaveChangelogs faults store changelogs).2 ≠ store →
          (∀ j, j < changelogs.length → faults.execErr j = none) ∧ faults.commitErr = none
          ∧ (SaveChangelogs faults store changelogs).1 = none))
    ∧ (((∃ j, j < statusTypes.length ∧ (faults.execErr j).isSome = true) →
          (SaveStatusTypes faults now store statusTypes).1 ≠ none)
      ∧ ((SaveStatusTypes faults now store statusTypes).1 ≠ none →
          (SaveStatusTypes faults now store statusTypes).2 = store)
      ∧ ((SaveStatusTypes faults now store statusTypes).2 ≠ store →
          (∀ j, j < statusTypes.length → faults.execErr j = none) ∧ faults.commitErr = none
          ∧ (SaveStatusTypes faults now store statusTypes).1 = none)) := by
  refine ⟨?_, ?_, ?_⟩
  · obtain ⟨h1, h2, h3⟩ := runTx_rollback faults
      (fun table issue =>
        upsert IssueRow.conflictKey (issueOnConflict now) table (issueParams issue))
      (fun issue => "failed to insert issue " ++ issue.Key ++ ": ") issues store.issues
    have hunch : (SaveIssues faults now store issues).1 ≠ none →
        (SaveIssues faults now store issues).2 = store := by
      intro h
      have := h2 h
      simp only [SaveIssues]
      rw [this]
    refine ⟨h1, hunch, ?_⟩
    intro hne
    by_cases herr : (SaveIssues faults now store issues).1 = none
    · obtain ⟨_, _, ha, hc, _⟩ := h3 herr
      exact ⟨ha, hc, herr⟩
    · exact absurd (hunch herr) hne
  · obtain ⟨h1, h2, h3⟩ := runTx_rollback faults
      (fun table changelog =>
        upsert ChangelogRow.conflictKey changelogOnConflict table (changelogParams changelog))
      (fun changelog => "failed to insert changelog for issue " ++ changelog.IssueKey ++ ": ")
      changelogs store.changelog
    have hunch : (SaveChangelogs faults store changelogs).1 ≠ none →
        (SaveChangelogs faults store changelogs).2 = store := by
      intro h
      have := h2 h
      simp only [SaveChangelogs]
      rw [this]
    refine ⟨h1, hunch, ?_⟩
    intro hne
    by_cases herr : (SaveChangelogs faults store changelogs).1 = none
    · obtain ⟨_, _, ha, hc, _⟩ := h3 herr
      exact ⟨ha, hc, herr⟩
    · exact absurd (hunch herr) hne
  · obtain ⟨h1, h2, h3⟩ := runTx_rollback faults
      (fun table st =>
        upsert StatusTypeRow.conflictKey (statusTypeOnConflict now) table (statusTypeParams st))
      (fun st => "failed to insert status type " ++ st.Key ++ ": ") statusTypes
      store.status_types
    have hunch : (SaveStatusTypes faults now store statusTypes).1 ≠ none →
        (SaveStatusTypes faults now store statusTypes).2 = store := by
      intro h
      have := h2 h
      simp only [SaveStatusTypes]
      rw [this]
    refine ⟨h1, hunch, ?_⟩
    intro hne
    by_cases herr : (SaveStatusTypes faults now store statusTypes).1 = none
    · obtain ⟨_, _, ha, hc, _⟩ := h3 herr
      exact ⟨ha, hc, herr⟩
    · exact absurd (hunch herr) hne

/-- Witness of C12: the sample batch of three issues with the third `Exec` failing:
the call returns the wrapped error and the sample store is unchanged, although the
first two upserts had succeeded inside the transaction. -/
theorem C12_rollback_witness :
    (SaveIssues failThirdExec { nanos := 10 } sampleStore sampleIssueBatch).1
        = some (.wrap "failed to insert issue A-2: duplicate key" (.plain "duplicate key"))
    ∧ (SaveIssues failThirdExec { nanos := 10 } sampleStore sampleIssueBatch).2 = sampleStore :=
  ⟨rfl, (C12_rollback failThirdExec { nanos := 10 } sampleStore sampleIssueBatch [] []).1.2.1
    ((C12_rollback failThirdExec { nanos := 10 } sampleStore sampleIssueBatch [] []).1.1
      ⟨2, by decide, rfl⟩)⟩

/-! ### Nullable parameters -/

theorem nilIfZeroInt_spec (x : Int) : AbsentIffZero (nilIfZeroInt x) x (x = 0) := by
  unfold AbsentIffZero nilIfZeroInt
  by_cases h : x = 0 <;> simp [h]

theorem nilIfZeroFloat_spec (x : Float64) :
    AbsentIffZero (nilIfZeroFloat x) x (x.isZero = true) := by
  unfold AbsentIffZero nilIfZeroFloat
  by_cases h : x.isZero = true <;> simp [h]

theorem nilIfZeroTime_spec (x : Time) : AbsentIffZero (nilIfZeroTime x) x (x = {}) := by
  have hz : x.IsZero = true ↔ x = {} := by
    cases x with
    | mk n => simp [Time.IsZero]
  unfold AbsentIffZero nilIfZeroTime
  by_cases h : x.IsZero = true
  · have he : x = {} := hz.mp h
    subst he
    exact ⟨⟨fun _ => rfl, fun _ => rfl⟩, fun hn => absurd rfl hn⟩
  · have hne : ¬ x = {} := fun e => h (hz.mpr e)
    simp [h, hne]

theorem nilIfEmpty_spec (x : String) : AbsentIffZero (nilIfEmpty x) x (x = "") := by
  unfold AbsentIffZero nilIfEmpty
  by_cases h : x = "" <;> simp [h]

theorem upsert_of_not_mem {Row Key : Type} [DecidableEq Key] (key : Row → Key)
    (onConflict : Row → Row → Row) (t : List Row) (p : Row)
    (h : ∀ r ∈ t, key r ≠ key p) : upsert key onConflict t p = t ++ [p] := by
  induction t with
  | nil => rfl
  | cons r0 rest ih =>
    unfold upsert
    rw [if_neg (h r0 (List.mem_cons_self _ _)),
      ih (fun r hr => h r (List.mem_cons_of_mem _ hr))]
    rfl

/-- C13: for every issue, each of the eighteen nullable parameters that `SaveIssues`
binds is absent exactly when the source field is zero (`== 0` for the numbers, which
for a float64 holds for both signed zeros; the zero time; the empty string) and is the
source value itself otherwise; and a successful `SaveIssues` of an issue whose
`tracker_id` is new stores exactly these parameters as the new row. -/
theorem C13_nullable_params (issue : Issue) :
    AbsentIffZero (issueParams issue).version issue.Version (issue.Version = 0)
    ∧ AbsentIffZero (issueParams issue).story_points issue.StoryPoints
        (issue.StoryPoints.isZero = true)
    ∧ AbsentIffZero (issueParams issue).status_start_time issue.StatusStartTime
        (issue.StatusStartTime = {})
    ∧ AbsentIffZero (issueParams issue).created_at issue.CreatedAt (issue.CreatedAt = {})
    ∧ AbsentIffZero (issueParams issue).comment_without_external_message_count
        issue.CommentWithoutExternalMessageCount (issue.CommentWithoutExternalMessageCount = 0)
    ∧ AbsentIffZero (issueParams issue).votes issue.Votes (issue.Votes = 0)
    ∧ AbsentIffZero (issueParams issue).comment_with_external_message_count
        issue.CommentWithExternalMessageCount (issue.CommentWithExternalMessageCount = 0)
    ∧ AbsentIffZero (issueParams issue).deadline issue.Deadline (issue.Deadline = {})
    ∧ AbsentIffZero (issueParams issue).updated_at issue.UpdatedAt (issue.UpdatedAt = {})
    ∧ AbsentIffZero (issueParams issue).original_estimation issue.OriginalEstimation
        (issue.OriginalEstimation.isZero = true)
    ∧ AbsentIffZero (issueParams issue).spent issue.Spent (issue.Spent = "")
    ∧ AbsentIffZero (issueParams issue).estimation issue.Estimation (issue.Estimation = "")
    ∧ AbsentIffZero (issueParams issue).checklist_done issue.ChecklistDone
        (issue.ChecklistDone = 0)
    ∧ AbsentIffZero (issueParams issue).checklist_total issue.ChecklistTotal
        (issue.ChecklistTotal = 0)
    ∧ AbsentIffZero (issueParams issue).last_comment_updated_at issue.LastCommentUpdatedAt
        (issue.LastCommentUpdatedAt = {})
    ∧ AbsentIffZero (issueParams issue).end_time issue.End (issue.End = "")
    ∧ AbsentIffZero (issueParams issue).start_time issue.Start (issue.Start = "")
    ∧ AbsentIffZero (issueParams issue).resolved_at issue.ResolvedAt (issue.ResolvedAt = "")
    ∧ (∀ (faults : TxFaults) (now : Time) (store s' : Store),
        (∀ r ∈ store.issues, r.tracker_id ≠ issue.ID) →
        SaveIssues faults now store [issue] = (none, s') →
        s'.issues = store.issues ++ [issueParams issue]) := by
  refine ⟨nilIfZeroInt_spec _, nilIfZeroFloat_spec _, nilIfZeroTime_spec _,
    nilIfZeroTime_spec _, nilIfZeroInt_spec _, nilIfZeroInt_spec _, nilIfZeroInt_spec _,
    nilIfZeroTime_spec _, nilIfZeroTime_spec _, nilIfZeroFloat_spec _, nilIfEmpty_spec _,
    nilIfEmpty_spec _, nilIfZeroInt_spec _, nilIfZeroInt_spec _, nilIfZeroTime_spec _,
    nilIfEmpty_spec _, nilIfEmpty_spec _, nilIfEmpty_spec _, ?_⟩
  intro faults now store s' hnew hsave
  obtain ⟨e1, _, _⟩ := SaveIssues_ok faults now store s' [issue] hsave
  rw [e1]
  exact upsert_of_not_mem IssueRow.conflictKey (issueOnConflict now) store.issues
    (issueParams issue) hnew

/-- Witness of C13: an issue with only id and key gives eighteen absent parameters; an
issue with every nullable field set gives them unchanged, and is stored so. -/
theorem C13_nullable_params_witness :
    ((issueParams { ID := "2", Key := "A-2" }).version = none
      ∧ (issueParams { ID := "2", Key := "A-2" }).story_points = none
      ∧ (issueParams { ID := "2", Key := "A-2" }).updated_at = none
      ∧ (issueParams { ID := "2", Key := "A-2" }).resolved_at = none)
    ∧ ((issueParams sampleFullIssue).version = some 3
      ∧ (issueParams sampleFullIssue).deadline = some { nanos := 13 }
      ∧ (issueParams sampleFullIssue).spent = some "PT1H")
    ∧ (SaveIssues {} { nanos := 10 } sampleStore [sampleFullIssue]).2.issues
        = sampleStore.issues ++ [issueParams sampleFullIssue] :=
  have h0 := C13_nullable_params { ID := "2", Key := "A-2" }
  have h1 := C13_nullable_params sampleFullIssue
  ⟨⟨h0.1.1.mpr rfl, h0.2.1.1.mpr rfl, h0.2.2.2.2.2.2.2.2.1.1.mpr rfl,
    h0.2.2.2.2.2.2.2.2.2.2.2.2.2.2.2.2.2.1.1.mpr rfl⟩,
   ⟨h1.1.2 (by decide), h1.2.2.2.2.2.2.2.1.2 (by decide),
    h1.2.2.2.2.2.2.2.2.2.2.1.2 (by decide)⟩,
   h1.2.2.2.2.2.2.2.2.2.2.2.2.2.2.2.2.2.2 {} { nanos := 10 } sampleStore _
    (by
      intro r hr
      have hstore : sampleStore.issues = [sampleStoredRow] := rfl
      rw [hstore, List.mem_singleton] at hr
      subst hr
      decide) rfl⟩

/-! ### The orchestrator -/

theorem SaveIssues_unchanged (faults : TxFaults) (now : Time) (store s' : Store)
    (issues : List Issue) (err : GoError)
    (h : SaveIssues faults now store issues = (some err, s')) : s' = store := by
  have h2 := (runTx_rollback faults
    (fun table issue =>
      upsert IssueRow.conflictKey (issueOnConflict now) table (issueParams issue))
    (fun issue => "failed to insert issue " ++ issue.Key ++ ": ") issues store.issues).2.1
  unfold SaveIssues at h
  simp only [Prod.mk.injEq] at h
  obtain ⟨h1, rfl⟩ := h
  rw [h2 (by rw [h1]; simp)]

theorem SaveStatusTypes_unchanged (faults : TxFaults) (now : Time) (store s' : Store)
    (statusTypes : List StatusType) (err : GoError)
    (h : SaveStatusTypes faults now store statusTypes = (some err, s')) : s' = store := by
  have h2 := (runTx_rollback faults
    (fun table st =>
      upsert StatusTypeRow.conflictKey (statusTypeOnConflict now) table (statusTypeParams st))
    (fun st => "failed to insert status type " ++ st.Key ++ ": ") statusTypes
    store.status_types).2.1
  unfold SaveStatusTypes at h
  simp only [Prod.mk.injEq] at h
  obtain ⟨h1, rfl⟩ := h
  rw [h2 (by rw [h1]; simp)]

theorem SaveChangelogs_unchanged (faults : TxFaults) (store s' : Store)
    (changelogs : List Changelog) (err : GoError)
    (h : SaveChangelogs faults store changelogs = (some err, s')) : s' = store := by
  have h2 := (runTx_rollback faults
    (fun table changelog =>
      upsert ChangelogRow.conflictKey changelogOnConflict table (changelogParams changelog))
    (fun changelog => "failed to insert changelog for issue " ++ changelog.IssueKey ++ ": ")
    changelogs store.changelog).2.1
  unfold SaveChangelogs at h
  simp only [Prod.mk.injEq] at h
  obtain ⟨h1, rfl⟩ := h
  rw [h2 (by rw [h1]; simp)]

/-- C14: `Sync` calls fetch issues, save issues, fetch status types, save status
types, fetch changelogs (over the issues of the first step) and save changelogs in
this order and stops at the first failure; it returns nil exactly when all six steps
succeed; and when a step fails it returns an error wrapping the error of that step, no
later step is called, and the store is the one left by the saves that had succeeded
(a failed save having changed nothing). -/
theorem C14_sync_sequence (cfg : Config) (env : SyncEnv) (store : Store) :
    (Sync cfg env store).steps <+: syncSteps
    ∧ ((Sync cfg env store).returned = some none ↔
        ∃ issues s1 sts s2 cls s3,
          (GetIssues cfg env.issuesUpstream cfg.Tracker.Filter env.fuel).result
            = some (.ok issues)
          ∧ SaveIssues env.issuesFaults env.issuesNow store issues = (none, s1)
          ∧ GetStatusTypes cfg env.statusUpstream = .ok sts
          ∧ SaveStatusTypes env.statusFaults env.statusNow s1 sts = (none, s2)
          ∧ GetChangelogsConcurrently cfg env.fmtFloat issues env.attempts env.finished
            = .ok cls
          ∧ SaveChangelogs env.changelogFaults s2 cls = (none, s3)
          ∧ (Sync cfg env store).store = s3
          ∧ (Sync cfg env store).steps = syncSteps)
    ∧ (∀ err,
        (GetIssues cfg env.issuesUpstream cfg.Tracker.Filter env.fuel).result
          = some (.error err) →
        (Sync cfg env store).returned
          = some (some (.wrap ("failed to get issues from tracker: " ++ err.Error) err))
        ∧ (Sync cfg env store).steps = [.getIssues]
        ∧ (Sync cfg env store).store = store)
    ∧ (∀ issues,
        (GetIssues cfg env.issuesUpstream cfg.Tracker.Filter env.fuel).result
          = some (.ok issues) →
        (∀ err s1, SaveIssues env.issuesFaults env.issuesNow store issues = (some err, s1) →
          (Sync cfg env store).returned
            = some (some (.wrap ("failed to save issues to database: " ++ err.Error) err))
          ∧ (Sync cfg env store).steps = [.getIssues, .saveIssues]
          ∧ (Sync cfg env store).store = store)
        ∧ (∀ s1, SaveIssues env.issuesFaults env.issuesNow store issues = (none, s1) →
          (∀ err, GetStatusTypes cfg env.statusUpstream = .error err →
            (Sync cfg env store).returned
              = some (some
                  (.wrap ("failed to get status types from tracker: " ++ err.Error) err))
            ∧ (Sync cfg env store).steps = [.getIssues, .saveIssues, .getStatusTypes]
            ∧ (Sync cfg env store).store = s1)
          ∧ (∀ sts, GetStatusTypes cfg env.statusUpstream = .ok sts →
            (∀ err s2,
              SaveStatusTypes env.statusFaults env.statusNow s1 sts = (some err, s2) →
              (Sync cfg env store).returned
                = some (some
                    (.wrap ("failed to save status types to database: " ++ err.Error) err))
              ∧ (Sync cfg env store).steps
                  = [.getIssues, .saveIssues, .getStatusTypes, .saveStatusTypes]
              ∧ (Sync cfg env store).store = s1)
            ∧ (∀ s2, SaveStatusTypes env.statusFaults env.statusNow s1 sts = (none, s2) →
              (∀ err,
                GetChangelogsConcurrently cfg env.fmtFloat issues env.attempts env.finished
                  = .error err →
                (Sync cfg env store).returned
                  = some (some
                      (.wrap ("failed to get changelogs concurrently: " ++ err.Error) err))
                ∧ (Sync cfg env store).steps
                    = [.getIssues, .saveIssues, .getStatusTypes, .saveStatusTypes,
                       .getChangelogs]
                ∧ (Sync cfg env store).store = s2)
              ∧ (∀ cls,
                GetChangelogsConcurrently cfg env.fmtFloat issues env.attempts env.finished
                  = .ok cls →
                ∀ err s3, SaveChangelogs env.changelogFaults s2 cls = (some err, s3) →
                (Sync cfg env store).returned
                  = some (some
                      (.wrap ("failed to save changelogs to database: " ++ err.Error) err))
                ∧ (Sync cfg env store).steps = syncSteps
                ∧ (Sync cfg env store).store = s2))))) := by
  refine ⟨?_, ?_, ?_, ?_⟩
  · unfold Sync
    split
    · exact ⟨_, rfl⟩
    · exact ⟨_, rfl⟩
    · split
      · exact ⟨_, rfl⟩
      · split
        · exact ⟨_, rfl⟩
        · split
          · exact ⟨_, rfl⟩
          · split
            · exact ⟨_, rfl⟩
            · split
              · exact List.prefix_refl _
              · exact List.prefix_refl _
  · constructor
    · intro h
      unfold Sync at h ⊢
      cases h1 : (GetIssues cfg env.issuesUpstream cfg.Tracker.Filter env.fuel).result with
      | none => simp [h1] at h
      | some r1 =>
        cases r1 with
        | error err => simp [h1] at h
        | ok issues =>
          cases h2 : SaveIssues env.issuesFaults env.issuesNow store issues with
          | mk e2 s1 =>
            cases e2 with
            | some err => simp [h1, h2] at h
            | none =>
              cases h3 : GetStatusTypes cfg env.statusUpstream with
              | error err => simp [h1, h2, h3] at h
              | ok sts =>
                cases h4 : SaveStatusTypes env.statusFaults env.statusNow s1 sts with
                | mk e4 s2 =>
                  cases e4 with
                  | some err => simp [h1, h2, h3, h4] at h
                  | none =>
                    cases h5 : GetChangelogsConcurrently cfg env.fmtFloat issues env.attempts
                        env.finished with
                    | error err => simp [h1, h2, h3, h4, h5] at h
                    | ok cls =>
                      cases h6 : SaveChangelogs env.changelogFaults s2 cls with
                      | mk e6 s3 =>
                        cases e6 with
                        | some err => simp [h1, h2, h3, h4, h5, h6] at h
                        | none =>
                          refine ⟨issues, s1, sts, s2, cls, s3, ?_, ?_, ?_, ?_, ?_, ?_, ?_, ?_⟩
                          · rfl
                          · exact h2
                          · rfl
                          · exact h4
                          · exact h5
                          · exact h6
                          · simp [h2, h3, h4, h5, h6]
                          · simp [h2, h3, h4, h5, h6]
    · rintro ⟨issues, s1, sts, s2, cls, s3, h1, h2, h3, h4, h5, h6, _, _⟩
      unfold Sync
      simp [h1, h2, h3, h4, h5, h6]
  · intro err h1
    unfold Sync
    simp [h1, Errorf_w]
  · intro issues h1
    constructor
    · intro err s1 h2
      have hs := SaveIssues_unchanged _ _ _ _ _ _ h2
      unfold Sync
      simp [h1, h2, Errorf_w, hs]
    · intro s1 h2
      constructor
      · intro err h3
        unfold Sync
        simp [h1, h2, h3, Errorf_w]
      · intro sts h3
        constructor
        · intro err s2 h4
          have hs := SaveStatusTypes_unchanged _ _ _ _ _ _ h4
          unfold Sync
          simp [h1, h2, h3, h4, Errorf_w, hs]
        · intro s2 h4
          constructor
          · intro err h5
            unfold Sync
            simp [h1, h2, h3, h4, h5, Errorf_w]
          · intro cls h5 err s3 h6
            have hs := SaveChangelogs_unchanged _ _ _ _ _ h6
            unfold Sync
            simp [h1, h2, h3, h4, h5, h6, Errorf_w, hs]

/-- Witness of C14: the changelog fetch fails after issues and status types were
saved: `Sync` returns the wrapped error after five steps, never calls the changelog
save, and the two issues and the status type stay in the store. -/
theorem C14_sync_sequence_witness :
    (Sync sampleCfg sampleSyncEnv {}).returned
        = some (some (.wrap
            "failed to get changelogs concurrently: max retries exceeded for issue A-1: %!w(<nil>)"
            (.plain "max retries exceeded for issue A-1: %!w(<nil>)")))
    ∧ (Sync sampleCfg sampleSyncEnv {}).steps
        = [.getIssues, .saveIssues, .getStatusTypes, .saveStatusTypes, .getChangelogs]
    ∧ (Sync sampleCfg sampleSyncEnv {}).store.issues.map (fun r => r.tracker_id) = ["1", "2"]
    ∧ (Sync sampleCfg sampleSyncEnv {}).store.status_types.map (fun r => r.status_key)
        = ["open"] := by
  have h := ((((C14_sync_sequence sampleCfg sampleSyncEnv {}).2.2.2 sampleIssues rfl).2
    (SaveIssues {} { nanos := 10 } {} sampleIssues).2 rfl).2
    [{ ID := 1, Key := "open", Name := "Open", Type_ := "new", OrganizationID := "org-1",
       TrackerID := "1" }] rfl).2
    (SaveStatusTypes {} { nanos := 20 } (SaveIssues {} { nanos := 10 } {} sampleIssues).2
      [{ ID := 1, Key := "open", Name := "Open", Type_ := "new", OrganizationID := "org-1",
         TrackerID := "1" }]).2 rfl
  have h5 := h.1 (.plain "max retries exceeded for issue A-1: %!w(<nil>)") rfl
  refine ⟨h5.1, h5.2.1, ?_, ?_⟩
  · rw [h5.2.2]; rfl
  · rw [h5.2.2]; rfl

/-! ### The query sent -/

theorem scrollLoop_bodies (cfg : Config)
    (upstream : Nat → HTTPRequest → ClientOutcome (List Issue)) (query : String)
    (totalCount : Int) (fuel : Nat) :
    ∀ (resp : Response (List Issue)) (issues : List Issue) (sent : List HTTPRequest),
      (∀ r ∈ sent, r.body = some [("query", query)]) →
      ∀ r ∈ (scrollLoop cfg upstream query totalCount fuel resp issues sent).requests,
        r.body = some [("query", query)] := by
  induction fuel with
  | zero =>
    intro resp issues sent hsent r hr
    by_cases hlt : (issues.length : Int) < totalCount
    · rw [scrollLoop_zero cfg upstream query totalCount resp issues sent hlt] at hr
      exact hsent r hr
    · rw [scrollLoop_done cfg upstream query totalCount 0 resp issues sent hlt] at hr
      exact hsent r hr
  | succ fuel ih =>
    intro resp issues sent hsent r hr
    have hsent' : ∀ r ∈ sent ++ [scrollRequest cfg resp query],
        r.body = some [("query", query)] := by
      intro r hr
      rcases List.mem_append.mp hr with h | h
      · exact hsent r h
      · rw [List.mem_singleton.mp h]
        rfl
    by_cases hlt : (issues.length : Int) < totalCount
    · rw [scrollLoop] at hr
      simp only [hlt, if_true] at hr
      cases hup : upstream sent.length (scrollRequest cfg resp query) with
      | newRequestErr err =>
        simp only [hup] at hr
        exact hsent r hr
      | doErr err =>
        simp only [hup] at hr
        exact hsent' r hr
      | response r' =>
        simp only [hup] at hr
        by_cases h200 : r'.StatusCode = 200
        · cases hdec : r'.decoded with
          | error err =>
            simp only [h200, hdec, ne_eq, not_true_eq_false, if_false] at hr
            exact hsent' r hr
          | ok more =>
            simp only [h200, hdec, ne_eq, not_true_eq_false, if_false] at hr
            exact ih _ _ _ hsent' r hr
        · simp only [h200, ne_eq, not_false_eq_true, if_true] at hr
          exact hsent' r hr
    · rw [scrollLoop_done cfg upstream query totalCount (fuel + 1) resp issues sent hlt] at hr
      exact hsent r hr

/-- C17: with the configured history depth `d` and the filter `q`, the query that
`GetIssues` marshals into the body of its first request and of every continuation
request is `q` itself when `d` is empty, `updated: >now()-d q` when both are non-empty,
and `updated: >now()-d` when `d` is non-empty and `q` is empty. -/
theorem C17_query_sent (cfg : Config)
    (upstream : Nat → HTTPRequest → ClientOutcome (List Issue)) (q : String) (fuel : Nat) :
    (firstRequest cfg q).body = some [("query", effectiveQuery cfg q)]
    ∧ (∀ req ∈ (GetIssues cfg upstream q fuel).requests,
        req.body = some [("query", effectiveQuery cfg q)])
    ∧ (cfg.Tracker.InitialHistoryDepth = "" → effectiveQuery cfg q = q)
    ∧ (cfg.Tracker.InitialHistoryDepth ≠ "" → q ≠ "" →
        effectiveQuery cfg q
          = "updated: >now()-" ++ cfg.Tracker.InitialHistoryDepth ++ " " ++ q)
    ∧ (cfg.Tracker.InitialHistoryDepth ≠ "" → q = "" →
        effectiveQuery cfg q = "updated: >now()-" ++ cfg.Tracker.InitialHistoryDepth) := by
  refine ⟨rfl, ?_, ?_, ?_, ?_⟩
  · have hfirst : ∀ r ∈ [firstRequest cfg q],
        r.body = some [("query", effectiveQuery cfg q)] := by
      intro r hr
      rw [List.mem_singleton.mp hr]
      rfl
    intro req hreq
    unfold GetIssues at hreq
    split at hreq
    · cases hreq
    · exact hfirst req hreq
    · split at hreq
      · exact hfirst req hreq
      · split at hreq
        · exact hfirst req hreq
        · split at hreq
          · exact hfirst req hreq
          · exact scrollLoop_bodies cfg upstream _ _ fuel _ _ _ hfirst req hreq
  · intro hd
    simp [effectiveQuery, hd]
  · intro hd hq
    simp [effectiveQuery, hd, hq]
  · intro hd hq
    simp [effectiveQuery, hd, hq]

/-- Witness of C17: a depth of `30d` before the filter `Queue: A`, before the empty
filter, and no depth; the three requests of a fetch of twelve issues in pages of five
all carry the augmented query. -/
theorem C17_query_sent_witness :
    effectiveQuery sampleDepthCfg "Queue: A" = "updated: >now()-30d Queue: A"
    ∧ effectiveQuery sampleDepthCfg "" = "updated: >now()-30d"
    ∧ effectiveQuery sampleCfg "Queue: A" = "Queue: A"
    ∧ (GetIssues sampleDepthCfg (pagedServer (List.replicate 12 {}) 5 "12")
          "Queue: A" 3).requests.map (fun r => r.body)
        = List.replicate 3 (some [("query", "updated: >now()-30d Queue: A")]) :=
  ⟨((C17_query_sent sampleDepthCfg stuckServer "Queue: A" 0).2.2.2.1 (by decide)
      (by decide)).trans rfl,
   ((C17_query_sent sampleDepthCfg stuckServer "" 0).2.2.2.2 (by decide) rfl).trans rfl,
   (C17_query_sent sampleCfg stuckServer "Queue: A" 0).2.2.1 rfl,
   rfl⟩

/-! ### Backoff sleeps and the terminal error -/

theorem sleptTotal_append (xs ys : List Event) :
    sleptTotal (xs ++ ys) = sleptTotal xs + sleptTotal ys := by
  simp [sleptTotal, List.filterMap_append]

/-- One failed pass of the loop sleeps `retryDelay * attempt` when it received status
429 and not at all otherwise; after status 429 `lastErr` is what it was before. -/
theorem attemptLoop_failed_step_sleep (cfg : Config) (fmtFloat : Float64 → String)
    (issueKey : String) (env : Nat → AttemptOutcome) (a : Nat) (rest : List Nat)
    (lastErr : Option GoError) (hfa : (env a).isSuccess = false) :
    ∃ evs lastErr',
      attemptLoop cfg fmtFloat issueKey env (a :: rest) lastErr
        = evs ++ attemptLoop cfg fmtFloat issueKey env rest lastErr'
      ∧ attemptsMade evs = 1
      ∧ sleptTotal evs = (if (env a).is429 then retryDelay * a else 0)
      ∧ ((env a).is429 = true → lastErr' = lastErr)
      ∧ ((env a).is429 = false → ∃ err, lastErr' = some err) := by
  cases hout : env a with
  | limiterErr err =>
    exact ⟨[.limiterWait a], _,
      attemptLoop_limiterErr cfg fmtFloat issueKey env a rest lastErr err hout,
      rfl, rfl, (fun h => by cases h), fun _ => ⟨_, rfl⟩⟩
  | newRequestErr err =>
    exact ⟨[.limiterWait a], _,
      attemptLoop_newRequestErr cfg fmtFloat issueKey env a rest lastErr err hout,
      rfl, rfl, (fun h => by cases h), fun _ => ⟨_, rfl⟩⟩
  | doErr err =>
    exact ⟨[.limiterWait a, .request a (changelogRequest cfg issueKey)], _,
      attemptLoop_doErr cfg fmtFloat issueKey env a rest lastErr err hout,
      rfl, rfl, (fun h => by cases h), fun _ => ⟨_, rfl⟩⟩
  | response StatusCode body decoded =>
    by_cases h429 : StatusCode = 429
    · subst h429
      refine ⟨[.limiterWait a, .request a (changelogRequest cfg issueKey),
          .sleep (retryDelay * a)], lastErr,
        attemptLoop_429 cfg fmtFloat issueKey env a rest lastErr body decoded hout,
        rfl, ?_, (fun _ => rfl), (fun h => by simp [AttemptOutcome.is429] at h)⟩
      simp [sleptTotal, AttemptOutcome.is429]
    · have hnot : (AttemptOutcome.response StatusCode body decoded).is429 = false := by
        unfold AttemptOutcome.is429
        split
        · next heq => cases heq; exact absurd rfl h429
        · rfl
      by_cases h200 : StatusCode = 200
      · subst h200
        cases decoded with
        | ok entries => simp [hout, AttemptOutcome.isSuccess] at hfa
        | error err =>
          refine ⟨[.limiterWait a, .request a (changelogRequest cfg issueKey)], _,
            attemptLoop_decodeErr cfg fmtFloat issueKey env a rest lastErr body err hout,
            rfl, ?_, (fun h => by rw [hnot] at h; cases h), fun _ => ⟨_, rfl⟩⟩
          rw [hnot]
          rfl
      · refine ⟨[.limiterWait a, .request a (changelogRequest cfg issueKey)], _,
          attemptLoop_badStatus cfg fmtFloat issueKey env a rest lastErr StatusCode body
            decoded hout h429 h200,
          rfl, ?_, (fun h => by rw [hnot] at h; cases h), fun _ => ⟨_, rfl⟩⟩
        rw [hnot]
        rfl

theorem is429_of_isSuccess (o : AttemptOutcome) (h : o.isSuccess = true) :
    o.is429 = false := by
  cases o with
  | response StatusCode body decoded =>
    unfold AttemptOutcome.isSuccess at h
    split at h
    · next heq => cases heq; rfl
    · cases h
  | limiterErr err => rfl
  | newRequestErr err => rfl
  | doErr err => rfl

theorem attemptLoop_slept (cfg : Config) (fmtFloat : Float64 → String)
    (issueKey : String) (env : Nat → AttemptOutcome) (attempts : List Nat)
    (lastErr : Option GoError) :
    sleptTotal (attemptLoop cfg fmtFloat issueKey env attempts lastErr)
      = (((attempts.take (attemptsMade (attemptLoop cfg fmtFloat issueKey env attempts lastErr))).filter
          (fun a => (env a).is429)).map (fun a => retryDelay * a)).sum := by
  induction attempts generalizing lastErr with
  | nil => rw [attemptLoop_nil]; rfl
  | cons a rest ih =>
    by_cases hs : (env a).isSuccess = true
    · have h429 := is429_of_isSuccess _ hs
      cases hout : env a with
      | response StatusCode body decoded =>
        rw [hout] at hs
        cases decoded with
        | error err => simp [AttemptOutcome.isSuccess] at hs
        | ok entries =>
          have h200 : StatusCode = 200 := by
            by_contra hne
            unfold AttemptOutcome.isSuccess at hs
            split at hs
            · next heq => cases heq; exact hne rfl
            · cases hs
          subst h200
          rw [attemptLoop_ok cfg fmtFloat issueKey env a rest lastErr body entries hout]
          have hm : attemptsMade [Event.limiterWait a,
              Event.request a (changelogRequest cfg issueKey),
              Event.sendChangelogs (expandEntries cfg fmtFloat entries)] = 1 := rfl
          rw [hm]
          simp [sleptTotal, h429]
      | limiterErr err => simp [hout, AttemptOutcome.isSuccess] at hs
      | newRequestErr err => simp [hout, AttemptOutcome.isSuccess] at hs
      | doErr err => simp [hout, AttemptOutcome.isSuccess] at hs
    · obtain ⟨evs, le, h1, h2, h3, _, _⟩ :=
        attemptLoop_failed_step_sleep cfg fmtFloat issueKey env a rest lastErr
          (by simpa using hs)
      rw [h1, sleptTotal_append, attemptsMade_append, h2, h3, ih le,
        show 1 + attemptsMade (attemptLoop cfg fmtFloat issueKey env rest le)
          = attemptsMade (attemptLoop cfg fmtFloat issueKey env rest le) + 1 by omega,
        List.take_succ_cons, List.filter_cons]
      by_cases h429 : (env a).is429 = true
      · simp [h429]
      · simp [h429]

/-- C19: the total time a task sleeps is the sum, over the attempts it made that
received HTTP 429, of `retryDelay` times the attempt number, with `retryDelay` two
seconds; an attempt that failed in any other way adds no sleep; a task that receives
429 on all three attempts sleeps 2 + 4 + 6 = 12 seconds. -/
theorem C19_backoff_sleep (cfg : Config) (fmtFloat : Float64 → String) (issueKey : String)
    (env : Nat → AttemptOutcome) :
    sleptTotal (changelogTask cfg fmtFloat issueKey env)
        = ((((List.range' 1 maxRetries).take
              (attemptsMade (changelogTask cfg fmtFloat issueKey env))).filter
            (fun a => (env a).is429)).map (fun a => retryDelay * a)).sum
    ∧ retryDelay = 2 * Second
    ∧ ((∀ a, 1 ≤ a → a ≤ maxRetries → (env a).is429 = true) →
        sleptTotal (changelogTask cfg fmtFloat issueKey env) = 12 * Second) := by
  have hmain : sleptTotal (changelogTask cfg fmtFloat issueKey env)
        = ((((List.range' 1 maxRetries).take
              (attemptsMade (changelogTask cfg fmtFloat issueKey env))).filter
            (fun a => (env a).is429)).map (fun a => retryDelay * a)).sum := by
    unfold changelogTask
    rw [sleptTotal_append, attemptsMade_append, attemptLoop_slept]
    rfl
  refine ⟨hmain, rfl, ?_⟩
  intro hall
  have h1 := hall 1 (by decide) (by decide)
  have h2 := hall 2 (by decide) (by decide)
  have h3 := hall 3 (by decide) (by decide)
  have hf : ∀ j ∈ List.range' 1 maxRetries, (env j).isSuccess = false := by
    intro j hj
    rw [List.mem_range'_1] at hj
    have := hall j hj.1 (by omega)
    cases hs : (env j).isSuccess with
    | false => rfl
    | true => rw [is429_of_isSuccess _ hs] at this; cases this
  obtain ⟨evs, le, e1, _, e3, _, _⟩ :=
    attemptLoop_failed_attempts cfg fmtFloat issueKey env (List.range' 1 maxRetries) [] none hf
  rw [List.append_nil] at e1
  have hmade : attemptsMade (changelogTask cfg fmtFloat issueKey env) = 3 := by
    unfold changelogTask
    rw [e1, attemptLoop_nil, attemptsMade_append, attemptsMade_append, e3]
    rfl
  rw [hmain, hmade]
  have hr : (List.range' 1 maxRetries).take 3 = [1, 2, 3] := rfl
  rw [hr]
  simp [List.filter_cons, h1, h2, h3, retryDelay]
  omega

/-- Witness of C19: status 429 on every attempt gives twelve seconds of sleep; a
transport error followed by two 429 gives 4 + 6 = 10 seconds; a 429 followed by two
status 500 gives two seconds. -/
theorem C19_backoff_sleep_witness :
    sleptTotal (changelogTask sampleCfg noFloat "A-1" envAlways429) = 12 * Second
    ∧ sleptTotal (changelogTask sampleCfg noFloat "A-1" envErrThen429) = 10 * Second
    ∧ sleptTotal (changelogTask sampleCfg noFloat "A-1" env429Then500) = 2 * Second :=
  ⟨(C19_backoff_sleep sampleCfg noFloat "A-1" envAlways429).2.2 (fun _ _ _ => rfl),
   (C19_backoff_sleep sampleCfg noFloat "A-1" envErrThen429).1.trans (by decide),
   (C19_backoff_sleep sampleCfg noFloat "A-1" env429Then500).1.trans (by decide)⟩

theorem attemptLoop_failed_step_lastErr (cfg : Config) (fmtFloat : Float64 → String)
    (issueKey : String) (env : Nat → AttemptOutcome) (a : Nat) (rest : List Nat)
    (lastErr : Option GoError) (hfa : (env a).isSuccess = false) :
    ∃ evs,
      attemptLoop cfg fmtFloat issueKey env (a :: rest) lastErr
        = evs ++ attemptLoop cfg fmtFloat issueKey env rest
            (lastErrAfter issueKey env [a] lastErr)
      ∧ sentErrs evs = [] ∧ sentChangelogs evs = [] := by
  cases hout : env a with
  | limiterErr err =>
    refine ⟨[.limiterWait a], ?_, rfl, rfl⟩
    rw [attemptLoop_limiterErr cfg fmtFloat issueKey env a rest lastErr err hout]
    simp [lastErrAfter, attemptError, hout]
  | newRequestErr err =>
    refine ⟨[.limiterWait a], ?_, rfl, rfl⟩
    rw [attemptLoop_newRequestErr cfg fmtFloat issueKey env a rest lastErr err hout]
    simp [lastErrAfter, attemptError, hout]
  | doErr err =>
    refine ⟨[.limiterWait a, .request a (changelogRequest cfg issueKey)], ?_, rfl, rfl⟩
    rw [attemptLoop_doErr cfg fmtFloat issueKey env a rest lastErr err hout]
    simp [lastErrAfter, attemptError, hout]
  | response StatusCode body decoded =>
    by_cases h429 : StatusCode = 429
    · subst h429
      refine ⟨[.limiterWait a, .request a (changelogRequest cfg issueKey),
        .sleep (retryDelay * a)], ?_, rfl, rfl⟩
      rw [attemptLoop_429 cfg fmtFloat issueKey env a rest lastErr body decoded hout]
      simp [lastErrAfter, attemptError, hout]
    · by_cases h200 : StatusCode = 200
      · subst h200
        cases decoded with
        | ok entries => simp [hout, AttemptOutcome.isSuccess] at hfa
        | error err =>
          refine ⟨[.limiterWait a, .request a (changelogRequest cfg issueKey)], ?_, rfl, rfl⟩
          rw [attemptLoop_decodeErr cfg fmtFloat issueKey env a rest lastErr body err hout]
          simp [lastErrAfter, attemptError, hout]
      · refine ⟨[.limiterWait a, .request a (changelogRequest cfg issueKey)], ?_, rfl, rfl⟩
        rw [attemptLoop_badStatus cfg fmtFloat issueKey env a rest lastErr StatusCode body
          decoded hout h429 h200]
        simp [lastErrAfter, attemptError, hout, h429, h200]

/-- When every attempt is unsuccessful the only error sent is `max retries exceeded`
wrapping the final `lastErr`. -/
theorem attemptLoop_terminal_error (cfg : Config) (fmtFloat : Float64 → String)
    (issueKey : String) (env : Nat → AttemptOutcome) (attempts : List Nat)
    (lastErr : Option GoError) (hfail : ∀ a ∈ attempts, (env a).isSuccess = false) :
    sentErrs (attemptLoop cfg fmtFloat issueKey env attempts lastErr)
      = [Errorf_w ("max retries exceeded for issue " ++ issueKey ++ ": ")
          (lastErrAfter issueKey env attempts lastErr)] := by
  induction attempts generalizing lastErr with
  | nil => rw [attemptLoop_nil]; rfl
  | cons a rest ih =>
    obtain ⟨evs, h1, h2, _⟩ :=
      attemptLoop_failed_step_lastErr cfg fmtFloat issueKey env a rest lastErr
        (hfail a (List.mem_cons_self _ _))
    rw [h1, sentErrs_append, h2, List.nil_append,
      ih _ (fun b hb => hfail b (List.mem_cons_of_mem _ hb))]
    rfl

/-- C20, the code at the failing inputs: a task that receives HTTP 429 on all three
attempts sends a terminal error that wraps nothing (its text ends in `%!w(<nil>)`),
and a task with a transport error followed by two 429 sends the transport error of
its first attempt, not an error of its third; in general the terminal error wraps the
error of the last attempt that was not answered with 429, which is the third attempt
only when that one failed in another way. -/
theorem C20_terminal_error_skips_429 :
    sentErrs (changelogTask sampleCfg noFloat "A-1" envAlways429)
        = [.plain "max retries exceeded for issue A-1: %!w(<nil>)"]
    ∧ sentErrs (changelogTask sampleCfg noFloat "A-1" envErrThen429)
        = [.wrap "max retries exceeded for issue A-1: failed to send request for A-1: connection reset"
            (.wrap "failed to send request for A-1: connection reset"
              (.plain "connection reset"))]
    ∧ (∀ (cfg : Config) (fmtFloat : Float64 → String) (issueKey : String)
        (env : Nat → AttemptOutcome),
        (∀ a ∈ List.range' 1 maxRetries, (env a).isSuccess = false) →
        sentErrs (changelogTask cfg fmtFloat issueKey env)
            = [Errorf_w ("max retries exceeded for issue " ++ issueKey ++ ": ")
                (lastErrAfter issueKey env (List.range' 1 maxRetries) none)]
        ∧ (∀ err, attemptError issueKey (env 3) = some err →
            sentErrs (changelogTask cfg fmtFloat issueKey env)
              = [.wrap ("max retries exceeded for issue " ++ issueKey ++ ": " ++ err.Error) err])
        ∧ ((env 3).is429 = true →
            sentErrs (changelogTask cfg fmtFloat issueKey env)
              = [Errorf_w ("max retries exceeded for issue " ++ issueKey ++ ": ")
                  (lastErrAfter issueKey env [1, 2] none)])) := by
  refine ⟨rfl, rfl, ?_⟩
  intro cfg fmtFloat issueKey env hfail
  have hmain : sentErrs (changelogTask cfg fmtFloat issueKey env)
      = [Errorf_w ("max retries exceeded for issue " ++ issueKey ++ ": ")
          (lastErrAfter issueKey env (List.range' 1 maxRetries) none)] := by
    unfold changelogTask
    rw [sentErrs_append, attemptLoop_terminal_error cfg fmtFloat issueKey env _ none hfail]
    rfl
  have hr : List.range' 1 maxRetries = [1, 2] ++ [3] := rfl
  have hsplit : lastErrAfter issueKey env (List.range' 1 maxRetries) none
      = (match attemptError issueKey (env 3) with
          | some err => some err
          | none => lastErrAfter issueKey env [1, 2] none) := by
    rw [hr]
    unfold lastErrAfter
    rw [List.foldl_append]
    rfl
  refine ⟨hmain, ?_, ?_⟩
  · intro err herr
    rw [hmain, hsplit, herr]
    rfl
  · intro h429
    have hnone : attemptError issueKey (env 3) = none := by
      cases hout : env 3 with
      | response StatusCode body decoded =>
        rw [hout] at h429
        have : StatusCode = 429 := by
          unfold AttemptOutcome.is429 at h429
          split at h429
          · next heq => cases heq; rfl
          · cases h429
        subst this
        simp [attemptError]
      | limiterErr err => rw [hout] at h429; cases h429
      | newRequestErr err => rw [hout] at h429; cases h429
      | doErr err => rw [hout] at h429; cases h429
    rw [hmain, hsplit, hnone]

/-! ### Cancellation -/

theorem attemptLoop_all_limiterErr (cfg : Config) (fmtFloat : Float64 → String)
    (issueKey : String) (env : Nat → AttemptOutcome) (err : GoError) (attempts : List Nat)
    (lastErr : Option GoError) (hall : ∀ a ∈ attempts, env a = .limiterErr err) :
    attemptLoop cfg fmtFloat issueKey env attempts lastErr
      = attempts.map Event.limiterWait
        ++ [.sendErr (Errorf_w ("max retries exceeded for issue " ++ issueKey ++ ": ")
            (if attempts = [] then lastErr
             else some (Errorf_w ("rate limiter error for issue " ++ issueKey ++ ": ")
               (some err))))] := by
  induction attempts generalizing lastErr with
  | nil => rw [attemptLoop_nil]; rfl
  | cons a rest ih =>
    rw [attemptLoop_limiterErr cfg fmtFloat issueKey env a rest lastErr err
        (hall a (List.mem_cons_self _ _)),
      ih _ (fun b hb => hall b (List.mem_cons_of_mem _ hb))]
    cases rest <;> simp

theorem limiterWaits_counts (attempts : List Nat) :
    requestsIssued (attempts.map Event.limiterWait) = 0
    ∧ sleptTotal (attempts.map Event.limiterWait) = 0
    ∧ attemptsMade (attempts.map Event.limiterWait) = attempts.length
    ∧ sentChangelogs (attempts.map Event.limiterWait) = []
    ∧ sentErrs (attempts.map Event.limiterWait) = [] := by
  induction attempts with
  | nil => exact ⟨rfl, rfl, rfl, rfl, rfl⟩
  | cons a rest ih =>
    obtain ⟨h1, h2, h3, h4, h5⟩ := ih
    have e : (a :: rest).map Event.limiterWait
        = [Event.limiterWait a] ++ rest.map Event.limiterWait := rfl
    rw [e, requestsIssued_append, sleptTotal_append, attemptsMade_append,
      sentChangelogs_append, sentErrs_append, h1, h2, h3, h4, h5]
    refine ⟨rfl, rfl, ?_, rfl, rfl⟩
    rw [List.length_cons, Nat.add_comm]
    rfl

theorem range'_split_from (c : Nat) (h1 : 1 ≤ c) (h3 : c ≤ maxRetries) :
    List.range' 1 maxRetries
      = List.range' 1 (c - 1) ++ List.range' c (maxRetries + 1 - c) := by
  unfold maxRetries at h3 ⊢
  interval_cases c <;> rfl

/-- The trace of a task whose context is cancelled before attempt `c`, no earlier
attempt having succeeded. -/
theorem changelogTask_cancelled (cfg : Config) (fmtFloat : Float64 → String)
    (issueKey : String) (env : Nat → AttemptOutcome) (c : Nat) (ctxErr : GoError)
    (h1 : 1 ≤ c) (h3 : c ≤ maxRetries)
    (hfail : ∀ j, 1 ≤ j → j < c → (env j).isSuccess = false) :
    ∃ before,
      changelogTask cfg fmtFloat issueKey (cancelledFrom c ctxErr env)
        = before ++ (List.range' c (maxRetries + 1 - c)).map Event.limiterWait
          ++ [.sendErr (cancellationError issueKey ctxErr), .sendProgress issueKey]
      ∧ attemptsMade before = c - 1
      ∧ sentChangelogs before = [] ∧ sentErrs before = [] := by
  have hpre : ∀ j ∈ List.range' 1 (c - 1),
      (cancelledFrom c ctxErr env j).isSuccess = false := by
    intro j hj
    rw [List.mem_range'_1] at hj
    have hlt : ¬ c ≤ j := by omega
    simp only [cancelledFrom, hlt, if_false]
    exact hfail j hj.1 (by omega)
  have hpost : ∀ a ∈ List.range' c (maxRetries + 1 - c),
      cancelledFrom c ctxErr env a = .limiterErr ctxErr := by
    intro a ha
    rw [List.mem_range'_1] at ha
    simp [cancelledFrom, ha.1]
  have hne : List.range' c (maxRetries + 1 - c) ≠ [] := by
    intro hnil
    have := congrArg List.length hnil
    rw [List.length_range'] at this
    simp at this
    omega
  obtain ⟨evs, le, e1, _, e3, e4, e5⟩ :=
    attemptLoop_failed_attempts cfg fmtFloat issueKey (cancelledFrom c ctxErr env)
      (List.range' 1 (c - 1)) (List.range' c (maxRetries + 1 - c)) none hpre
  refine ⟨evs, ?_, by rw [e3, List.length_range'], e4, e5⟩
  unfold changelogTask
  rw [range'_split_from c h1 h3, e1,
    attemptLoop_all_limiterErr cfg fmtFloat issueKey _ ctxErr _ le hpost, if_neg hne]
  simp [cancellationError]

theorem sentErrs_cancelled (cfg : Config) (fmtFloat : Float64 → String)
    (issueKey : String) (env : Nat → AttemptOutcome) (c : Nat) (ctxErr : GoError)
    (h1 : 1 ≤ c) (h3 : c ≤ maxRetries)
    (hfail : ∀ j, 1 ≤ j → j < c → (env j).isSuccess = false) :
    sentErrs (changelogTask cfg fmtFloat issueKey (cancelledFrom c ctxErr env))
      = [cancellationError issueKey ctxErr] := by
  obtain ⟨before, e, _, _, h5⟩ :=
    changelogTask_cancelled cfg fmtFloat issueKey env c ctxErr h1 h3 hfail
  rw [e, sentErrs_append, sentErrs_append, h5, (limiterWaits_counts _).2.2.2.2]
  rfl

/-- The call returns an error as soon as the trace of the first task to finish sends
one. -/
theorem GetChangelogsConcurrently_first_error (cfg : Config) (fmtFloat : Float64 → String)
    (issues : List Issue) (env : Nat → Nat → AttemptOutcome) (i : Nat) (rest : List Nat)
    (issue : Issue) (err : GoError) (hissue : issues.get? i = some issue)
    (herr : sentErrs (changelogTask cfg fmtFloat issue.Key (env i)) = [err]) :
    GetChangelogsConcurrently cfg fmtFloat issues env (i :: rest) = .error err := by
  unfold GetChangelogsConcurrently
  have ht : taskAt cfg fmtFloat issues env i
      = some (changelogTask cfg fmtFloat issue.Key (env i)) := by
    unfold taskAt
    rw [hissue]
    rfl
  simp [List.filterMap_cons, ht, herr]

/-- C15, counterexample: with the context cancelled before the first attempt the task
still makes all three passes of the loop and calls `limiter.Wait` in each of them
(without issuing a request); and when another task had failed with status 500 and
sent its error first, the error the call returns is that one, not the cancellation. -/
theorem C15_counterexample :
    attemptsMade (changelogTask sampleCfg noFloat "A-1"
        (cancelledFrom 1 ctxCanceled envFirstOk)) = 3
    ∧ requestsIssued (changelogTask sampleCfg noFloat "A-1"
        (cancelledFrom 1 ctxCanceled envFirstOk)) = 0
    ∧ GetChangelogsConcurrently sampleCfg noFloat sampleIssues envFailedThenCancelled [0, 1]
        = .error (.wrap
            "max retries exceeded for issue A-1: tracker API error for A-1: status=500, body=oops"
            (.plain "tracker API error for A-1: status=500, body=oops")) :=
  ⟨rfl, rfl, rfl⟩

/-- C15, as amended: once the context is cancelled (before attempt `c` of a task that
has not succeeded) every remaining pass of the loop still calls `limiter.Wait`, which
fails at once; apart from these calls the task does nothing more: it issues no further
HTTP request and starts no further backoff sleep, and it ends in failure, sending the
terminal error that wraps the limiter's error around the context's error.  The call
`GetChangelogsConcurrently` then returns an error, and when every task was cancelled
in this way the error is the terminal error of one of them and reports the
cancellation. -/
theorem C15_after_cancellation (cfg : Config) (fmtFloat : Float64 → String)
    (ctxErr : GoError) :
    (∀ (issueKey : String) (env : Nat → AttemptOutcome) (c : Nat),
      1 ≤ c → c ≤ maxRetries → (∀ j, 1 ≤ j → j < c → (env j).isSuccess = false) →
      ∃ before,
        changelogTask cfg fmtFloat issueKey (cancelledFrom c ctxErr env)
          = before ++ (List.range' c (maxRetries + 1 - c)).map Event.limiterWait
            ++ [.sendErr (cancellationError issueKey ctxErr), .sendProgress issueKey]
        ∧ attemptsMade before = c - 1
        ∧ sentChangelogs before = [] ∧ sentErrs before = []
        ∧ attemptsMade ((List.range' c (maxRetries + 1 - c)).map Event.limiterWait)
            = maxRetries + 1 - c
        ∧ requestsIssued ((List.range' c (maxRetries + 1 - c)).map Event.limiterWait) = 0
        ∧ sleptTotal ((List.range' c (maxRetries + 1 - c)).map Event.limiterWait) = 0
        ∧ sentErrs (changelogTask cfg fmtFloat issueKey (cancelledFrom c ctxErr env))
            = [cancellationError issueKey ctxErr])
    ∧ (∀ (issues : List Issue) (env : Nat → Nat → AttemptOutcome) (c : Nat → Nat)
        (finished : List Nat),
        issues ≠ [] → finished.Perm (List.range issues.length) →
        (∀ i, i < issues.length →
          1 ≤ c i ∧ c i ≤ maxRetries ∧ ∀ j, 1 ≤ j → j < c i → (env i j).isSuccess = false) →
        ∃ issue ∈ issues,
          GetChangelogsConcurrently cfg fmtFloat issues
              (fun i => cancelledFrom (c i) ctxErr (env i)) finished
            = .error (cancellationError issue.Key ctxErr)) := by
  constructor
  · intro issueKey env c h1 h3 hfail
    obtain ⟨before, e, h2, h4, h5⟩ :=
      changelogTask_cancelled cfg fmtFloat issueKey env c ctxErr h1 h3 hfail
    obtain ⟨w1, w2, w3, _, _⟩ := limiterWaits_counts (List.range' c (maxRetries + 1 - c))
    exact ⟨before, e, h2, h4, h5, by rw [w3, List.length_range'], w1, w2,
      sentErrs_cancelled cfg fmtFloat issueKey env c ctxErr h1 h3 hfail⟩
  · intro issues env c finished hne hperm hall
    cases hfin : finished with
    | nil =>
      rw [hfin] at hperm
      have := hperm.length_eq
      simp at this
      exact absurd (List.length_eq_zero.mp this.symm) hne
    | cons i rest =>
      have hi : i < issues.length := by
        have : i ∈ List.range issues.length := by
          rw [← hperm.mem_iff, hfin]
          exact List.mem_cons_self _ _
        exact List.mem_range.mp this
      obtain ⟨issue, hissue⟩ : ∃ issue, issues.get? i = some issue :=
        ⟨issues.get ⟨i, hi⟩, List.get?_eq_get hi⟩
      obtain ⟨c1, c3, cf⟩ := hall i hi
      refine ⟨issue, List.get?_mem hissue, ?_⟩
      exact GetChangelogsConcurrently_first_error cfg fmtFloat issues _ i rest issue _ hissue
        (sentErrs_cancelled cfg fmtFloat issue.Key (env i) (c i) ctxErr c1 c3 cf)

/-- Witness of C15 as amended: a task answered with status 429 once and cancelled
before its second attempt: one request and one sleep before the cancellation, then two
refused calls of the limiter and the terminal error. -/
theorem C15_after_cancellation_witness :
    changelogTask sampleCfg noFloat "A-1" (cancelledFrom 2 ctxCanceled envAlways429)
      = [.limiterWait 1, .request 1 (changelogRequest sampleCfg "A-1"), .sleep (retryDelay * 1)]
        ++ [.limiterWait 2, .limiterWait 3]
        ++ [.sendErr (cancellationError "A-1" ctxCanceled), .sendProgress "A-1"]
    ∧ sentErrs (changelogTask sampleCfg noFloat "A-1" (cancelledFrom 2 ctxCanceled envAlways429))
      = [.wrap "max retries exceeded for issue A-1: rate limiter error for issue A-1: context canceled"
          (.wrap "rate limiter error for issue A-1: context canceled"
            (.plain "context canceled"))] :=
  match (C15_after_cancellation sampleCfg noFloat ctxCanceled).1 "A-1" envAlways429 2
      (by decide) (by decide)
      (fun j h1 h2 => by
        have : j = 1 := by omega
        subst this
        rfl) with
  | ⟨_, _, _, _, _, _, _, _, h⟩ => ⟨rfl, h.trans rfl⟩

/-! ### The last update time -/

theorem foldl_firstDesc_none (vs : List (Option Time)) (v : Option Time)
    (h : none ∈ v :: vs) : vs.foldl firstDesc v = none := by
  induction vs generalizing v with
  | nil =>
    simp only [List.mem_singleton] at h
    exact h.symm
  | cons w ws ih =>
    rw [List.foldl_cons]
    apply ih
    rcases List.mem_cons.mp h with h | h
    · have hf : firstDesc v w = none := by rw [← h]; cases w <;> rfl
      rw [hf]
      exact List.mem_cons_self _ _
    · rcases List.mem_cons.mp h with h | h
      · have hf : firstDesc v w = none := by rw [← h]; cases v <;> rfl
        rw [hf]
        exact List.mem_cons_self _ _
      · exact List.mem_cons_of_mem _ h

theorem foldl_firstDesc_some (vs : List (Option Time)) (v : Option Time)
    (h : ∀ x ∈ v :: vs, x ≠ none) :
    ∃ t, vs.foldl firstDesc v = some t ∧ some t ∈ v :: vs
      ∧ ∀ u, some u ∈ v :: vs → u.nanos ≤ t.nanos := by
  induction vs generalizing v with
  | nil =>
    cases v with
    | none => exact absurd rfl (h none (List.mem_cons_self _ _))
    | some t =>
      refine ⟨t, rfl, List.mem_cons_self _ _, ?_⟩
      intro u hu
      simp only [List.mem_singleton, Option.some.injEq] at hu
      rw [hu]
  | cons w ws ih =>
    cases v with
    | none => exact absurd rfl (h none (List.mem_cons_self _ _))
    | some x =>
      cases w with
      | none =>
        exact absurd rfl (h none (List.mem_cons_of_mem _ (List.mem_cons_self _ _)))
      | some y =>
        rw [List.foldl_cons]
        have hrest : ∀ z ∈ ws, z ≠ none := fun z hz =>
          h z (List.mem_cons_of_mem _ (List.mem_cons_of_mem _ hz))
        by_cases hlt : x.nanos < y.nanos
        · have hf : firstDesc (some x) (some y) = some y := by simp [firstDesc, hlt]
          rw [hf]
          obtain ⟨t, h1, h2, h3⟩ := ih (some y) (by
            intro z hz
            rcases List.mem_cons.mp hz with rfl | hz
            · simp
            · exact hrest z hz)
          refine ⟨t, h1, List.mem_cons_of_mem _ h2, ?_⟩
          intro u hu
          rcases List.mem_cons.mp hu with hu | hu
          · simp only [Option.some.injEq] at hu
            have := h3 y (List.mem_cons_self _ _)
            rw [hu]
            omega
          · exact h3 u hu
        · have hf : firstDesc (some x) (some y) = some x := by simp [firstDesc, hlt]
          rw [hf]
          obtain ⟨t, h1, h2, h3⟩ := ih (some x) (by
            intro z hz
            rcases List.mem_cons.mp hz with rfl | hz
            · simp
            · exact hrest z hz)
          refine ⟨t, h1, ?_, ?_⟩
          · rcases List.mem_cons.mp h2 with h2 | h2
            · rw [h2]; exact List.mem_cons_self _ _
            · exact List.mem_cons_of_mem _ (List.mem_cons_of_mem _ h2)
          · intro u hu
            rcases List.mem_cons.mp hu with hu | hu
            · exact h3 u (hu ▸ List.mem_cons_self _ _)
            · rcases List.mem_cons.mp hu with hu | hu
              · simp only [Option.some.injEq] at hu
                have := h3 x (List.mem_cons_self _ _)
                rw [hu]
                omega
              · exact h3 u (List.mem_cons_of_mem _ hu)

theorem mem_keyed_values (table : List IssueRow) (issueKey : String) (v : Option Time) :
    v ∈ (table.filter (fun r => decide (r.key = issueKey))).map (fun r => r.updated_at)
      ↔ ∃ r ∈ table, r.key = issueKey ∧ r.updated_at = v := by
  simp only [List.mem_map, List.mem_filter, decide_eq_true_eq]
  constructor
  · rintro ⟨r, ⟨hr, hk⟩, hv⟩
    exact ⟨r, hr, hk, hv⟩
  · rintro ⟨r, hr, hk, hv⟩
    exact ⟨r, ⟨hr, hk⟩, hv⟩

/-- What `GetLastUpdateTime` returns when the query itself does not fail: the
not-found result (nil, nil) if the table holds no row with the key; the greatest
`updated_at` of the rows with the key, and no error, if there are such rows and the
`updated_at` of every one of them is set; an error if a row with the key has a NULL
`updated_at`. -/
theorem GetLastUpdateTime_cases (store : Store) (issueKey : String) :
    ((∀ r ∈ store.issues, r.key ≠ issueKey) →
        GetLastUpdateTime none store issueKey = (none, none))
    ∧ ((∃ r ∈ store.issues, r.key = issueKey) →
        (∀ r ∈ store.issues, r.key = issueKey → r.updated_at ≠ none) →
        ∃ t, GetLastUpdateTime none store issueKey = (some t, none)
          ∧ (∃ r ∈ store.issues, r.key = issueKey ∧ r.updated_at = some t)
          ∧ ∀ r ∈ store.issues, r.key = issueKey →
              ∀ u, r.updated_at = some u → u.nanos ≤ t.nanos)
    ∧ ((∃ r ∈ store.issues, r.key = issueKey ∧ r.updated_at = none) →
        ∃ err, GetLastUpdateTime none store issueKey = (none, some err)) := by
  refine ⟨?_, ?_, ?_⟩
  · intro hnone
    have hempty : store.issues.filter (fun r => decide (r.key = issueKey)) = [] := by
      rw [List.filter_eq_nil_iff]
      intro r hr
      simpa using hnone r hr
    simp [GetLastUpdateTime, lastUpdateQuery, hempty]
  · intro hex hset
    cases hvals : (store.issues.filter (fun r => decide (r.key = issueKey))).map
        (fun r => r.updated_at) with
    | nil =>
      obtain ⟨r, hr, hk⟩ := hex
      have : r.updated_at ∈ (store.issues.filter (fun r => decide (r.key = issueKey))).map
          (fun r => r.updated_at) :=
        (mem_keyed_values store.issues issueKey _).mpr ⟨r, hr, hk, rfl⟩
      rw [hvals] at this
      cases this
    | cons v vs =>
      have hall : ∀ x ∈ v :: vs, x ≠ none := by
        intro x hx
        rw [← hvals] at hx
        obtain ⟨r, hr, hk, hv⟩ := (mem_keyed_values store.issues issueKey x).mp hx
        rw [← hv]
        exact hset r hr hk
      obtain ⟨t, h1, h2, h3⟩ := foldl_firstDesc_some vs v hall
      refine ⟨t, ?_, ?_, ?_⟩
      · simp [GetLastUpdateTime, lastUpdateQuery, hvals, h1]
      · rw [← hvals] at h2
        exact (mem_keyed_values store.issues issueKey _).mp h2
      · intro r hr hk u hu
        apply h3 u
        rw [← hvals]
        exact (mem_keyed_values store.issues issueKey _).mpr ⟨r, hr, hk, hu⟩
  · rintro ⟨r, hr, hk, hnull⟩
    have hmem : none ∈ (store.issues.filter (fun r => decide (r.key = issueKey))).map
        (fun r => r.updated_at) :=
      (mem_keyed_values store.issues issueKey _).mpr ⟨r, hr, hk, hnull⟩
    cases hvals : (store.issues.filter (fun r => decide (r.key = issueKey))).map
        (fun r => r.updated_at) with
    | nil => rw [hvals] at hmem; cases hmem
    | cons v vs =>
      rw [hvals] at hmem
      have := foldl_firstDesc_none vs v hmem
      refine ⟨Errorf_w "failed to get last update time: " (some scanNullError), ?_⟩
      simp [GetLastUpdateTime, lastUpdateQuery, hvals, this]

/-- C18, the code at the failing input: `SaveIssues` of an issue updated at time 5 and
an issue of the same key without update time leaves two rows of key `A-1`, one with
`updated_at` 5 and one with NULL.  The table holds a row of that key whose `updated_at`
is set, yet `GetLastUpdateTime` returns an error and not time 5: the NULL sorts first
in descending order and its scan fails.  Without a NULL among the rows of the key the
function does what the claim says: (nil, nil) when no row has the key, the greatest
`updated_at` and no error otherwise (time 8 for rows updated at 5 and 8). -/
theorem C18_null_row_hides_last_update :
    (SaveIssues {} { nanos := 10 } {}
        [{ ID := "1", Key := "A-1", UpdatedAt := { nanos := 5 } }, { ID := "2", Key := "A-1" }]).1
      = none
    ∧ (SaveIssues {} { nanos := 10 } {}
        [{ ID := "1", Key := "A-1", UpdatedAt := { nanos := 5 } }, { ID := "2", Key := "A-1" }]).2.issues
      = sampleNullStore.issues
    ∧ (∃ r ∈ sampleNullStore.issues, r.key = "A-1" ∧ r.updated_at = some { nanos := 5 })
    ∧ GetLastUpdateTime none sampleNullStore "A-1"
        = (none, some (.wrap
            "failed to get last update time: can't scan into dest[0]: cannot scan NULL into *time.Time"
            scanNullError))
    ∧ GetLastUpdateTime none sampleDatedStore "A-1" = (some { nanos := 8 }, none)
    ∧ GetLastUpdateTime none sampleDatedStore "C-1" = (none, none)
    ∧ (∀ (store : Store) (issueKey : String),
        ((∀ r ∈ store.issues, r.key ≠ issueKey) →
            GetLastUpdateTime none store issueKey = (none, none))
        ∧ ((∃ r ∈ store.issues, r.key = issueKey) →
            (∀ r ∈ store.issues, r.key = issueKey → r.updated_at ≠ none) →
            ∃ t, GetLastUpdateTime none store issueKey = (some t, none)
              ∧ (∃ r ∈ store.issues, r.key = issueKey ∧ r.updated_at = some t)
              ∧ ∀ r ∈ store.issues, r.key = issueKey →
                  ∀ u, r.updated_at = some u → u.nanos ≤ t.nanos)
        ∧ ((∃ r ∈ store.issues, r.key = issueKey ∧ r.updated_at = none) →
            ∃ err, GetLastUpdateTime none store issueKey = (none, some err))) :=
  ⟨rfl, rfl,
   ⟨issueParams { ID := "1", Key := "A-1", UpdatedAt := { nanos := 5 } },
    List.mem_cons_self _ _, rfl, rfl⟩,
   rfl, rfl, rfl, GetLastUpdateTime_cases⟩

/-! ### The capacity of the channels -/

theorem sendsOn_append (ch : Chan) (l₁ l₂ : List Event) :
    sendsOn ch (l₁ ++ l₂) = sendsOn ch l₁ + sendsOn ch l₂ :=
  List.countP_append _ l₁ l₂

theorem sendsOn_changelogChan (trace : List Event) :
    sendsOn .changelogChan trace = (sentChangelogs trace).length := by
  induction trace with
  | nil => rfl
  | cons e rest ih =>
    have hc : sendsOn .changelogChan (e :: rest)
        = sendsOn .changelogChan [e] + sendsOn .changelogChan rest :=
      sendsOn_append _ [e] rest
    have hs : sentChangelogs (e :: rest) = sentChangelogs [e] ++ sentChangelogs rest :=
      sentChangelogs_append [e] rest
    rw [hc, hs, List.length_append, ih]
    cases e <;> rfl

theorem sendsOn_errChan (trace : List Event) :
    sendsOn .errChan trace = (sentErrs trace).length := by
  induction trace with
  | nil => rfl
  | cons e rest ih =>
    have hc : sendsOn .errChan (e :: rest) = sendsOn .errChan [e] + sendsOn .errChan rest :=
      sendsOn_append _ [e] rest
    have hs : sentErrs (e :: rest) = sentErrs [e] ++ sentErrs rest :=
      sentErrs_append [e] rest
    rw [hc, hs, List.length_append, ih]
    cases e <;> rfl

theorem sentProgress_append (l₁ l₂ : List Event) :
    sentProgress (l₁ ++ l₂) = sentProgress l₁ ++ sentProgress l₂ :=
  List.filterMap_append _ _ _

theorem sendsOn_progressChan (trace : List Event) :
    sendsOn .progressChan trace = (sentProgress trace).length := by
  induction trace with
  | nil => rfl
  | cons e rest ih =>
    have hc : sendsOn .progressChan (e :: rest)
        = sendsOn .progressChan [e] + sendsOn .progressChan rest :=
      sendsOn_append _ [e] rest
    have hs : sentProgress (e :: rest) = sentProgress [e] ++ sentProgress rest :=
      sentProgress_append [e] rest
    rw [hc, hs, List.length_append, ih]
    cases e <;> rfl

/-- The retry loop itself sends nothing on `progressChan`. -/
theorem sentProgress_attemptLoop (cfg : Config) (fmtFloat : Float64 → String)
    (issueKey : String) (env : Nat → AttemptOutcome) (attempts : List Nat)
    (lastErr : Option GoError) :
    sentProgress (attemptLoop cfg fmtFloat issueKey env attempts lastErr) = [] := by
  induction attempts generalizing lastErr with
  | nil => rw [attemptLoop_nil]; rfl
  | cons a rest ih =>
    cases hout : env a with
    | limiterErr err =>
      rw [attemptLoop_limiterErr cfg fmtFloat issueKey env a rest lastErr err hout]
      exact ih _
    | newRequestErr err =>
      rw [attemptLoop_newRequestErr cfg fmtFloat issueKey env a rest lastErr err hout]
      exact ih _
    | doErr err =>
      rw [attemptLoop_doErr cfg fmtFloat issueKey env a rest lastErr err hout]
      exact ih _
    | response StatusCode body decoded =>
      by_cases h429 : StatusCode = 429
      · subst h429
        rw [attemptLoop_429 cfg fmtFloat issueKey env a rest lastErr body decoded hout]
        exact ih _
      · by_cases h200 : StatusCode = 200
        · subst h200
          cases decoded with
          | error err =>
            rw [attemptLoop_decodeErr cfg fmtFloat issueKey env a rest lastErr body err hout]
            exact ih _
          | ok entries =>
            rw [attemptLoop_ok cfg fmtFloat issueKey env a rest lastErr body entries hout]
            rfl
        · rw [attemptLoop_badStatus cfg fmtFloat issueKey env a rest lastErr StatusCode body
            decoded hout h429 h200]
          exact ih _

/-- A task sends its key on `progressChan` once. -/
theorem changelogTask_progress_once (cfg : Config) (fmtFloat : Float64 → String)
    (issueKey : String) (env : Nat → AttemptOutcome) :
    sentProgress (changelogTask cfg fmtFloat issueKey env) = [issueKey] := by
  unfold changelogTask
  rw [sentProgress_append, sentProgress_attemptLoop]
  rfl

/-- The sends of one task: one on `progressChan`, and one on exactly one of
`changelogChan` and `errChan`. -/
theorem changelogTask_sends (cfg : Config) (fmtFloat : Float64 → String)
    (issueKey : String) (env : Nat → AttemptOutcome) :
    sendsOn .progressChan (changelogTask cfg fmtFloat issueKey env) = 1
    ∧ ((sendsOn .changelogChan (changelogTask cfg fmtFloat issueKey env) = 1
          ∧ sendsOn .errChan (changelogTask cfg fmtFloat issueKey env) = 0)
        ∨ (sendsOn .changelogChan (changelogTask cfg fmtFloat issueKey env) = 0
          ∧ sendsOn .errChan (changelogTask cfg fmtFloat issueKey env) = 1)) := by
  rw [sendsOn_progressChan, sendsOn_changelogChan, sendsOn_errChan,
    changelogTask_progress_once]
  refine ⟨rfl, ?_⟩
  rcases changelogTask_sends_once cfg fmtFloat issueKey env with ⟨rows, h1, h2⟩ | ⟨err, h1, h2⟩
  · rw [h1, h2]; exact Or.inl ⟨rfl, rfl⟩
  · rw [h1, h2]; exact Or.inr ⟨rfl, rfl⟩

/-- All tasks together send at most one message per issue on each channel. -/
theorem sendsOn_taskTraces_le (cfg : Config) (fmtFloat : Float64 → String)
    (issues : List Issue) (env : Nat → Nat → AttemptOutcome) (ch : Chan) :
    sendsOn ch (taskTraces cfg fmtFloat issues env).flatten ≤ chanCapacity issues := by
  unfold sendsOn
  rw [List.countP_flatten]
  have hle : ∀ x ∈ (taskTraces cfg fmtFloat issues env).map
      (List.countP (fun e => decide (e.channel = some ch))), x ≤ 1 := by
    intro x hx
    simp only [taskTraces, List.mem_map] at hx
    obtain ⟨t, ⟨p, _, rfl⟩, rfl⟩ := hx
    have h := changelogTask_sends cfg fmtFloat p.2.Key (env p.1)
    unfold sendsOn at h
    cases ch
    · rcases h.2 with h | h <;> omega
    · rcases h.2 with h | h <;> omega
    · omega
  have := List.sum_le_card_nsmul _ 1 hle
  simpa [taskTraces, chanCapacity] using this

theorem sendsOn_flatten (ch : Chan) (L : List (List Event)) :
    sendsOn ch L.flatten = (L.map (sendsOn ch)).sum :=
  List.countP_flatten _ L

/-- C21: every task, whatever the outcomes of its attempts, sends its key once on
`progressChan` and one message on exactly one of `changelogChan` and `errChan`.  Hence
for the tasks of any issue list each channel receives at most `len(issues)` messages,
which is its capacity, and in every order in which the events of the tasks can happen
(each is a permutation of the concatenated traces) every send finds fewer earlier sends
on its channel than the capacity, so it cannot block. -/
theorem C21_sends_never_block (cfg : Config) (fmtFloat : Float64 → String) :
    (∀ (issueKey : String) (env : Nat → AttemptOutcome),
        sentProgress (changelogTask cfg fmtFloat issueKey env) = [issueKey]
        ∧ sendsOn .progressChan (changelogTask cfg fmtFloat issueKey env) = 1
        ∧ ((sendsOn .changelogChan (changelogTask cfg fmtFloat issueKey env) = 1
              ∧ sendsOn .errChan (changelogTask cfg fmtFloat issueKey env) = 0)
            ∨ (sendsOn .changelogChan (changelogTask cfg fmtFloat issueKey env) = 0
              ∧ sendsOn .errChan (changelogTask cfg fmtFloat issueKey env) = 1)))
    ∧ (∀ (issues : List Issue) (env : Nat → Nat → AttemptOutcome),
        sendsOn .progressChan (taskTraces cfg fmtFloat issues env).flatten = issues.length
        ∧ sendsOn .changelogChan (taskTraces cfg fmtFloat issues env).flatten
            + sendsOn .errChan (taskTraces cfg fmtFloat issues env).flatten = issues.length
        ∧ (∀ ch, sendsOn ch (taskTraces cfg fmtFloat issues env).flatten
            ≤ chanCapacity issues)
        ∧ ∀ (run before after : List Event) (e : Event) (ch : Chan),
            run.Perm (taskTraces cfg fmtFloat issues env).flatten →
            run = before ++ e :: after → e.channel = some ch →
            sendsOn ch before < chanCapacity issues
            ∧ sendCanBlock (chanCapacity issues) (sendsOn ch before) = false) := by
  refine ⟨fun issueKey env => ⟨changelogTask_progress_once cfg fmtFloat issueKey env,
    changelogTask_sends cfg fmtFloat issueKey env⟩, ?_⟩
  intro issues env
  have hsum : ∀ (f : List Event → Nat) (n : Nat),
      (∀ (issueKey : String) (env : Nat → AttemptOutcome),
        f (changelogTask cfg fmtFloat issueKey env) = n) →
      ((taskTraces cfg fmtFloat issues env).map f).sum = issues.length * n := by
    intro f n hf
    have hconst : (taskTraces cfg fmtFloat issues env).map f
        = List.replicate issues.length n := by
      rw [List.eq_replicate_iff]
      constructor
      · simp [taskTraces]
      · intro x hx
        simp only [taskTraces, List.mem_map] at hx
        obtain ⟨t, ⟨p, _, rfl⟩, rfl⟩ := hx
        exact hf _ _
    rw [hconst, List.sum_replicate, smul_eq_mul]
  have hprog : sendsOn .progressChan (taskTraces cfg fmtFloat issues env).flatten
      = issues.length := by
    rw [sendsOn_flatten, hsum _ 1 (fun k en => (changelogTask_sends cfg fmtFloat k en).1),
      Nat.mul_one]
  have hboth : sendsOn .changelogChan (taskTraces cfg fmtFloat issues env).flatten
      + sendsOn .errChan (taskTraces cfg fmtFloat issues env).flatten = issues.length := by
    have h := hsum (fun t => sendsOn .changelogChan t + sendsOn .errChan t) 1
      (fun k en => by
        rcases (changelogTask_sends cfg fmtFloat k en).2 with h | h
        · show sendsOn .changelogChan _ + sendsOn .errChan _ = 1
          omega
        · show sendsOn .changelogChan _ + sendsOn .errChan _ = 1
          omega)
    rw [Nat.mul_one] at h
    rw [← h]
    rw [sendsOn_flatten, sendsOn_flatten]
    generalize taskTraces cfg fmtFloat issues env = L
    induction L with
    | nil => rfl
    | cons t L ih =>
      simp only [List.map_cons, List.sum_cons]
      omega
  refine ⟨hprog, hboth, sendsOn_taskTraces_le cfg fmtFloat issues env, ?_⟩
  intro run before after e ch hperm hrun hch
  have hle := sendsOn_taskTraces_le cfg fmtFloat issues env ch
  have hcount : sendsOn ch run = sendsOn ch (taskTraces cfg fmtFloat issues env).flatten :=
    List.Perm.countP_eq _ hperm
  have hsplit : sendsOn ch run = sendsOn ch before + (1 + sendsOn ch after) := by
    rw [hrun, sendsOn_append]
    have hcons : sendsOn ch (e :: after) = sendsOn ch [e] + sendsOn ch after :=
      sendsOn_append ch [e] after
    have hone : sendsOn ch [e] = 1 := by
      simp [sendsOn, hch]
    rw [hcons, hone]
  have hlt : sendsOn ch before < chanCapacity issues := by omega
  exact ⟨hlt, by simp [sendCanBlock, hlt]⟩

/-- Witness of C21: a task failing three times sends one error and its key, a task
succeeding at once sends one batch; with two issues the capacity is 2, and the last
send of the run in which the two tasks run one after the other, the progress send of
the second task, finds one earlier message on `progressChan`. -/
theorem C21_sends_never_block_witness :
    sentProgress (changelogTask sampleCfg noFloat "A-1" envAlways429) = ["A-1"]
    ∧ sendsOn .errChan (changelogTask sampleCfg noFloat "A-1" envAlways429) = 1
    ∧ sendsOn .changelogChan (changelogTask sampleCfg noFloat "A-1" envFirstOk) = 1
    ∧ sendsOn .progressChan (taskTraces sampleCfg noFloat sampleIssues envTwoTasks).flatten = 2
    ∧ chanCapacity sampleIssues = 2
    ∧ sendsOn .progressChan
        (taskTraces sampleCfg noFloat sampleIssues envTwoTasks).flatten.dropLast = 1
    ∧ sendCanBlock (chanCapacity sampleIssues) (sendsOn .progressChan
        (taskTraces sampleCfg noFloat sampleIssues envTwoTasks).flatten.dropLast) = false :=
  ⟨((C21_sends_never_block sampleCfg noFloat).1 "A-1" envAlways429).1,
   rfl, rfl,
   ((C21_sends_never_block sampleCfg noFloat).2 sampleIssues envTwoTasks).1,
   rfl, rfl,
   (((C21_sends_never_block sampleCfg noFloat).2 sampleIssues envTwoTasks).2.2.2
      (taskTraces sampleCfg noFloat sampleIssues envTwoTasks).flatten
      (taskTraces sampleCfg noFloat sampleIssues envTwoTasks).flatten.dropLast
      [] (.sendProgress "A-2") .progressChan (List.Perm.refl _) rfl rfl).2⟩

/-! ### Only status 200 is a success -/

theorem scrollLoop_newRequestErr (cfg : Config)
    (upstream : Nat → HTTPRequest → ClientOutcome (List Issue)) (query : String)
    (totalCount : Int) (fuel : Nat) (resp : Response (List Issue))
    (issues : List Issue) (sent : List HTTPRequest) (err : GoError)
    (h : (issues.length : Int) < totalCount)
    (hup : upstream sent.length (scrollRequest cfg resp query) = .newRequestErr err) :
    scrollLoop cfg upstream query totalCount (fuel + 1) resp issues sent
      = { result := some (.error (Errorf_w "failed to create scroll request: " (some err))),
          requests := sent } := by
  rw [scrollLoop]
  simp [h, hup]

theorem scrollLoop_doErr (cfg : Config)
    (upstream : Nat → HTTPRequest → ClientOutcome (List Issue)) (query : String)
    (totalCount : Int) (fuel : Nat) (resp : Response (List Issue))
    (issues : List Issue) (sent : List HTTPRequest) (err : GoError)
    (h : (issues.length : Int) < totalCount)
    (hup : upstream sent.length (scrollRequest cfg resp query) = .doErr err) :
    scrollLoop cfg upstream query totalCount (fuel + 1) resp issues sent
      = { result := some (.error (Errorf_w "failed to send scroll request: " (some err))),
          requests := sent ++ [scrollRequest cfg resp query] } := by
  rw [scrollLoop]
  simp [h, hup]

theorem scrollLoop_badStatus (cfg : Config)
    (upstream : Nat → HTTPRequest → ClientOutcome (List Issue)) (query : String)
    (totalCount : Int) (fuel : Nat) (resp r : Response (List Issue))
    (issues : List Issue) (sent : List HTTPRequest)
    (h : (issues.length : Int) < totalCount)
    (hup : upstream sent.length (scrollRequest cfg resp query) = .response r)
    (h200 : r.StatusCode ≠ 200) :
    scrollLoop cfg upstream query totalCount (fuel + 1) resp issues sent
      = { result := some (.error (.plain ("tracker API error during scroll: status="
            ++ toString r.StatusCode ++ ", body=" ++ r.body))),
          requests := sent ++ [scrollRequest cfg resp query] } := by
  rw [scrollLoop]
  simp [h, hup, h200]

theorem scrollLoop_decodeErr (cfg : Config)
    (upstream : Nat → HTTPRequest → ClientOutcome (List Issue)) (query : String)
    (totalCount : Int) (fuel : Nat) (resp r : Response (List Issue))
    (issues : List Issue) (sent : List HTTPRequest) (err : GoError)
    (h : (issues.length : Int) < totalCount)
    (hup : upstream sent.length (scrollRequest cfg resp query) = .response r)
    (h200 : r.StatusCode = 200) (hdec : r.decoded = .error err) :
    scrollLoop cfg upstream query totalCount (fuel + 1) resp issues sent
      = { result := some (.error (Errorf_w "failed to decode scroll response: " (some err))),
          requests := sent ++ [scrollRequest cfg resp query] } := by
  rw [scrollLoop]
  simp [h, hup, h200, hdec]

/-- The requests already sent stay at the head of the list of requests. -/
theorem scrollLoop_requests_head (cfg : Config)
    (upstream : Nat → HTTPRequest → ClientOutcome (List Issue)) (query : String)
    (totalCount : Int) (fuel : Nat) :
    ∀ (resp : Response (List Issue)) (issues : List Issue) (sent : List HTTPRequest),
      sent <+: (scrollLoop cfg upstream query totalCount fuel resp issues sent).requests := by
  induction fuel with
  | zero =>
    intro resp issues sent
    by_cases hlt : (issues.length : Int) < totalCount
    · rw [scrollLoop_zero cfg upstream query totalCount resp issues sent hlt]
    · rw [scrollLoop_done cfg upstream query totalCount 0 resp issues sent hlt]
  | succ fuel ih =>
    intro resp issues sent
    by_cases hlt : (issues.length : Int) < totalCount
    · cases hup : upstream sent.length (scrollRequest cfg resp query) with
      | newRequestErr err =>
        rw [scrollLoop_newRequestErr cfg upstream query totalCount fuel resp issues sent err
          hlt hup]
      | doErr err =>
        rw [scrollLoop_doErr cfg upstream query totalCount fuel resp issues sent err hlt hup]
        exact List.prefix_append _ _
      | response r =>
        by_cases h200 : r.StatusCode = 200
        · cases hdec : r.decoded with
          | error err =>
            rw [scrollLoop_decodeErr cfg upstream query totalCount fuel resp r issues sent err
              hlt hup h200 hdec]
            exact List.prefix_append _ _
          | ok more =>
            rw [scrollLoop_page cfg upstream query totalCount fuel resp r issues more sent
              hlt hup h200 hdec]
            exact (List.prefix_append _ _).trans (ih r _ _)
        · rw [scrollLoop_badStatus cfg upstream query totalCount fuel resp r issues sent
            hlt hup h200]
          exact List.prefix_append _ _
    · rw [scrollLoop_done cfg upstream query totalCount (fuel + 1) resp issues sent hlt]

/-- A continuation request answered with a status other than 200 ends the loop with an
error. -/
theorem scrollLoop_status (cfg : Config)
    (upstream : Nat → HTTPRequest → ClientOutcome (List Issue)) (query : String)
    (totalCount : Int) (fuel : Nat) :
    ∀ (resp : Response (List Issue)) (issues : List Issue) (sent : List HTTPRequest)
      (n : Nat) (req : HTTPRequest) (r : Response (List Issue)),
      (scrollLoop cfg upstream query totalCount fuel resp issues sent).requests.get? n
        = some req →
      sent.length ≤ n → upstream n req = .response r → r.StatusCode ≠ 200 →
      (scrollLoop cfg upstream query totalCount fuel resp issues sent).result
        = some (.error (.plain ("tracker API error during scroll: status="
            ++ toString r.StatusCode ++ ", body=" ++ r.body))) := by
  induction fuel with
  | zero =>
    intro resp issues sent n req r hget hn hup hst
    have hlen := (List.get?_eq_some.mp hget).1
    by_cases hlt : (issues.length : Int) < totalCount
    · rw [scrollLoop_zero cfg upstream query totalCount resp issues sent hlt] at hlen
      exact absurd hlen (by simpa using hn)
    · rw [scrollLoop_done cfg upstream query totalCount 0 resp issues sent hlt] at hlen
      exact absurd hlen (by simpa using hn)
  | succ fuel ih =>
    intro resp issues sent n req r hget hn hup hst
    by_cases hlt : (issues.length : Int) < totalCount
    · have hat : ∀ (rs : List HTTPRequest),
          (sent ++ [scrollRequest cfg resp query]) <+: rs → rs.get? n = some req →
          n = sent.length → req = scrollRequest cfg resp query := by
        intro rs hpre hg hnn
        obtain ⟨t, rfl⟩ := hpre
        subst hnn
        have hhead : ((sent ++ [scrollRequest cfg resp query]) ++ t).get? sent.length
            = some (scrollRequest cfg resp query) := by
          rw [List.append_assoc, List.get?_eq_getElem?,
            List.getElem?_append_right (Nat.le_refl _)]
          simp
        rw [hhead] at hg
        exact (Option.some.inj hg).symm
      cases hup' : upstream sent.length (scrollRequest cfg resp query) with
      | newRequestErr err =>
        rw [scrollLoop_newRequestErr cfg upstream query totalCount fuel resp issues sent err
          hlt hup'] at hget
        have hlen := (List.get?_eq_some.mp hget).1
        exact absurd hlen (by simpa using hn)
      | doErr err =>
        rw [scrollLoop_doErr cfg upstream query totalCount fuel resp issues sent err hlt hup']
          at hget
        have hlen := (List.get?_eq_some.mp hget).1
        have hnn : n = sent.length := by
          simp at hlen
          omega
        have hreq := hat _ (List.prefix_refl _) hget hnn
        rw [hnn, hreq, hup'] at hup
        cases hup
      | response r' =>
        by_cases h200 : r'.StatusCode = 200
        · cases hdec : r'.decoded with
          | error err =>
            rw [scrollLoop_decodeErr cfg upstream query totalCount fuel resp r' issues sent err
              hlt hup' h200 hdec] at hget
            have hlen := (List.get?_eq_some.mp hget).1
            have hnn : n = sent.length := by
              simp at hlen
              omega
            have hreq := hat _ (List.prefix_refl _) hget hnn
            rw [hnn, hreq, hup'] at hup
            cases hup
            exact absurd h200 hst
          | ok more =>
            rw [scrollLoop_page cfg upstream query totalCount fuel resp r' issues more sent
              hlt hup' h200 hdec] at hget ⊢
            by_cases hnn : n = sent.length
            · have hreq := hat _ (scrollLoop_requests_head cfg upstream query totalCount fuel
                r' (issues ++ more) (sent ++ [scrollRequest cfg resp query])) hget hnn
              rw [hnn, hreq, hup'] at hup
              cases hup
              exact absurd h200 hst
            · exact ih r' _ _ n req r hget
                (by rw [List.length_append, List.length_singleton]; omega) hup hst
        · rw [scrollLoop_badStatus cfg upstream query totalCount fuel resp r' issues sent
            hlt hup' h200] at hget ⊢
          have hlen := (List.get?_eq_some.mp hget).1
          have hnn : n = sent.length := by
            simp at hlen
            omega
          have hreq := hat _ (List.prefix_refl _) hget hnn
          rw [hnn, hreq, hup'] at hup
          cases hup
          rfl
    · rw [scrollLoop_done cfg upstream query totalCount (fuel + 1) resp issues sent hlt]
        at hget
      have hlen := (List.get?_eq_some.mp hget).1
      exact absurd hlen (by simpa using hn)

/-- A request of `GetIssues` answered with a status other than 200 makes it return the
status error: of the first request when it is the first, of the scroll otherwise. -/
theorem GetIssues_status (cfg : Config)
    (upstream : Nat → HTTPRequest → ClientOutcome (List Issue)) (query : String)
    (fuel n : Nat) (req : HTTPRequest) (r : Response (List Issue))
    (hget : (GetIssues cfg upstream query fuel).requests.get? n = some req)
    (hup : upstream n req = .response r) (hst : r.StatusCode ≠ 200) :
    (GetIssues cfg upstream query fuel).result
      = some (.error (.plain ((if n = 0 then "tracker API error: status="
            else "tracker API error during scroll: status=")
          ++ toString r.StatusCode ++ ", body=" ++ r.body))) := by
  have hfirst : ∀ (rs : List HTTPRequest), [firstRequest cfg query] <+: rs →
      rs.get? n = some req → n = 0 → req = firstRequest cfg query := by
    intro rs hpre hg hn
    obtain ⟨t, rfl⟩ := hpre
    subst hn
    exact (Option.some.inj hg).symm
  have hone : ∀ {res : Option (Except GoError (List Issue))},
      (GetIssues cfg upstream query fuel)
        = { result := res, requests := [firstRequest cfg query] } →
      n = 0 ∧ req = firstRequest cfg query := by
    intro res hG
    rw [hG] at hget
    have hlen := (List.get?_eq_some.mp hget).1
    have hn : n = 0 := by
      simp at hlen
      exact hlen
    exact ⟨hn, hfirst _ (List.prefix_refl _) hget hn⟩
  cases hup0 : upstream 0 (firstRequest cfg query) with
  | newRequestErr err =>
    have hG : GetIssues cfg upstream query fuel
        = { result := some (.error (Errorf_w "failed to create request: " (some err))),
            requests := [] } := by
      unfold GetIssues
      rw [hup0]
    rw [hG] at hget
    cases hget
  | doErr err =>
    have hG : GetIssues cfg upstream query fuel
        = { result := some (.error (Errorf_w "failed to send request: " (some err))),
            requests := [firstRequest cfg query] } := by
      unfold GetIssues
      rw [hup0]
    obtain ⟨hn, hreq⟩ := hone hG
    rw [hn, hreq, hup0] at hup
    cases hup
  | response resp =>
    by_cases h200 : resp.StatusCode = 200
    · cases hdec : resp.decoded with
      | error err =>
        have hG : GetIssues cfg upstream query fuel
            = { result := some (.error (Errorf_w "failed to decode response: " (some err))),
                requests := [firstRequest cfg query] } := by
          unfold GetIssues
          rw [hup0]
          simp [h200, hdec]
        obtain ⟨hn, hreq⟩ := hone hG
        rw [hn, hreq, hup0] at hup
        cases hup
        exact absurd h200 hst
      | ok issues =>
        cases hcount : Atoi (headerGet resp.Header "X-Total-Count") with
        | error err =>
          have hG : GetIssues cfg upstream query fuel
              = { result := some (.error (Errorf_w "failed to parse total count: " (some err))),
                  requests := [firstRequest cfg query] } := by
            unfold GetIssues
            rw [hup0]
            simp [h200, hdec, hcount]
          obtain ⟨hn, hreq⟩ := hone hG
          rw [hn, hreq, hup0] at hup
          cases hup
          exact absurd h200 hst
        | ok totalCount =>
          have hG : GetIssues cfg upstream query fuel
              = scrollLoop cfg upstream (effectiveQuery cfg query) totalCount fuel resp issues
                  [firstRequest cfg query] := by
            unfold GetIssues
            rw [hup0]
            simp [h200, hdec, hcount]
          rw [hG] at hget ⊢
          by_cases hn : n = 0
          · have hreq := hfirst _ (scrollLoop_requests_head cfg upstream
              (effectiveQuery cfg query) totalCount fuel resp issues [firstRequest cfg query])
              hget hn
            rw [hn, hreq, hup0] at hup
            cases hup
            exact absurd h200 hst
          · rw [if_neg hn]
            exact scrollLoop_status cfg upstream (effectiveQuery cfg query) totalCount fuel
              resp issues [firstRequest cfg query] n req r hget
              (by rw [List.length_singleton]; omega) hup hst
    · have hG : GetIssues cfg upstream query fuel
          = { result := some (.error (.plain ("tracker API error: status="
                ++ toString resp.StatusCode ++ ", body=" ++ resp.body))),
              requests := [firstRequest cfg query] } := by
        unfold GetIssues
        rw [hup0]
        simp [h200]
      obtain ⟨hn, hreq⟩ := hone hG
      rw [hn, hreq, hup0] at hup
      cases hup
      rw [hG, if_pos hn]

/-- C22: a changelog attempt answered with a status other than 200 is unsuccessful:
after the request the loop goes on with the remaining attempts, through the backoff
sleep for 429 and with the status error recorded otherwise, whatever the body would
decode into; a task sends a batch only for an attempt answered with exactly 200, and
the batch is built from that response.  `GetIssues` (first request or continuation),
`GetStatusTypes` and `GetIssuesCount` return the status error for every response whose
status is not 200. -/
theorem C22_only_status_200 (cfg : Config) (fmtFloat : Float64 → String) :
    (∀ (issueKey : String) (env : Nat → AttemptOutcome) (a : Nat) (rest : List Nat)
        (lastErr : Option GoError) (StatusCode : Nat) (body : String)
        (decoded : Except GoError (List ChangelogEntry)),
        env a = .response StatusCode body decoded → StatusCode ≠ 200 →
        (env a).isSuccess = false
        ∧ attemptLoop cfg fmtFloat issueKey env (a :: rest) lastErr
          = .limiterWait a :: .request a (changelogRequest cfg issueKey) ::
              (if StatusCode = 429 then
                .sleep (retryDelay * a) :: attemptLoop cfg fmtFloat issueKey env rest lastErr
              else
                attemptLoop cfg fmtFloat issueKey env rest
                  (some (.plain ("tracker API error for " ++ issueKey ++ ": status="
                    ++ toString StatusCode ++ ", body=" ++ body)))))
    ∧ (∀ (issueKey : String) (env : Nat → AttemptOutcome) (rows : List Changelog),
        Event.sendChangelogs rows ∈ changelogTask cfg fmtFloat issueKey env →
        ∃ attempt ∈ List.range' 1 maxRetries, ∃ body entries,
          env attempt = .response 200 body (.ok entries)
          ∧ rows = expandEntries cfg fmtFloat entries)
    ∧ (∀ (issueKey : String) (env : Nat → AttemptOutcome),
        (∀ a ∈ List.range' 1 maxRetries, ∃ StatusCode body decoded,
          env a = .response StatusCode body decoded ∧ StatusCode ≠ 200) →
        sentChangelogs (changelogTask cfg fmtFloat issueKey env) = []
        ∧ ∃ err, sentErrs (changelogTask cfg fmtFloat issueKey env) = [err])
    ∧ (∀ (upstream : Nat → HTTPRequest → ClientOutcome (List Issue)) (query : String)
        (fuel n : Nat) (req : HTTPRequest) (r : Response (List Issue)),
        (GetIssues cfg upstream query fuel).requests.get? n = some req →
        upstream n req = .response r → r.StatusCode ≠ 200 →
        (GetIssues cfg upstream query fuel).result
          = some (.error (.plain ((if n = 0 then "tracker API error: status="
                else "tracker API error during scroll: status=")
              ++ toString r.StatusCode ++ ", body=" ++ r.body))))
    ∧ (∀ (upstream : HTTPRequest → ClientOutcome (List StatusType))
        (resp : Response (List StatusType)),
        upstream { method := "GET", url := cfg.Tracker.APIIssuesURL ++ "/statuses/",
                   header := [("Authorization", "OAuth " ++ cfg.Tracker.OAuthToken),
                     ("X-Org-ID", cfg.Tracker.OrgID)],
                   body := none } = .response resp →
        resp.StatusCode ≠ 200 →
        GetStatusTypes cfg upstream
          = .error (.plain ("unexpected status code: " ++ toString resp.StatusCode
              ++ ", body: " ++ resp.body)))
    ∧ (∀ (upstream : HTTPRequest → ClientOutcome Int) (query : String) (resp : Response Int),
        upstream (searchRequest cfg (cfg.Tracker.APIIssuesURL ++ "/issues/_count") query)
          = .response resp →
        resp.StatusCode ≠ 200 →
        GetIssuesCount cfg upstream query
          = .error (.plain ("tracker API error: status=" ++ toString resp.StatusCode
              ++ ", body=" ++ resp.body))) := by
  have hmem : ∀ (issueKey : String) (env : Nat → AttemptOutcome) (rows : List Changelog),
      Event.sendChangelogs rows ∈ changelogTask cfg fmtFloat issueKey env →
      ∃ attempt ∈ List.range' 1 maxRetries, ∃ body entries,
        env attempt = .response 200 body (.ok entries)
        ∧ rows = expandEntries cfg fmtFloat entries := by
    intro issueKey env rows h
    unfold changelogTask at h
    rcases List.mem_append.mp h with h | h
    · exact sendChangelogs_mem_attemptLoop cfg fmtFloat issueKey env rows _ none h
    · rw [List.mem_singleton] at h
      cases h
  refine ⟨?_, hmem, ?_, ?_, ?_, ?_⟩
  · intro issueKey env a rest lastErr StatusCode body decoded hout h200
    constructor
    · rw [hout]
      unfold AttemptOutcome.isSuccess
      split
      · next heq => cases heq; exact absurd rfl h200
      · rfl
    · by_cases h429 : StatusCode = 429
      · subst h429
        rw [attemptLoop_429 cfg fmtFloat issueKey env a rest lastErr body decoded hout]
        rfl
      · rw [attemptLoop_badStatus cfg fmtFloat issueKey env a rest lastErr StatusCode body
          decoded hout h429 h200, if_neg h429]
  · intro issueKey env hall
    have hnone : sentChangelogs (changelogTask cfg fmtFloat issueKey env) = [] := by
      rcases changelogTask_sends_once cfg fmtFloat issueKey env with ⟨rows, h1, _⟩ | ⟨_, h1, _⟩
      · have hin : Event.sendChangelogs rows ∈ changelogTask cfg fmtFloat issueKey env := by
          have : rows ∈ sentChangelogs (changelogTask cfg fmtFloat issueKey env) := by
            rw [h1]
            exact List.mem_singleton_self _
          unfold sentChangelogs at this
          obtain ⟨e, he, hrows⟩ := List.mem_filterMap.mp this
          cases e <;> simp at hrows
          subst hrows
          exact he
        obtain ⟨a, ha, body, entries, hout, _⟩ := hmem issueKey env rows hin
        obtain ⟨code, body', decoded, hout', hne⟩ := hall a ha
        rw [hout] at hout'
        cases hout'
        exact absurd rfl hne
      · exact h1
    refine ⟨hnone, ?_⟩
    rcases changelogTask_sends_once cfg fmtFloat issueKey env with ⟨rows, h1, _⟩ | ⟨err, _, h2⟩
    · rw [hnone] at h1
      cases h1
    · exact ⟨err, h2⟩
  · intro upstream query fuel n req r hget hup hst
    exact GetIssues_status cfg upstream query fuel n req r hget hup hst
  · intro upstream resp hup hst
    unfold GetStatusTypes
    rw [hup]
    simp [hst]
  · intro upstream query resp hup hst
    unfold GetIssuesCount
    rw [hup]
    simp [hst]

/-- Witness of C22: a task answered with 201, 204 and 429, each with a decodable body,
sends no batch and ends with the error of status 204; a continuation answered with 204
makes `GetIssues` return the scroll error; `GetStatusTypes` answered with 201 and
`GetIssuesCount` answered with 204 return their status errors. -/
theorem C22_only_status_200_witness :
    (sentChangelogs (changelogTask sampleCfg noFloat "A-1" envOther2xx) = []
      ∧ ∃ err, sentErrs (changelogTask sampleCfg noFloat "A-1" envOther2xx) = [err])
    ∧ sentErrs (changelogTask sampleCfg noFloat "A-1" envOther2xx)
        = [.wrap "max retries exceeded for issue A-1: tracker API error for A-1: status=204, body="
            (.plain "tracker API error for A-1: status=204, body=")]
    ∧ (GetIssues sampleCfg scroll204Server "" 5).result
        = some (.error (.plain "tracker API error during scroll: status=204, body=no content"))
    ∧ GetStatusTypes sampleCfg
          (fun _ => .response { StatusCode := 201, body := "made", decoded := .ok [] })
        = .error (.plain "unexpected status code: 201, body: made")
    ∧ GetIssuesCount sampleCfg
          (fun _ => .response { StatusCode := 204, body := "", decoded := .ok 7 }) "q"
        = .error (.plain "tracker API error: status=204, body=") :=
  ⟨(C22_only_status_200 sampleCfg noFloat).2.2.1 "A-1" envOther2xx (by
      intro a ha
      have : a = 1 ∨ a = 2 ∨ a = 3 := by
        simpa [maxRetries, List.range'] using ha
      rcases this with rfl | rfl | rfl
      · exact ⟨201, "created", .ok sampleEntries, rfl, by decide⟩
      · exact ⟨204, "", .ok sampleEntries, rfl, by decide⟩
      · exact ⟨429, "slow down", .ok sampleEntries, rfl, by decide⟩),
   rfl,
   ((C22_only_status_200 sampleCfg noFloat).2.2.2.1 scroll204Server "" 5 1
      (scrollRequest sampleCfg
        { StatusCode := 200
          Header := [("X-Total-Count", "5"), ("X-Scroll-Id", "s"), ("X-Scroll-Token", "t")]
          decoded := .ok [{ ID := "1", Key := "A-1" }, { ID := "2", Key := "A-2" }] } "")
      { StatusCode := 204, body := "no content", decoded := .ok [{ ID := "3", Key := "A-3" }] }
      rfl rfl (by decide)).trans rfl,
   ((C22_only_status_200 sampleCfg noFloat).2.2.2.2.1 _
      { StatusCode := 201, body := "made", decoded := .ok [] } rfl (by decide)).trans rfl,
   ((C22_only_status_200 sampleCfg noFloat).2.2.2.2.2 _ "q"
      { StatusCode := 204, body := "", decoded := .ok 7 } rfl (by decide)).trans rfl⟩

/-! ### The progress tracker -/

theorem wrapInt_of_range (x : Int) (h1 : -(2 ^ 63) ≤ x) (h2 : x < 2 ^ 63) :
    wrapInt x = x := by
  unfold wrapInt
  rw [Int.emod_eq_of_lt (by omega) (by omega)]
  omega

theorem progressLoop_cons (total processed : Int) (key : String) (rest : List String) :
    progressLoop total processed (key :: rest)
      = if Int.tmod (wrapInt (processed + 1)) 10 = 0 ∨ wrapInt (processed + 1) = total then
          match intDiv (wrapInt (wrapInt (processed + 1) * 100)) total with
          | none => none
          | some percentage =>
            (progressLoop total (wrapInt (processed + 1)) rest).map (fun updates =>
              { processed := wrapInt (processed + 1), total := total,
                percentage := percentage } :: updates)
        else progressLoop total (wrapInt (processed + 1)) rest := by
  rw [progressLoop]

/-- The percentage of a count between 1 and the total. -/
theorem intDiv_percentage (processed total : Int) (h1 : 1 ≤ processed)
    (h2 : processed ≤ total) (hsize : total * 100 < 2 ^ 63) :
    intDiv (wrapInt (processed * 100)) total = some (processed * 100 / total)
    ∧ 0 ≤ processed * 100 / total ∧ processed * 100 / total ≤ 100 := by
  have hq0 : 0 ≤ processed * 100 / total := Int.ediv_nonneg (by omega) (by omega)
  have hq1 : processed * 100 / total ≤ 100 := by
    have h := Int.ediv_le_ediv (show (0 : Int) < total by omega)
      (show processed * 100 ≤ 100 * total by omega)
    rwa [Int.mul_ediv_cancel _ (show total ≠ 0 by omega)] at h
  refine ⟨?_, hq0, hq1⟩
  have hw : wrapInt (processed * 100) = processed * 100 :=
    wrapInt_of_range _ (by omega) (by omega)
  have hd : Int.tdiv (processed * 100) total = processed * 100 / total :=
    Int.tdiv_eq_ediv (by omega) (by omega)
  have hwq : wrapInt (processed * 100 / total) = processed * 100 / total :=
    wrapInt_of_range _ (by omega) (by omega)
  unfold intDiv
  rw [if_neg (show total ≠ 0 by omega), hw, hd, hwq]

/-- The loop never divides by zero while it has received at most `total` keys. -/
theorem progressLoop_ok (total : Int) (hsize : total * 100 < 2 ^ 63) (received : List String) :
    ∀ processed : Int, 0 ≤ processed → processed + received.length ≤ total →
      ∃ updates, progressLoop total processed received = some updates
        ∧ ∀ u ∈ updates, u.total = total ∧ processed < u.processed ∧ u.processed ≤ total
            ∧ intDiv (wrapInt (u.processed * 100)) u.total = some u.percentage
            ∧ u.percentage = u.processed * 100 / u.total
            ∧ 0 ≤ u.percentage ∧ u.percentage ≤ 100 := by
  induction received with
  | nil =>
    intro processed _ _
    exact ⟨[], rfl, fun u hu => by cases hu⟩
  | cons key rest ih =>
    intro processed h0 hle
    have hlen : processed + 1 + (rest.length : Int) ≤ total := by
      rw [List.length_cons] at hle
      push_cast at hle
      omega
    have hw : wrapInt (processed + 1) = processed + 1 :=
      wrapInt_of_range _ (by omega) (by omega)
    obtain ⟨updates, hrun, hall⟩ := ih (processed + 1) (by omega) hlen
    have hweak : ∀ u ∈ updates, u.total = total ∧ processed < u.processed
        ∧ u.processed ≤ total
        ∧ intDiv (wrapInt (u.processed * 100)) u.total = some u.percentage
        ∧ u.percentage = u.processed * 100 / u.total
        ∧ 0 ≤ u.percentage ∧ u.percentage ≤ 100 := by
      intro u hu
      obtain ⟨a, b, c⟩ := hall u hu
      exact ⟨a, by omega, c⟩
    rw [progressLoop_cons, hw]
    by_cases hc : Int.tmod (processed + 1) 10 = 0 ∨ processed + 1 = total
    · obtain ⟨hdiv, hq0, hq1⟩ :=
        intDiv_percentage (processed + 1) total (by omega) (by omega) hsize
      rw [if_pos hc, hdiv, hrun]
      refine ⟨_, rfl, ?_⟩
      intro u hu
      rcases List.mem_cons.mp hu with rfl | hu
      · exact ⟨rfl, by show processed < processed + 1; omega,
          by show processed + 1 ≤ total; omega, hdiv, rfl, hq0, hq1⟩
      · exact hweak u hu
    · rw [if_neg hc, hrun]
      exact ⟨updates, rfl, hweak⟩

/-- The channel `progressChan` receives one key per issue. -/
theorem progressSent_length (cfg : Config) (fmtFloat : Float64 → String)
    (issues : List Issue) (env : Nat → Nat → AttemptOutcome) (order : List Nat)
    (horder : order.Perm (List.range issues.length)) :
    (progressSent cfg fmtFloat issues env order).length = issues.length := by
  have hT : (order.filterMap (taskAt cfg fmtFloat issues env)).Perm
      (taskTraces cfg fmtFloat issues env) := by
    rw [← taskTraces_eq]
    exact horder.filterMap _
  have hone : ∀ t ∈ order.filterMap (taskAt cfg fmtFloat issues env),
      (sentProgress t).length = 1 := by
    intro t ht
    have ht' := hT.mem_iff.mp ht
    simp only [taskTraces, List.mem_map] at ht'
    obtain ⟨p, _, rfl⟩ := ht'
    rw [changelogTask_progress_once]
    rfl
  have hlen : (order.filterMap (taskAt cfg fmtFloat issues env)).length = issues.length := by
    rw [hT.length_eq]
    simp [taskTraces]
  unfold progressSent
  rw [← hlen]
  generalize order.filterMap (taskAt cfg fmtFloat issues env) = L at hone
  induction L with
  | nil => rfl
  | cons t L ih =>
    rw [List.map_cons, List.flatten_cons, List.length_append, List.length_cons,
      hone t (List.mem_cons_self _ _), ih (fun x hx => hone x (List.mem_cons_of_mem _ hx))]
    omega

/-- C23: the keys the progress tracker has received at any moment are a first part of
the keys the tasks send, one per issue, so at most `total = len(issues)` of them.  The
tracker therefore never panics on the division: it returns its list of updates, and at
every update (every evaluation of `(processed*100)/total`) `total` is `len(issues)` and
at least 1, `processed` lies between 1 and `total`, the division is defined and its
result lies between 0 and 100; with an empty issue list nothing is received and
nothing is evaluated.  (The size bound says that `len(issues) * 100` fits the `int`.) -/
theorem C23_percentage_defined (cfg : Config) (fmtFloat : Float64 → String)
    (issues : List Issue) (env : Nat → Nat → AttemptOutcome) (order : List Nat)
    (received : List String)
    (horder : order.Perm (List.range issues.length))
    (hrecv : received <+: progressSent cfg fmtFloat issues env order)
    (hsize : (issues.length : Int) * 100 < 2 ^ 63) :
    received.length ≤ issues.length
    ∧ (∃ updates, progressTracker issues received = some updates
        ∧ (∀ u ∈ updates, u.total = issues.length ∧ 1 ≤ u.total
            ∧ 1 ≤ u.processed ∧ u.processed ≤ u.total
            ∧ intDiv (wrapInt (u.processed * 100)) u.total = some u.percentage
            ∧ u.percentage = u.processed * 100 / u.total
            ∧ 0 ≤ u.percentage ∧ u.percentage ≤ 100)
        ∧ (issues = [] → received = [] ∧ updates = [])) := by
  have hlen : received.length ≤ issues.length := by
    rw [← progressSent_length cfg fmtFloat issues env order horder]
    exact hrecv.length_le
  refine ⟨hlen, ?_⟩
  obtain ⟨updates, hrun, hall⟩ := progressLoop_ok (issues.length : Int) hsize received 0
    (le_refl _) (by
      have : (received.length : Int) ≤ issues.length := by exact_mod_cast hlen
      omega)
  refine ⟨updates, hrun, ?_, ?_⟩
  · intro u hu
    obtain ⟨h1, h2, h3, h4, h5, h6, h7⟩ := hall u hu
    exact ⟨h1, by omega, by omega, by omega, h4, h5, h6, h7⟩
  · intro hnil
    have hr : received = [] := by
      rw [hnil] at hlen
      exact List.length_eq_zero.mp (Nat.le_zero.mp hlen)
    refine ⟨hr, ?_⟩
    rw [hr] at hrun
    have : progressTracker issues [] = some [] := rfl
    unfold progressTracker at this
    rw [this] at hrun
    exact (Option.some.inj hrun).symm

/-- Witness of C23: with two issues whose tasks send in the order second, first, the
tracker evaluates the percentage once, at the second key, as 100; with a total of 0 a
tenth key would make the same loop divide by zero. -/
theorem C23_percentage_defined_witness :
    progressSent sampleCfg noFloat sampleIssues envTwoTasks [1, 0] = ["A-2", "A-1"]
    ∧ (∃ updates, progressTracker sampleIssues ["A-2", "A-1"] = some updates
        ∧ (∀ u ∈ updates, u.total = sampleIssues.length ∧ 1 ≤ u.total
            ∧ 1 ≤ u.processed ∧ u.processed ≤ u.total
            ∧ intDiv (wrapInt (u.processed * 100)) u.total = some u.percentage
            ∧ u.percentage = u.processed * 100 / u.total
            ∧ 0 ≤ u.percentage ∧ u.percentage ≤ 100)
        ∧ (sampleIssues = [] → ["A-2", "A-1"] = ([] : List String) ∧ updates = []))
    ∧ progressTracker sampleIssues ["A-2", "A-1"]
        = some [{ processed := 2, total := 2, percentage := 100 }]
    ∧ progressLoop 0 0 (List.replicate 10 "A-1") = none :=
  ⟨rfl,
   (C23_percentage_defined sampleCfg noFloat sampleIssues envTwoTasks [1, 0] ["A-2", "A-1"]
      (List.Perm.swap 0 1 []) (List.prefix_refl _) (by decide)).2,
   by decide, by decide⟩

end Tracker
